import Mathlib

/-! usb-lib: the framed message codec, the USB/IP wire encoding, the URB
path between sender and receiver, the virtual USB device with its port
allocator, the TCP socket, and the mass-storage driver of the sender.

A shallow embedding of `common/network/message_handler.{h,cpp}`,
`common/protocol/usbip_protocol.{h,cpp}`, `common/protocol/usb_types.h`,
`common/network/tcp_socket.{h,cpp}`, the message handlers of the receiver in
`receiver/usbip/usbip_client.cpp`, the `UrbProcessor` and the statistics of
`sender/capture/urb_capture.cpp`, their callers in `sender/main.cpp`,
`sender/usb/mass_storage_device.{h,cpp}` and
`receiver/virtual_device/virtual_usb_device.cpp`, followed by the properties
proved about them.

Conventions of the embedding
* `uint8_t`, `uint16_t`, `uint32_t`, `uint64_t` are `Fin (2^w)`; arithmetic on
  them wraps as in C++.  `int32_t` fields are kept as their 32-bit pattern.
* A `std::vector<uint8_t>` is a `List Byte`; a pointer with a length is the
  list of the bytes it points to.
* `memcpy` of an integer to or from a byte buffer copies its object
  representation, which depends on the byte order of the host.  The host
  byte order is the parameter `h : ByteOrder` of every function that copies
  integers; `htonl`/`ntohl`/`htons`/`ntohs` depend on it in the same way.
* A callback is modelled by the list of values it is invoked with, in order.
  The callbacks of `MessageHandler` and `UsbipClient` are taken to be
  installed; the virtual device records whether its callback is installed.
* An enumeration over `uint8_t` is a `Byte` with named constants, since the
  code casts arbitrary bytes to it.
* A static counter is threaded through the functions that read and advance it.
* The operating system and the USB device are parameters: a function that
  makes system calls or bulk transfers takes their results as arguments.
* The mutex of `MessageHandler` is not modelled: every call runs alone.
-/

namespace UsbLib

/-! ## Machine integers and byte order -/

abbrev Byte := Fin 256
abbrev U16 := Fin 65536
abbrev U32 := Fin 4294967296
abbrev U64 := Fin 18446744073709551616

/-- Truncation of a natural number to `uint8_t`. -/
def byteOf (n : Nat) : Byte := ⟨n % 256, Nat.mod_lt _ (by decide)⟩

/-- Truncation of a natural number to `uint16_t`. -/
def u16Of (n : Nat) : U16 := ⟨n % 65536, Nat.mod_lt _ (by decide)⟩

/-- Truncation of a natural number to `uint32_t` (`static_cast<uint32_t>`). -/
def u32Of (n : Nat) : U32 := ⟨n % 4294967296, Nat.mod_lt _ (by decide)⟩

/-- Truncation of a natural number to `uint64_t`. -/
def u64Of (n : Nat) : U64 := ⟨n % 18446744073709551616, Nat.mod_lt _ (by decide)⟩

/-- Byte order of the host the program runs on. -/
inductive ByteOrder where
  | little
  | big
  deriving DecidableEq, Repr

/-- The four bytes of a 32-bit value, most significant first. -/
def be32 (x : U32) : List Byte :=
  [byteOf (x.val / 16777216), byteOf (x.val / 65536), byteOf (x.val / 256), byteOf x.val]

/-- The two bytes of a 16-bit value, most significant first. -/
def be16 (x : U16) : List Byte :=
  [byteOf (x.val / 256), byteOf x.val]

/-- The eight bytes of a 64-bit value, most significant first. -/
def be64 (x : U64) : List Byte :=
  [byteOf (x.val / 72057594037927936), byteOf (x.val / 281474976710656),
   byteOf (x.val / 1099511627776), byteOf (x.val / 4294967296),
   byteOf (x.val / 16777216), byteOf (x.val / 65536), byteOf (x.val / 256), byteOf x.val]

/-- The 32-bit value whose bytes, most significant first, are `a b c d`. -/
def fromBE32 (a b c d : Byte) : U32 :=
  u32Of (a.val * 16777216 + b.val * 65536 + c.val * 256 + d.val)

/-- The 16-bit value whose bytes, most significant first, are `a b`. -/
def fromBE16 (a b : Byte) : U16 :=
  u16Of (a.val * 256 + b.val)

/-- The 64-bit value whose bytes, most significant first, are `a .. g`. -/
def fromBE64 (a b c d e f g k : Byte) : U64 :=
  u64Of (a.val * 72057594037927936 + b.val * 281474976710656 + c.val * 1099511627776
    + d.val * 4294967296 + e.val * 16777216 + f.val * 65536 + g.val * 256 + k.val)

/-- Object representation of a `uint32_t` in host memory: what
`memcpy(dst, &x, 4)` writes. -/
def store32 (h : ByteOrder) (x : U32) : List Byte :=
  match h with
  | .big => be32 x
  | .little => (be32 x).reverse

/-- Object representation of a `uint16_t` in host memory. -/
def store16 (h : ByteOrder) (x : U16) : List Byte :=
  match h with
  | .big => be16 x
  | .little => (be16 x).reverse

/-- Object representation of a `uint64_t` in host memory. -/
def store64 (h : ByteOrder) (x : U64) : List Byte :=
  match h with
  | .big => be64 x
  | .little => (be64 x).reverse

/-- The `uint32_t` that `memcpy(&x, src, 4)` yields from the first four bytes
of `bs`.  Callers guarantee that four bytes are present; missing bytes read
as zero. -/
def load32 (h : ByteOrder) (bs : List Byte) : U32 :=
  match h with
  | .big => fromBE32 (bs.getD 0 0) (bs.getD 1 0) (bs.getD 2 0) (bs.getD 3 0)
  | .little => fromBE32 (bs.getD 3 0) (bs.getD 2 0) (bs.getD 1 0) (bs.getD 0 0)

/-- The `uint16_t` that `memcpy(&x, src, 2)` yields from the first two bytes
of `bs`. -/
def load16 (h : ByteOrder) (bs : List Byte) : U16 :=
  match h with
  | .big => fromBE16 (bs.getD 0 0) (bs.getD 1 0)
  | .little => fromBE16 (bs.getD 1 0) (bs.getD 0 0)

/-- The `uint64_t` that `memcpy(&x, src, 8)` yields from the first eight bytes
of `bs`. -/
def load64 (h : ByteOrder) (bs : List Byte) : U64 :=
  match h with
  | .big => fromBE64 (bs.getD 0 0) (bs.getD 1 0) (bs.getD 2 0) (bs.getD 3 0)
      (bs.getD 4 0) (bs.getD 5 0) (bs.getD 6 0) (bs.getD 7 0)
  | .little => fromBE64 (bs.getD 7 0) (bs.getD 6 0) (bs.getD 5 0) (bs.getD 4 0)
      (bs.getD 3 0) (bs.getD 2 0) (bs.getD 1 0) (bs.getD 0 0)

/-- Byte swap of a 32-bit value. -/
def bswap32 (x : U32) : U32 :=
  fromBE32 (byteOf x.val) (byteOf (x.val / 256)) (byteOf (x.val / 65536))
    (byteOf (x.val / 16777216))

/-- Byte swap of a 16-bit value. -/
def bswap16 (x : U16) : U16 :=
  fromBE16 (byteOf x.val) (byteOf (x.val / 256))

/-- The libc function `htonl`: identity on a big-endian host, byte swap on a
little-endian host. -/
def htonl (h : ByteOrder) (x : U32) : U32 :=
  match h with
  | .big => x
  | .little => bswap32 x

/-- The libc function `ntohl`. -/
def ntohl (h : ByteOrder) (x : U32) : U32 :=
  match h with
  | .big => x
  | .little => bswap32 x

/-- The libc function `htons`. -/
def htons (h : ByteOrder) (x : U16) : U16 :=
  match h with
  | .big => x
  | .little => bswap16 x

/-- The libc function `ntohs`. -/
def ntohs (h : ByteOrder) (x : U16) : U16 :=
  match h with
  | .big => x
  | .little => bswap16 x

/-! ## `common/network/message_handler.h` -/

/-- The enumeration `MessageType`. -/
inductive MessageType where
  | DEVICE_LIST_REQUEST
  | DEVICE_LIST_RESPONSE
  | DEVICE_IMPORT_REQUEST
  | DEVICE_IMPORT_RESPONSE
  | URB_SUBMIT
  | URB_RESPONSE
  | DEVICE_DISCONNECT
  | HEARTBEAT
  deriving DecidableEq, Repr

/-- The underlying `uint32_t` of a `MessageType` (`static_cast<uint32_t>`). -/
def MessageType.toU32 : MessageType → U32
  | .DEVICE_LIST_REQUEST => 1
  | .DEVICE_LIST_RESPONSE => 2
  | .DEVICE_IMPORT_REQUEST => 3
  | .DEVICE_IMPORT_RESPONSE => 4
  | .URB_SUBMIT => 5
  | .URB_RESPONSE => 6
  | .DEVICE_DISCONNECT => 7
  | .HEARTBEAT => 8

/-- The packed struct `MessageHeader` (20 bytes). -/
structure MessageHeader where
  magic : U32
  type : U32
  length : U32
  sequence : U32
  checksum : U32
  deriving DecidableEq, Repr

/-- The struct `NetworkMessage`. -/
structure NetworkMessage where
  header : MessageHeader
  payload : List Byte
  deriving DecidableEq, Repr

/-- The constant `MessageHandler::MESSAGE_MAGIC`, "USBI". -/
def MESSAGE_MAGIC : U32 := 0x55534249

/-- The constant `MessageHandler::MAX_MESSAGE_SIZE`, 1 MiB. -/
def MAX_MESSAGE_SIZE : Nat := 1024 * 1024

/-- The value of `sizeof(MessageHeader)`. -/
def sizeofMessageHeader : Nat := 20

/-! ## `common/network/message_handler.cpp` -/

/-- The function `MessageHandler::GetNextSequence`: `return next_sequence_++`.
The argument is the static counter `next_sequence_`; the result is the
returned value and the counter afterwards. -/
def GetNextSequence (next_sequence : U32) : U32 × U32 :=
  (next_sequence, next_sequence + 1)

/-- Initial value of the static counter `MessageHandler::next_sequence_`. -/
def initialNextSequence : U32 := 1

/-- The constructor `NetworkMessage(MessageType type, const std::vector<uint8_t>& data)`,
threading the static sequence counter. -/
def NetworkMessage.create (type : MessageType) (data : List Byte) (next_sequence : U32) :
    NetworkMessage × U32 :=
  let s := GetNextSequence next_sequence
  ({ header := { magic := MESSAGE_MAGIC
                 type := type.toU32
                 length := u32Of data.length
                 sequence := s.1
                 checksum := 0 }
     payload := data }, s.2)

/-- The value-initialised `NetworkMessage()` of the defaulted default
constructor: a zeroed header and an empty payload. -/
def NetworkMessage.zero : NetworkMessage :=
  { header := { magic := 0, type := 0, length := 0, sequence := 0, checksum := 0 }
    payload := [] }

/-- The function `MessageHandler::CalculateChecksum` over the bytes
`data[0 .. len)`: a `uint32_t` accumulator, `checksum += data[i]`. -/
def CalculateChecksum (data : List Byte) : U32 :=
  data.foldl (fun checksum b => checksum + u32Of b.val) 0

/-- The function `MessageHandler::ValidateMessage`; `payload` is the buffer
from the end of the header on, of which `header.length` bytes are summed. -/
def ValidateMessage (header : MessageHeader) (payload : List Byte) : Bool :=
  if header.length = 0 then
    decide (header.checksum = 0)
  else
    decide (CalculateChecksum (payload.take header.length.val) = header.checksum)

/-- The copy `memcpy(&header, data, sizeof(MessageHeader))` followed by the five
`ntohl` conversions. -/
def readHeader (h : ByteOrder) (data : List Byte) : MessageHeader :=
  { magic := ntohl h (load32 h data)
    type := ntohl h (load32 h (data.drop 4))
    length := ntohl h (load32 h (data.drop 8))
    sequence := ntohl h (load32 h (data.drop 12))
    checksum := ntohl h (load32 h (data.drop 16)) }

/-- The five `htonl` conversions followed by
`memcpy(buffer.data(), &header, sizeof(MessageHeader))`. -/
def writeHeader (h : ByteOrder) (header : MessageHeader) : List Byte :=
  store32 h (htonl h header.magic) ++ store32 h (htonl h header.type)
    ++ store32 h (htonl h header.length) ++ store32 h (htonl h header.sequence)
    ++ store32 h (htonl h header.checksum)

/-- The function `MessageHandler::SerializeMessage`. -/
def SerializeMessage (h : ByteOrder) (message : NetworkMessage) : List Byte :=
  let header : MessageHeader :=
    { message.header with checksum := CalculateChecksum message.payload }
  writeHeader h header ++ message.payload

/-- The function `MessageHandler::ProcessCompleteMessage(data, len)` with a
message callback installed: the message handed to the callback, or `none` when
the function returns without calling it. -/
def ProcessCompleteMessage (h : ByteOrder) (data : List Byte) : Option NetworkMessage :=
  if data.length < sizeofMessageHeader then
    none
  else
    let header := readHeader h data
    let payload :=
      if header.length.val > 0 then
        (data.drop sizeofMessageHeader).take header.length.val
      else
        []
    some { header := header, payload := payload }

/-- The algorithm `std::search(first, last, s_first, s_last)`: the index of
the first occurrence of `pat` in `hay`, or `none` when it returns `last`. -/
def search (hay pat : List Byte) : Option Nat :=
  match hay with
  | [] => if pat = [] then some 0 else none
  | x :: xs =>
    if (x :: xs).take pat.length = pat then some 0
    else (search xs pat).map (· + 1)

/-- The loop of `MessageHandler::ProcessReceivedData` on the receive buffer
`buf`, with at most `fuel` iterations.  The result is the list of messages
handed to the callback, in order, and the receive buffer at loop exit; `none`
when the iterations are used up. -/
def processLoop (h : ByteOrder) : Nat → List Byte → Option (List NetworkMessage × List Byte)
  | 0, _ => none
  | fuel + 1, buf =>
    if buf.length < sizeofMessageHeader then
      some ([], buf)
    else
      let header := readHeader h buf
      if header.magic ≠ MESSAGE_MAGIC then
        -- std::search(begin() + 1, end(), (uint8_t*)&MESSAGE_MAGIC, ... + 4)
        match search buf.tail (store32 h MESSAGE_MAGIC) with
        | some k => processLoop h fuel (buf.drop (k + 1))
        | none => processLoop h fuel []
      else if header.length.val > MAX_MESSAGE_SIZE then
        processLoop h fuel (buf.drop sizeofMessageHeader)
      else
        let total_size := sizeofMessageHeader + header.length.val
        if buf.length < total_size then
          some ([], buf)
        else
          let delivered :=
            if ValidateMessage header (buf.drop sizeofMessageHeader) then
              (ProcessCompleteMessage h (buf.take total_size)).toList
            else
              []
          match processLoop h fuel (buf.drop total_size) with
          | some (ms, rest) => some (delivered ++ ms, rest)
          | none => none

/-- The function `MessageHandler::ProcessReceivedData(data, len)` on a handler
whose receive buffer is `receive_buffer`: the data is appended and the loop
runs.  Every iteration that does not leave the loop removes at least one byte,
so one more iteration than the buffer has bytes is always enough. -/
def ProcessReceivedData (h : ByteOrder) (receive_buffer data : List Byte) :
    Option (List NetworkMessage × List Byte) :=
  processLoop h ((receive_buffer ++ data).length + 1) (receive_buffer ++ data)

/-- The function `MessageHandler::CreateHeartbeat`. -/
def CreateHeartbeat (next_sequence : U32) : NetworkMessage × U32 :=
  NetworkMessage.create .HEARTBEAT [] next_sequence

/-- Feeding the chunks `chunks` one call of `ProcessReceivedData` after the
other to a handler whose receive buffer is `buf`: all messages delivered, in
order, and the final receive buffer. -/
def feedAll (h : ByteOrder) : List Byte → List (List Byte) →
    Option (List NetworkMessage × List Byte)
  | buf, [] => some ([], buf)
  | buf, c :: cs =>
    (ProcessReceivedData h buf c).bind fun r1 =>
      (feedAll h r1.2 cs).map fun r2 => (r1.1 ++ r2.1, r2.2)

/-- Constructing one `NetworkMessage` per element of `args` with the
two-argument constructor, in order, starting with the static counter at
`next_sequence`: the messages and the counter afterwards. -/
def constructAll : List (MessageType × List Byte) → U32 → List NetworkMessage × U32
  | [], s => ([], s)
  | a :: rest, s =>
    let r := NetworkMessage.create a.1 a.2 s
    let rs := constructAll rest r.2
    (r.1 :: rs.1, rs.2)

/-! ## `common/protocol/usbip_protocol.h` -/

/-- An `int32_t`, kept as its 32-bit two's-complement pattern. -/
abbrev I32 := U32

/-- A `char[n]` array: exactly `n` bytes. -/
abbrev CharArray (n : Nat) := { l : List Byte // l.length = n }

/-- The `n` bytes `memcpy` copies into a `char[n]` from the start of `bs`.
Callers guarantee that `n` bytes are present; missing bytes read as zero. -/
def readChars (n : Nat) (bs : List Byte) : CharArray n :=
  ⟨(bs ++ List.replicate n 0).take n, by simp [List.length_take]⟩

/-- The enumerator `UsbipOpCode::OP_REQUEST`. -/
def OP_REQUEST : U32 := 0x80000000
/-- The enumerator `UsbipOpCode::OP_REPLY`. -/
def OP_REPLY : U32 := 0x00000000
/-- The enumerator `UsbipOpCode::OP_DEVLIST`. -/
def OP_DEVLIST : U32 := 0x00000005
/-- The enumerator `UsbipOpCode::OP_IMPORT`. -/
def OP_IMPORT : U32 := 0x00000003
/-- The enumerator `UsbipOpCode::USBIP_CMD_SUBMIT`. -/
def USBIP_CMD_SUBMIT : U32 := 0x00000001
/-- The enumerator `UsbipOpCode::USBIP_CMD_UNLINK`. -/
def USBIP_CMD_UNLINK : U32 := 0x00000002
/-- The enumerator `UsbipOpCode::USBIP_RET_SUBMIT`. -/
def USBIP_RET_SUBMIT : U32 := 0x00000003
/-- The enumerator `UsbipOpCode::USBIP_RET_UNLINK`. -/
def USBIP_RET_UNLINK : U32 := 0x00000004

/-- The packed struct `UsbipHeader` (20 bytes). -/
structure UsbipHeader where
  command : U32
  seqnum : U32
  devid : U32
  direction : U32
  ep : U32
  deriving DecidableEq, Repr

/-- The packed struct `UsbipCmdSubmit` (48 bytes). -/
structure UsbipCmdSubmit where
  header : UsbipHeader
  transfer_flags : U32
  transfer_buffer_length : I32
  start_frame : I32
  number_of_packets : I32
  interval : I32
  setup : U64
  deriving DecidableEq, Repr

/-- The packed struct `UsbipDeviceInfo` (312 bytes). -/
structure UsbipDeviceInfo where
  path : CharArray 256
  busid : CharArray 32
  busnum : U32
  devnum : U32
  speed : U32
  idVendor : U16
  idProduct : U16
  bcdDevice : U16
  bDeviceClass : Byte
  bDeviceSubClass : Byte
  bDeviceProtocol : Byte
  bConfigurationValue : Byte
  bNumConfigurations : Byte
  bNumInterfaces : Byte
  deriving DecidableEq

/-- The value of `sizeof(UsbipCmdSubmit)`. -/
def sizeofUsbipCmdSubmit : Nat := 48

/-- The value of `sizeof(UsbipDeviceInfo)`. -/
def sizeofUsbipDeviceInfo : Nat := 312

/-! ## `common/protocol/usbip_protocol.cpp` -/

/-- The copy `memcpy(dst, &device, sizeof(UsbipDeviceInfo))`: the object
representation of the packed struct. -/
def storeDeviceInfo (h : ByteOrder) (d : UsbipDeviceInfo) : List Byte :=
  d.path.val ++ d.busid.val ++ store32 h d.busnum ++ store32 h d.devnum ++ store32 h d.speed
    ++ store16 h d.idVendor ++ store16 h d.idProduct ++ store16 h d.bcdDevice
    ++ [d.bDeviceClass, d.bDeviceSubClass, d.bDeviceProtocol, d.bConfigurationValue,
        d.bNumConfigurations, d.bNumInterfaces]

/-- The copy `memcpy(&device_info, src, sizeof(UsbipDeviceInfo))`. -/
def loadDeviceInfo (h : ByteOrder) (bs : List Byte) : UsbipDeviceInfo :=
  { path := readChars 256 bs
    busid := readChars 32 (bs.drop 256)
    busnum := load32 h (bs.drop 288)
    devnum := load32 h (bs.drop 292)
    speed := load32 h (bs.drop 296)
    idVendor := load16 h (bs.drop 300)
    idProduct := load16 h (bs.drop 302)
    bcdDevice := load16 h (bs.drop 304)
    bDeviceClass := bs.getD 306 0
    bDeviceSubClass := bs.getD 307 0
    bDeviceProtocol := bs.getD 308 0
    bConfigurationValue := bs.getD 309 0
    bNumConfigurations := bs.getD 310 0
    bNumInterfaces := bs.getD 311 0 }

/-- The six byte-order conversions `SerializeDeviceList` applies to its copy
`net_device` of a device record. -/
def deviceHostToNetwork (h : ByteOrder) (device : UsbipDeviceInfo) : UsbipDeviceInfo :=
  { device with
    busnum := htonl h device.busnum
    devnum := htonl h device.devnum
    speed := htonl h device.speed
    idVendor := htons h device.idVendor
    idProduct := htons h device.idProduct
    bcdDevice := htons h device.bcdDevice }

/-- The function `UsbipProtocol::SerializeDeviceList`. -/
def SerializeDeviceList (h : ByteOrder) (devices : List UsbipDeviceInfo) : List Byte :=
  let op_code := htonl h (u32Of (OP_REPLY.val ||| OP_DEVLIST.val))
  let status := htonl h 0
  let num_devices := htonl h (u32Of devices.length)
  let buffer := store32 h op_code ++ store32 h status ++ store32 h num_devices
  devices.foldl (fun buffer device =>
    let net_device := deviceHostToNetwork h device
    buffer ++ storeDeviceInfo h net_device) buffer

/-- The function `UsbipProtocol::HostToNetwork(UsbipHeader&)`. -/
def HostToNetworkHeader (h : ByteOrder) (header : UsbipHeader) : UsbipHeader :=
  { command := htonl h header.command
    seqnum := htonl h header.seqnum
    devid := htonl h header.devid
    direction := htonl h header.direction
    ep := htonl h header.ep }

/-- The function `UsbipProtocol::NetworkToHost(UsbipHeader&)`. -/
def NetworkToHostHeader (h : ByteOrder) (header : UsbipHeader) : UsbipHeader :=
  { command := ntohl h header.command
    seqnum := ntohl h header.seqnum
    devid := ntohl h header.devid
    direction := ntohl h header.direction
    ep := ntohl h header.ep }

/-- The function `UsbipProtocol::HostToNetwork(UsbipCmdSubmit&)`; `setup` is
left as it is. -/
def HostToNetworkCmdSubmit (h : ByteOrder) (cmd : UsbipCmdSubmit) : UsbipCmdSubmit :=
  { header := HostToNetworkHeader h cmd.header
    transfer_flags := htonl h cmd.transfer_flags
    transfer_buffer_length := htonl h cmd.transfer_buffer_length
    start_frame := htonl h cmd.start_frame
    number_of_packets := htonl h cmd.number_of_packets
    interval := htonl h cmd.interval
    setup := cmd.setup }

/-- The function `UsbipProtocol::NetworkToHost(UsbipCmdSubmit&)`. -/
def NetworkToHostCmdSubmit (h : ByteOrder) (cmd : UsbipCmdSubmit) : UsbipCmdSubmit :=
  { header := NetworkToHostHeader h cmd.header
    transfer_flags := ntohl h cmd.transfer_flags
    transfer_buffer_length := ntohl h cmd.transfer_buffer_length
    start_frame := ntohl h cmd.start_frame
    number_of_packets := ntohl h cmd.number_of_packets
    interval := ntohl h cmd.interval
    setup := cmd.setup }

/-- The copy `memcpy(dst, &cmd, sizeof(UsbipCmdSubmit))`: the object
representation of the packed struct. -/
def storeCmdSubmit (h : ByteOrder) (cmd : UsbipCmdSubmit) : List Byte :=
  store32 h cmd.header.command ++ store32 h cmd.header.seqnum ++ store32 h cmd.header.devid
    ++ store32 h cmd.header.direction ++ store32 h cmd.header.ep
    ++ store32 h cmd.transfer_flags ++ store32 h cmd.transfer_buffer_length
    ++ store32 h cmd.start_frame ++ store32 h cmd.number_of_packets ++ store32 h cmd.interval
    ++ store64 h cmd.setup

/-- The copy `memcpy(&cmd, data, sizeof(UsbipCmdSubmit))`. -/
def loadCmdSubmit (h : ByteOrder) (data : List Byte) : UsbipCmdSubmit :=
  { header :=
      { command := load32 h data
        seqnum := load32 h (data.drop 4)
        devid := load32 h (data.drop 8)
        direction := load32 h (data.drop 12)
        ep := load32 h (data.drop 16) }
    transfer_flags := load32 h (data.drop 20)
    transfer_buffer_length := load32 h (data.drop 24)
    start_frame := load32 h (data.drop 28)
    number_of_packets := load32 h (data.drop 32)
    interval := load32 h (data.drop 36)
    setup := load64 h (data.drop 40) }

/-- The function `UsbipProtocol::SerializeCmdSubmit(cmd, data, data_len)`; the
list `data` stands for the `data_len` bytes at the pointer `data` (a null
pointer with `data_len == 0` is the empty list).  The buffer is resized, which
zero-fills it, the converted command is copied to its start and the data is
copied behind it when `data_len > 0`. -/
def SerializeCmdSubmit (h : ByteOrder) (cmd : UsbipCmdSubmit) (data : List Byte) : List Byte :=
  let net_cmd := HostToNetworkCmdSubmit h cmd
  storeCmdSubmit h net_cmd ++
    (if data.length > 0 then data else List.replicate data.length 0)

/-- The function `UsbipProtocol::ParseCmdSubmit(data, len, cmd)`: `none` when
it returns `false`, the value written to `cmd` when it returns `true`. -/
def ParseCmdSubmit (h : ByteOrder) (data : List Byte) : Option UsbipCmdSubmit :=
  if data.length < sizeofUsbipCmdSubmit then
    none
  else
    some (NetworkToHostCmdSubmit h (loadCmdSubmit h data))

/-! ## `receiver/usbip/usbip_client.cpp` -/

/-- The six byte-order conversions `HandleDeviceListResponse` applies to a
device record copied from the payload. -/
def deviceNetworkToHost (h : ByteOrder) (device_info : UsbipDeviceInfo) : UsbipDeviceInfo :=
  { device_info with
    busnum := ntohl h device_info.busnum
    devnum := ntohl h device_info.devnum
    speed := ntohl h device_info.speed
    idVendor := ntohs h device_info.idVendor
    idProduct := ntohs h device_info.idProduct
    bcdDevice := ntohs h device_info.bcdDevice }

/-- The device loop of `UsbipClient::HandleDeviceListResponse`: `remaining` is
`num_devices - i`, the number of iterations the counter `i` still allows, and
`offset` the read position in the payload. -/
def parseDevices (h : ByteOrder) (payload : List Byte) :
    Nat → Nat → List UsbipDeviceInfo
  | 0, _ => []
  | remaining + 1, offset =>
    if offset + sizeofUsbipDeviceInfo ≤ payload.length then
      let device_info := deviceNetworkToHost h (loadDeviceInfo h (payload.drop offset))
      device_info :: parseDevices h payload remaining (offset + sizeofUsbipDeviceInfo)
    else
      []

/-- The function `UsbipClient::HandleDeviceListResponse` with a device-list
callback installed: the list handed to the callback. -/
def HandleDeviceListResponse (h : ByteOrder) (message : NetworkMessage) : List UsbipDeviceInfo :=
  if message.payload.length ≥ 12 then
    let offset := 8
    if offset + 4 ≤ message.payload.length then
      let num_devices := ntohl h (load32 h (message.payload.drop offset))
      parseDevices h message.payload num_devices.val (offset + 4)
    else
      []
  else
    []

/-- The function `MessageHandler::CreateDeviceListResponse`. -/
def CreateDeviceListResponse (h : ByteOrder) (devices : List UsbipDeviceInfo)
    (next_sequence : U32) : NetworkMessage × U32 :=
  NetworkMessage.create .DEVICE_LIST_RESPONSE (SerializeDeviceList h devices) next_sequence

/-! ## `tests/test_protocol.cpp` -/

/-- The device record built in `TestUsbipProtocol`: path
"/dev/bus/usb/001/002", bus id "1-2", bus 1, device 2, speed HIGH, vendor
`0x1234`, product `0x5678`, class MASS_STORAGE, everything else zero. -/
def testDevice : UsbipDeviceInfo :=
  { path := ⟨[0x2F, 0x64, 0x65, 0x76, 0x2F, 0x62, 0x75, 0x73, 0x2F, 0x75, 0x73, 0x62, 0x2F,
              0x30, 0x30, 0x31, 0x2F, 0x30, 0x30, 0x32] ++ List.replicate 236 0,
              by rw [List.length_append, List.length_replicate]; rfl⟩
    busid := ⟨[0x31, 0x2D, 0x32] ++ List.replicate 29 0,
               by rw [List.length_append, List.length_replicate]; rfl⟩
    busnum := 1
    devnum := 2
    speed := 3
    idVendor := 0x1234
    idProduct := 0x5678
    bcdDevice := 0
    bDeviceClass := 0x08
    bDeviceSubClass := 0
    bDeviceProtocol := 0
    bConfigurationValue := 0
    bNumConfigurations := 0
    bNumInterfaces := 0 }

/-! ## `common/protocol/usb_types.h` -/

/-- The enumeration `UsbTransferType`, an `enum class` over `uint8_t`: a value
is any byte, the enumerators are the four constants below. -/
abbrev UsbTransferType := Byte

/-- The enumerator `UsbTransferType::CONTROL`. -/
def UsbTransferType.CONTROL : UsbTransferType := 0
/-- The enumerator `UsbTransferType::ISOCHRONOUS`. -/
def UsbTransferType.ISOCHRONOUS : UsbTransferType := 1
/-- The enumerator `UsbTransferType::BULK`. -/
def UsbTransferType.BULK : UsbTransferType := 2
/-- The enumerator `UsbTransferType::INTERRUPT`. -/
def UsbTransferType.INTERRUPT : UsbTransferType := 3

/-- The enumeration `UsbDirection`, an `enum class` over `uint8_t`: a value is
any byte (a `static_cast` from a wire field can yield each), the enumerators
are the two constants below. -/
abbrev UsbDirection := Byte

/-- The enumerator `UsbDirection::OUT`, host to device. -/
def UsbDirection.OUT : UsbDirection := 0
/-- The enumerator `UsbDirection::IN`, device to host. -/
def UsbDirection.IN : UsbDirection := 1

/-- The enumerator `UsbDeviceClass::MASS_STORAGE`. -/
def MASS_STORAGE : Byte := 0x08

/-- The enumerator `UsbStandardRequest::GET_DESCRIPTOR`. -/
def GET_DESCRIPTOR : Byte := 0x06
/-- The enumerator `UsbStandardRequest::GET_CONFIGURATION`. -/
def GET_CONFIGURATION : Byte := 0x08
/-- The enumerator `UsbStandardRequest::SET_CONFIGURATION`. -/
def SET_CONFIGURATION : Byte := 0x09

/-- The enumerator `UsbDescriptorType::DEVICE`. -/
def DESCRIPTOR_DEVICE : Byte := 0x01
/-- The enumerator `UsbDescriptorType::CONFIGURATION`. -/
def DESCRIPTOR_CONFIGURATION : Byte := 0x02
/-- The enumerator `UsbDescriptorType::STRING`. -/
def DESCRIPTOR_STRING : Byte := 0x03

/-- The packed struct `UsbSetupPacket` (8 bytes). -/
structure UsbSetupPacket where
  bmRequestType : Byte
  bRequest : Byte
  wValue : U16
  wIndex : U16
  wLength : U16
  deriving DecidableEq, Repr

/-- The packed struct `UsbDeviceDescriptor` (18 bytes). -/
structure UsbDeviceDescriptor where
  bLength : Byte
  bDescriptorType : Byte
  bcdUSB : U16
  bDeviceClass : Byte
  bDeviceSubClass : Byte
  bDeviceProtocol : Byte
  bMaxPacketSize0 : Byte
  idVendor : U16
  idProduct : U16
  bcdDevice : U16
  iManufacturer : Byte
  iProduct : Byte
  iSerialNumber : Byte
  bNumConfigurations : Byte
  deriving DecidableEq, Repr

/-- The struct `UsbUrb`. -/
structure UsbUrb where
  id : U32
  type : UsbTransferType
  direction : UsbDirection
  endpoint : Byte
  flags : U32
  data : List Byte
  setup : UsbSetupPacket
  status : I32
  actual_length : U32
  timestamp : U64
  deriving DecidableEq, Repr

/-- Object representation of a `UsbSetupPacket` in host memory: what
`memcpy(dst, &setup, 8)` writes. -/
def storeSetup (h : ByteOrder) (s : UsbSetupPacket) : List Byte :=
  [s.bmRequestType, s.bRequest] ++ store16 h s.wValue ++ store16 h s.wIndex
    ++ store16 h s.wLength

/-- The `UsbSetupPacket` that `memcpy(&setup, src, 8)` yields from the first
eight bytes of `bs`. -/
def loadSetup (h : ByteOrder) (bs : List Byte) : UsbSetupPacket :=
  { bmRequestType := bs.getD 0 0
    bRequest := bs.getD 1 0
    wValue := load16 h (bs.drop 2)
    wIndex := load16 h (bs.drop 4)
    wLength := load16 h (bs.drop 6) }

/-- Object representation of a `UsbDeviceDescriptor` in host memory: the 18
bytes behind a `UsbDeviceDescriptor*`. -/
def storeDeviceDescriptor (h : ByteOrder) (d : UsbDeviceDescriptor) : List Byte :=
  [d.bLength, d.bDescriptorType] ++ store16 h d.bcdUSB
    ++ [d.bDeviceClass, d.bDeviceSubClass, d.bDeviceProtocol, d.bMaxPacketSize0]
    ++ store16 h d.idVendor ++ store16 h d.idProduct ++ store16 h d.bcdDevice
    ++ [d.iManufacturer, d.iProduct, d.iSerialNumber, d.bNumConfigurations]

/-- The call `v.resize(n)` on a `std::vector<uint8_t>`: truncation, or padding
with zero bytes. -/
def resize (v : List Byte) (n : Nat) : List Byte :=
  v.take n ++ List.replicate (n - v.length) 0

/-- The value of an `int32_t` kept as its 32-bit pattern. -/
def I32.toInt (x : I32) : Int :=
  if x.val < 2147483648 then (x.val : Int) else (x.val : Int) - 4294967296

/-- The bytes of a `std::string` given by its characters (ASCII). -/
def stringBytes (s : String) : List Byte :=
  s.toList.map fun c => byteOf c.toNat

/-! ## `common/protocol/usbip_protocol.{h,cpp}`: RET_SUBMIT -/

/-- The packed struct `UsbipRetSubmit` (40 bytes). -/
structure UsbipRetSubmit where
  header : UsbipHeader
  status : I32
  actual_length : I32
  start_frame : I32
  number_of_packets : I32
  error_count : I32
  deriving DecidableEq, Repr

/-- The value of `sizeof(UsbipRetSubmit)`. -/
def sizeofUsbipRetSubmit : Nat := 40

/-- The function `UsbipProtocol::HostToNetwork(UsbipRetSubmit&)`. -/
def HostToNetworkRetSubmit (h : ByteOrder) (ret : UsbipRetSubmit) : UsbipRetSubmit :=
  { header := HostToNetworkHeader h ret.header
    status := htonl h ret.status
    actual_length := htonl h ret.actual_length
    start_frame := htonl h ret.start_frame
    number_of_packets := htonl h ret.number_of_packets
    error_count := htonl h ret.error_count }

/-- The copy `memcpy(dst, &ret, sizeof(UsbipRetSubmit))`. -/
def storeRetSubmit (h : ByteOrder) (ret : UsbipRetSubmit) : List Byte :=
  store32 h ret.header.command ++ store32 h ret.header.seqnum ++ store32 h ret.header.devid
    ++ store32 h ret.header.direction ++ store32 h ret.header.ep
    ++ store32 h ret.status ++ store32 h ret.actual_length
    ++ store32 h ret.start_frame ++ store32 h ret.number_of_packets
    ++ store32 h ret.error_count

/-- The function `UsbipProtocol::SerializeRetSubmit(ret, data, data_len)`, with
the same reading of `(data, data_len)` as for `SerializeCmdSubmit`. -/
def SerializeRetSubmit (h : ByteOrder) (ret : UsbipRetSubmit) (data : List Byte) : List Byte :=
  let net_ret := HostToNetworkRetSubmit h ret
  storeRetSubmit h net_ret ++
    (if data.length > 0 then data else List.replicate data.length 0)

/-! ## `common/network/message_handler.cpp`: the message constructors -/

/-- The function `MessageHandler::CreateDeviceImportResponse(success, error)`;
`error` is the `std::string` as its bytes. -/
def CreateDeviceImportResponse (success : Bool) (error : List Byte) (next_sequence : U32) :
    NetworkMessage × U32 :=
  let data : List Byte := [if success then 1 else 0]
  let data := if !success && !error.isEmpty then data ++ error else data
  NetworkMessage.create .DEVICE_IMPORT_RESPONSE data next_sequence

/-- The function `MessageHandler::CreateUrbSubmit`: the URB is not used and the
payload is empty. -/
def CreateUrbSubmit (_urb : UsbUrb) (next_sequence : U32) : NetworkMessage × U32 :=
  let data : List Byte := []
  NetworkMessage.create .URB_SUBMIT data next_sequence

/-- The function `MessageHandler::CreateUrbResponse`: the URB is not used and
the payload is empty. -/
def CreateUrbResponse (_urb : UsbUrb) (next_sequence : U32) : NetworkMessage × U32 :=
  let data : List Byte := []
  NetworkMessage.create .URB_RESPONSE data next_sequence

/-! ## `receiver/usbip/usbip_client.cpp`: responses and submitted URBs -/

/-- The function `UsbipClient::HandleDeviceImportResponse`: the values of its
locals `success` and `error_msg` when it logs the outcome. -/
def HandleDeviceImportResponse (message : NetworkMessage) : Bool × List Byte :=
  match message.payload with
  | [] => (false, [])
  | b :: rest =>
    let success := b != 0
    let error_msg := if !success && (b :: rest).length > 1 then rest else []
    (success, error_msg)

/-- The function `UsbipClient::SendUrbResponse` on a connected client: the
bytes handed to `tcp_client_->Send`, and the sequence counter afterwards;
`none` when the client is not connected and nothing is sent. -/
def SendUrbResponse (h : ByteOrder) (connected : Bool) (urb : UsbUrb) (next_sequence : U32) :
    Option (List Byte × U32) :=
  if !connected then
    none
  else
    let message := CreateUrbResponse urb next_sequence
    some (SerializeMessage h message.1, message.2)

/-- The function `UsbipClient::HandleUrbSubmit` with a URB callback installed:
the URB handed to the callback, or `none` when the function returns early.
The local `urb` is default-initialised: `uninit` stands for the indeterminate
values of its scalar members, its `data` starts empty; `now` is the reading of
the steady clock in microseconds. -/
def HandleUrbSubmit (h : ByteOrder) (uninit : UsbUrb) (now : U64) (message : NetworkMessage) :
    Option UsbUrb :=
  if message.payload.length < sizeofUsbipCmdSubmit then
    none
  else
    match ParseCmdSubmit h message.payload with
    | none => none
    | some cmd_submit =>
      let urb : UsbUrb := { uninit with data := [] }
      let urb := { urb with id := cmd_submit.header.seqnum }
      let urb := { urb with endpoint := byteOf cmd_submit.header.ep.val }
      let urb := { urb with direction := byteOf cmd_submit.header.direction.val }
      let urb := { urb with flags := cmd_submit.transfer_flags }
      let urb :=
        if urb.endpoint = (0 : Byte) then
          { urb with
            type := UsbTransferType.CONTROL
            setup := loadSetup h (store64 h cmd_submit.setup) }
        else
          { urb with type := UsbTransferType.BULK }
      let urb :=
        if I32.toInt cmd_submit.transfer_buffer_length > 0 then
          let data_offset := sizeofUsbipCmdSubmit
          let n := cmd_submit.transfer_buffer_length.val
          if message.payload.length ≥ data_offset + n then
            { urb with data := (message.payload.drop data_offset).take n }
          else urb
        else urb
      let urb := { urb with status := 0 }
      let urb := { urb with actual_length := u32Of urb.data.length }
      let urb := { urb with timestamp := now }
      some urb

/-! ## `sender/capture/urb_capture.cpp`: `UrbProcessor` -/

/-- The constructor `UrbProcessor::UrbProcessor`: the initial value of the
member `next_seqnum_`, the only state of a processor. -/
def UrbProcessor.new : U32 := 1

/-- The function `UrbProcessor::CreateCmdSubmit`; `next_seqnum` is the member
`next_seqnum_`, returned advanced. -/
def CreateCmdSubmit (h : ByteOrder) (urb : UsbUrb) (next_seqnum : U32) : UsbipCmdSubmit × U32 :=
  ({ header :=
       { command := USBIP_CMD_SUBMIT
         seqnum := next_seqnum
         devid := 0
         direction := u32Of urb.direction.val
         ep := u32Of urb.endpoint.val }
     transfer_flags := urb.flags
     transfer_buffer_length := u32Of urb.data.length
     start_frame := 0
     number_of_packets := 0
     interval := 0
     setup :=
       if urb.type = UsbTransferType.CONTROL then load64 h (storeSetup h urb.setup) else 0 },
   next_seqnum + 1)

/-- The function `UrbProcessor::CreateRetSubmit`. -/
def CreateRetSubmit (urb : UsbUrb) (next_seqnum : U32) : UsbipRetSubmit × U32 :=
  ({ header :=
       { command := USBIP_RET_SUBMIT
         seqnum := next_seqnum
         devid := 0
         direction := u32Of urb.direction.val
         ep := u32Of urb.endpoint.val }
     status := urb.status
     actual_length := urb.actual_length
     start_frame := 0
     number_of_packets := 0
     error_count := 0 },
   next_seqnum + 1)

/-- The function `UrbProcessor::ProcessUrb`. -/
def UrbProcessor.ProcessUrb (h : ByteOrder) (urb : UsbUrb) (next_seqnum : U32) :
    List Byte × U32 :=
  if urb.direction = UsbDirection.OUT then
    let cmd_submit := CreateCmdSubmit h urb next_seqnum
    (SerializeCmdSubmit h cmd_submit.1 urb.data, cmd_submit.2)
  else
    let ret_submit := CreateRetSubmit urb next_seqnum
    (SerializeRetSubmit h ret_submit.1 urb.data, ret_submit.2)

/-- The function `UrbProcessor::CreateUsbipSubmit`; `next_sequence` is the
static sequence counter of the messages. The result is the message, the
processor counter and the message counter afterwards. -/
def CreateUsbipSubmit (h : ByteOrder) (urb : UsbUrb) (next_seqnum next_sequence : U32) :
    NetworkMessage × U32 × U32 :=
  let usbip_data := UrbProcessor.ProcessUrb h urb next_seqnum
  let message := NetworkMessage.create .URB_SUBMIT usbip_data.1 next_sequence
  (message.1, usbip_data.2, message.2)

/-- The function `UrbProcessor::CreateUsbipResponse`. -/
def CreateUsbipResponse (h : ByteOrder) (urb : UsbUrb) (next_seqnum next_sequence : U32) :
    NetworkMessage × U32 × U32 :=
  let usbip_data := UrbProcessor.ProcessUrb h urb next_seqnum
  let message := NetworkMessage.create .URB_RESPONSE usbip_data.1 next_sequence
  (message.1, usbip_data.2, message.2)

/-! ## `sender/main.cpp` -/

/-- The function `UsbSender::OnUrbCaptured`: a new `UrbProcessor` is constructed
for the URB; the result is the bytes handed to `tcp_server_->Send` and the
message counter afterwards. -/
def OnUrbCaptured (h : ByteOrder) (urb : UsbUrb) (next_sequence : U32) : List Byte × U32 :=
  let processor := UrbProcessor.new
  let message := CreateUsbipSubmit h urb processor next_sequence
  (SerializeMessage h message.1, message.2.2)

/-! ## `receiver/virtual_device/virtual_usb_device.{h,cpp}`: `UsbipManager` -/

/-- The scan of `UsbipManager::GetAvailablePort`: with `remaining` slots left
to look at from index `i` on, the index of the first slot that is not in use. -/
def scanPorts (port_usage : List Bool) : Nat → Nat → Option Nat
  | 0, _ => none
  | remaining + 1, i =>
    if !port_usage.getD i true then some i
    else scanPorts port_usage remaining (i + 1)

/-- The function `UsbipManager::GetAvailablePort` on the member `port_usage_`:
the returned `int` and `port_usage_` afterwards. -/
def GetAvailablePort (port_usage : List Bool) : Int × List Bool :=
  match scanPorts port_usage port_usage.length 0 with
  | some i => ((i : Int), port_usage.set i true)
  | none => (-1, port_usage)

/-- The function `UsbipManager::ReleasePort(port)`: `port_usage_` afterwards. -/
def ReleasePort (port_usage : List Bool) (port : Int) : List Bool :=
  if port ≥ 0 ∧ port < (port_usage.length : Int) then
    port_usage.set port.toNat false
  else
    port_usage

/-! ## `receiver/virtual_device/virtual_usb_device.{h,cpp}`: `VirtualUsbDevice` -/

/-- The members of a `VirtualUsbDevice`.  `callback_installed` says whether
`urb_response_callback_` holds a function; the worker thread and the mutex are
not modelled. -/
structure VirtualUsbDevice where
  device_info : UsbipDeviceInfo
  callback_installed : Bool
  created : Bool
  attached : Bool
  processing : Bool
  usbip_port_path : String
  device_path : String
  port_number : Int
  current_configuration : Byte
  device_descriptor : List Byte
  config_descriptor : List Byte
  string_descriptors : List (List Byte)
  deriving DecidableEq

/-- The constructor `VirtualUsbDevice::VirtualUsbDevice`; `uninit_info` stands
for the indeterminate content of the member `device_info_`, which the
constructor does not initialise. -/
def VirtualUsbDevice.new (uninit_info : UsbipDeviceInfo) : VirtualUsbDevice :=
  { device_info := uninit_info
    callback_installed := false
    created := false
    attached := false
    processing := false
    usbip_port_path := ""
    device_path := ""
    port_number := -1
    current_configuration := 0
    device_descriptor := []
    config_descriptor := []
    string_descriptors :=
      [stringBytes "", stringBytes "USB Redirector", stringBytes "Virtual Mass Storage",
       stringBytes "123456789"] }

/-- The function `VirtualUsbDevice::SetUrbResponseCallback` with a non-empty
function. -/
def SetUrbResponseCallback (dev : VirtualUsbDevice) : VirtualUsbDevice :=
  { dev with callback_installed := true }

/-- The function `VirtualUsbDevice::CreateDeviceDescriptors`.  The device
descriptor is resized to 18 bytes and every field of the `UsbDeviceDescriptor`
behind it is assigned, so all 18 bytes are the object representation of that
struct; the configuration descriptor is resized to 32 bytes. -/
def CreateDeviceDescriptors (h : ByteOrder) (dev : VirtualUsbDevice) : VirtualUsbDevice :=
  let desc : UsbDeviceDescriptor :=
    { bLength := 18
      bDescriptorType := DESCRIPTOR_DEVICE
      bcdUSB := 0x0200
      bDeviceClass := dev.device_info.bDeviceClass
      bDeviceSubClass := dev.device_info.bDeviceSubClass
      bDeviceProtocol := dev.device_info.bDeviceProtocol
      bMaxPacketSize0 := 64
      idVendor := dev.device_info.idVendor
      idProduct := dev.device_info.idProduct
      bcdDevice := dev.device_info.bcdDevice
      iManufacturer := 1
      iProduct := 2
      iSerialNumber := 3
      bNumConfigurations := 1 }
  { dev with
    device_descriptor := storeDeviceDescriptor h desc
    config_descriptor := resize dev.config_descriptor 32 }

/-- The function `VirtualUsbDevice::CreateDevice(device_info)`; `port_usage` is
the port table of the `UsbipManager`.  The result is the returned flag, the
device and the port table afterwards. -/
def CreateDevice (h : ByteOrder) (dev : VirtualUsbDevice) (device_info : UsbipDeviceInfo)
    (port_usage : List Bool) : Bool × VirtualUsbDevice × List Bool :=
  if dev.created then
    (true, dev, port_usage)
  else
    let dev := { dev with device_info := device_info }
    let r := GetAvailablePort port_usage
    let dev := { dev with port_number := r.1 }
    if dev.port_number < 0 then
      (false, dev, r.2)
    else
      let dev := { dev with
        usbip_port_path := "/sys/devices/platform/vhci_hcd.0/usb" ++ toString (dev.port_number + 1)
        device_path := "/dev/bus/usb/" ++ toString (dev.port_number + 1) ++ "/001" }
      let dev := CreateDeviceDescriptors h dev
      let dev := { dev with created := true }
      (true, dev, r.2)

/-- The function `VirtualUsbDevice::AttachDevice`; `attach_ok` is the outcome
of `AttachToPort`, the shell command that writes to the sysfs attach file. -/
def AttachDevice (dev : VirtualUsbDevice) (attach_ok : Bool) : Bool × VirtualUsbDevice :=
  if !dev.created then
    (false, dev)
  else if dev.attached then
    (true, dev)
  else if !attach_ok then
    (false, dev)
  else
    let dev := { dev with processing := true }
    let dev := { dev with attached := true }
    (true, dev)

/-- The function `VirtualUsbDevice::DetachDevice`; the outcome of
`DetachFromPort` is not used. -/
def DetachDevice (dev : VirtualUsbDevice) : Bool × VirtualUsbDevice :=
  if !dev.attached then
    (true, dev)
  else
    let dev := { dev with processing := false }
    let dev := { dev with attached := false }
    (true, dev)

/-- The function `VirtualUsbDevice::DestroyDevice`: the device and the port
table of the `UsbipManager` afterwards. -/
def DestroyDevice (dev : VirtualUsbDevice) (port_usage : List Bool) :
    VirtualUsbDevice × List Bool :=
  let dev := (DetachDevice dev).2
  if dev.created then
    let r : VirtualUsbDevice × List Bool :=
      if dev.port_number ≥ 0 then
        ({ dev with port_number := -1 }, ReleasePort port_usage dev.port_number)
      else
        (dev, port_usage)
    ({ r.1 with created := false }, r.2)
  else
    (dev, port_usage)

/-- The function `VirtualUsbDevice::GetStringDescriptor(index)`. -/
def GetStringDescriptor (dev : VirtualUsbDevice) (index : Byte) : List Byte :=
  if index.val < dev.string_descriptors.length then
    let str := dev.string_descriptors.getD index.val []
    if index = (0 : Byte) then
      [4, 3, 0x09, 0x04]
    else
      [byteOf (2 + str.length * 2), 3] ++ (str.map fun c => [c, 0]).flatten
  else
    []

/-- The function `VirtualUsbDevice::HandleStandardRequest(setup)`: the response
bytes and the device afterwards. -/
def HandleStandardRequest (dev : VirtualUsbDevice) (setup : UsbSetupPacket) :
    List Byte × VirtualUsbDevice :=
  if setup.bRequest = GET_DESCRIPTOR then
    let desc_type : Byte := byteOf (setup.wValue.val / 256 % 256)
    let desc_index : Byte := byteOf (setup.wValue.val % 256)
    if desc_type = DESCRIPTOR_DEVICE then (dev.device_descriptor, dev)
    else if desc_type = DESCRIPTOR_CONFIGURATION then (dev.config_descriptor, dev)
    else if desc_type = DESCRIPTOR_STRING then (GetStringDescriptor dev desc_index, dev)
    else ([], dev)
  else if setup.bRequest = SET_CONFIGURATION then
    ([], { dev with current_configuration := byteOf (setup.wValue.val % 256) })
  else if setup.bRequest = GET_CONFIGURATION then
    ([dev.current_configuration], dev)
  else
    ([], dev)

/-- The function `VirtualUsbDevice::HandleClassRequest(setup)`. -/
def HandleClassRequest (dev : VirtualUsbDevice) (setup : UsbSetupPacket) : List Byte :=
  if dev.device_info.bDeviceClass = MASS_STORAGE then
    if setup.bRequest = (0xFF : Byte) then []
    else if setup.bRequest = (0xFE : Byte) then [0]
    else []
  else
    []

/-- The function `VirtualUsbDevice::HandleVendorRequest(setup)`. -/
def HandleVendorRequest (_dev : VirtualUsbDevice) (_setup : UsbSetupPacket) : List Byte :=
  []

/-- The flipped direction every handler gives its response:
`(urb.direction == IN) ? OUT : IN`. -/
def flipDirection (direction : UsbDirection) : UsbDirection :=
  if direction = UsbDirection.IN then UsbDirection.OUT else UsbDirection.IN

/-- The tail of every handler: `status = 0`, `actual_length` from the size of
the data, and the call of the response callback when one is installed.  The
result is the list of responses handed to the callback. -/
def emitResponse (dev : VirtualUsbDevice) (response : UsbUrb) : List UsbUrb :=
  let response := { response with status := 0 }
  let response := { response with actual_length := u32Of response.data.length }
  if dev.callback_installed then [response] else []

/-- The function `VirtualUsbDevice::HandleControlUrb`: the device afterwards
and the responses handed to the callback. -/
def HandleControlUrb (dev : VirtualUsbDevice) (urb : UsbUrb) : VirtualUsbDevice × List UsbUrb :=
  let response := { urb with direction := flipDirection urb.direction }
  let setup := urb.setup
  let request_type := setup.bmRequestType
  let r : List Byte × VirtualUsbDevice :=
    if request_type.val &&& 0x60 = 0x00 then
      HandleStandardRequest dev setup
    else if request_type.val &&& 0x60 = 0x20 then
      (HandleClassRequest dev setup, dev)
    else if request_type.val &&& 0x60 = 0x40 then
      (HandleVendorRequest dev setup, dev)
    else
      (response.data, dev)
  let response := { response with data := r.1 }
  (r.2, emitResponse r.2 response)

/-- The function `VirtualUsbDevice::SimulateDeviceResponse`. -/
def SimulateDeviceResponse (dev : VirtualUsbDevice) (urb : UsbUrb) : List UsbUrb :=
  let response := { urb with direction := flipDirection urb.direction }
  let response :=
    if urb.direction = UsbDirection.OUT then { response with data := [] }
    else { response with data := [0x00, 0x01, 0x02, 0x03] }
  emitResponse dev response

/-- The function `VirtualUsbDevice::ProcessScsiCommand(cbw_data)`.  The product
string has 15 characters; `memcpy` copies 16 bytes from its `c_str()`, the last
being the terminating zero. -/
def ProcessScsiCommand (h : ByteOrder) (cbw_data : List Byte) : List Byte :=
  if cbw_data.length ≥ 31 then
    let scsi_cmd := cbw_data.getD 15 0
    if scsi_cmd = (0x12 : Byte) then
      [0x00, 0x80, 0x04, 0x02, 31, 0, 0, 0] ++ stringBytes "Virtual "
        ++ (stringBytes "Mass Storage   " ++ [0]) ++ [0, 0, 0, 0]
    else if scsi_cmd = (0x25 : Byte) then
      store32 h (htonl h 1023) ++ store32 h (htonl h 512)
    else
      []
  else
    []

/-- The function `VirtualUsbDevice::HandleMassStorageUrb`. -/
def HandleMassStorageUrb (h : ByteOrder) (dev : VirtualUsbDevice) (urb : UsbUrb) : List UsbUrb :=
  let response := { urb with direction := flipDirection urb.direction }
  let response :=
    if urb.direction = UsbDirection.OUT then
      if urb.data.length ≥ 31 then { response with data := ProcessScsiCommand h urb.data }
      else response
    else
      let data := resize response.data 13
      let signature : U32 := 0x53425355
      { response with data := store32 h signature ++ data.drop 4 }
  emitResponse dev response

/-- The function `VirtualUsbDevice::HandleBulkUrb`. -/
def HandleBulkUrb (h : ByteOrder) (dev : VirtualUsbDevice) (urb : UsbUrb) : List UsbUrb :=
  if dev.device_info.bDeviceClass = MASS_STORAGE then
    HandleMassStorageUrb h dev urb
  else
    SimulateDeviceResponse dev urb

/-- The function `VirtualUsbDevice::ProcessUrb`: the device afterwards and the
responses handed to the response callback, in order. -/
def VirtualUsbDevice.ProcessUrb (h : ByteOrder) (dev : VirtualUsbDevice) (urb : UsbUrb) :
    VirtualUsbDevice × List UsbUrb :=
  if !dev.attached then
    (dev, [])
  else if urb.type = UsbTransferType.CONTROL then
    HandleControlUrb dev urb
  else if urb.type = UsbTransferType.BULK then
    (dev, HandleBulkUrb h dev urb)
  else if urb.type = UsbTransferType.INTERRUPT then
    (dev, SimulateDeviceResponse dev urb)
  else if urb.type = UsbTransferType.ISOCHRONOUS then
    (dev, SimulateDeviceResponse dev urb)
  else
    (dev, [])

/-! ## `receiver/virtual_device/virtual_usb_device.cpp`: `UsbipManager::Initialize` -/

/-- The call `port_usage_.resize(n, false)` on a `std::vector<bool>`. -/
def resizePorts (port_usage : List Bool) (n : Nat) : List Bool :=
  port_usage.take n ++ List.replicate (n - port_usage.length) false

/-- The function `UsbipManager::Initialize` on the members `port_usage_` and
`initialized_`; `load_ok` is the result of `LoadKernelModule`.  The result is
the returned flag and the two members afterwards. -/
def UsbipManager.Initialize (port_usage : List Bool) (initialized : Bool) (load_ok : Bool) :
    Bool × List Bool × Bool :=
  if initialized then
    (true, port_usage, initialized)
  else
    let port_usage := resizePorts port_usage 8
    if !load_ok then
      (false, port_usage, initialized)
    else
      (true, port_usage, true)

/-! ## `sender/capture/urb_capture.{h,cpp}`: capture statistics -/

/-- The struct `UrbCapture::Statistics`: seven `uint64_t` counters. -/
structure Statistics where
  total_urbs : U64
  control_urbs : U64
  bulk_urbs : U64
  interrupt_urbs : U64
  iso_urbs : U64
  bytes_transferred : U64
  errors : U64
  deriving DecidableEq, Repr

/-- The value-initialised `Statistics{}` of the constructor of `UrbCapture`. -/
def Statistics.zero : Statistics :=
  ⟨0, 0, 0, 0, 0, 0, 0⟩

/-- The function `UrbCapture::ResetStatistics`: `statistics_ = {}`. -/
def ResetStatistics (_statistics : Statistics) : Statistics :=
  Statistics.zero

/-- The function `UrbCapture::UpdateStatistics(urb)` on the member
`statistics_`.  The additions are those of `uint64_t`; a transfer type outside
the four enumerators matches no case of the `switch`. -/
def UpdateStatistics (statistics : Statistics) (urb : UsbUrb) : Statistics :=
  let statistics := { statistics with total_urbs := statistics.total_urbs + 1 }
  let statistics :=
    { statistics with
      bytes_transferred := statistics.bytes_transferred + u64Of urb.actual_length.val }
  let statistics :=
    if urb.status ≠ 0 then { statistics with errors := statistics.errors + 1 }
    else statistics
  if urb.type = UsbTransferType.CONTROL then
    { statistics with control_urbs := statistics.control_urbs + 1 }
  else if urb.type = UsbTransferType.BULK then
    { statistics with bulk_urbs := statistics.bulk_urbs + 1 }
  else if urb.type = UsbTransferType.INTERRUPT then
    { statistics with interrupt_urbs := statistics.interrupt_urbs + 1 }
  else if urb.type = UsbTransferType.ISOCHRONOUS then
    { statistics with iso_urbs := statistics.iso_urbs + 1 }
  else
    statistics

/-! ## `common/network/tcp_socket.{h,cpp}`: `TcpSocket`

The operating system is a parameter: every function takes the results of the
system calls it makes.  The threads are not modelled; `AcceptThread` is the
sequence of its loop iterations. -/

/-- The members of a `TcpSocket` that the functions below read or write. -/
structure TcpSocket where
  socket_fd : Int
  is_connected : Bool
  is_listening : Bool
  should_stop : Bool
  client_fds : List Int
  deriving DecidableEq, Repr

/-- The constructor `TcpSocket::TcpSocket`. -/
def TcpSocket.new : TcpSocket :=
  { socket_fd := -1, is_connected := false, is_listening := false, should_stop := false,
    client_fds := [] }

/-- The return values of the system calls of `TcpSocket::Connect`, in the order
of the calls: `socket`, `inet_pton`, `connect`. -/
structure ConnectCalls where
  socket_result : Int
  inet_pton_result : Int
  connect_result : Int
  deriving DecidableEq, Repr

/-- The function `TcpSocket::Connect(host, port)`: the returned flag and the
socket afterwards. -/
def TcpSocket.Connect (s : TcpSocket) (sys : ConnectCalls) : Bool × TcpSocket :=
  if s.is_connected then
    (false, s)
  else
    let s := { s with socket_fd := sys.socket_result }
    if s.socket_fd < 0 then
      (false, s)
    else if sys.inet_pton_result ≤ 0 then
      (false, { s with socket_fd := -1 })
    else if sys.connect_result < 0 then
      (false, { s with socket_fd := -1 })
    else
      (true, { s with is_connected := true, should_stop := false })

/-- The return values of the system calls of `TcpSocket::Listen`, in the order
of the calls: `socket`, `setsockopt`, `inet_pton`, `bind`, `listen`. -/
structure ListenCalls where
  socket_result : Int
  setsockopt_result : Int
  inet_pton_result : Int
  bind_result : Int
  listen_result : Int
  deriving DecidableEq, Repr

/-- The function `TcpSocket::Listen(bind_addr, port)`: the returned flag and
the socket afterwards. -/
def TcpSocket.Listen (s : TcpSocket) (bind_addr : String) (sys : ListenCalls) :
    Bool × TcpSocket :=
  if s.is_listening then
    (false, s)
  else
    let s := { s with socket_fd := sys.socket_result }
    if s.socket_fd < 0 then
      (false, s)
    else if sys.setsockopt_result < 0 then
      (false, { s with socket_fd := -1 })
    else if ¬ (bind_addr = "" ∨ bind_addr = "0.0.0.0") ∧ sys.inet_pton_result ≤ 0 then
      (false, { s with socket_fd := -1 })
    else if sys.bind_result < 0 then
      (false, { s with socket_fd := -1 })
    else if sys.listen_result < 0 then
      (false, { s with socket_fd := -1 })
    else
      (true, { s with is_listening := true, should_stop := false })

/-- The loop of `TcpSocket::AcceptThread` over the return values of its calls
of `accept`: a negative value is skipped, a descriptor is appended to
`client_fds_`. -/
def TcpSocket.AcceptThread (s : TcpSocket) : List Int → TcpSocket
  | [] => s
  | client_fd :: accepted =>
    if client_fd < 0 then
      TcpSocket.AcceptThread s accepted
    else
      TcpSocket.AcceptThread { s with client_fds := s.client_fds ++ [client_fd] } accepted

/-- What one call of `send` returns: a number of bytes, or -1 with `errno`
`EAGAIN` or `EWOULDBLOCK`, or -1 with another `errno`. -/
inductive SendResult where
  | sent (n : Nat)
  | again
  | failed
  deriving DecidableEq, Repr

/-- The loop of `TcpSocket::Send` over the results of its calls of `send`, from
`total_sent` on: the returned flag and the bytes written so far; `none` when
the loop is still running after the last given result. -/
def sendLoop (data : List Byte) : List SendResult → Nat → Option (Bool × List Byte)
  | [], total_sent =>
    if total_sent < data.length then none else some (true, data.take total_sent)
  | r :: results, total_sent =>
    if total_sent < data.length then
      match r with
      | .sent n => sendLoop data results (total_sent + n)
      | .again => sendLoop data results total_sent
      | .failed => some (false, data.take total_sent)
    else
      some (true, data.take total_sent)

/-- The function `TcpSocket::Send(data)`: the returned flag and the bytes
written to `socket_fd_`. -/
def TcpSocket.Send (s : TcpSocket) (data : List Byte) (results : List SendResult) :
    Option (Bool × List Byte) :=
  if !s.is_connected || decide (s.socket_fd < 0) then
    some (false, [])
  else
    sendLoop data results 0

/-! ## `sender/main.cpp`: `UsbSender::HandleDeviceListRequest` -/

/-- The function `UsbSender::HandleDeviceListRequest` on the member
`tcp_server_`, with `device_list` the records it builds from
`mass_storage_devices_`: what the call `tcp_server_->Send(data)` returned and
wrote, and the sequence counter afterwards. -/
def HandleDeviceListRequest (h : ByteOrder) (tcp_server : TcpSocket)
    (device_list : List UsbipDeviceInfo) (next_sequence : U32) (results : List SendResult) :
    Option (Bool × List Byte) × U32 :=
  let response := CreateDeviceListResponse h device_list next_sequence
  let data := SerializeMessage h response.1
  (tcp_server.Send data results, response.2)

/-! ## `sender/usb/mass_storage_device.{h,cpp}`: `MassStorageDevice`

The device I/O is a parameter: every function takes the results of the bulk
transfers it makes. -/

/-- The constant `CSW_SIGNATURE`, "USBS". -/
def CSW_SIGNATURE : U32 := 0x53425355

/-- The enumerator `UsbDescriptorType::INTERFACE`. -/
def DESCRIPTOR_INTERFACE : Byte := 0x04
/-- The enumerator `UsbDescriptorType::ENDPOINT`. -/
def DESCRIPTOR_ENDPOINT : Byte := 0x05

/-- The outcome of a call of `UsbDevice::BulkTransfer`: the returned flag, the
value left in `*actual_length`, and the contents of the caller's buffer after
the call. -/
structure BulkTransferResult where
  ok : Bool
  actual_length : Int
  buffer : List Byte
  deriving DecidableEq, Repr

/-- The packed struct `CommandStatusWrapper` (13 bytes). -/
structure CommandStatusWrapper where
  dCSWSignature : U32
  dCSWTag : U32
  dCSWDataResidue : U32
  bCSWStatus : Byte
  deriving DecidableEq, Repr

/-- The value of `sizeof(CommandStatusWrapper)`. -/
def sizeofCommandStatusWrapper : Nat := 13

/-- The value of `sizeof(CommandBlockWrapper)`. -/
def sizeofCommandBlockWrapper : Nat := 31

/-- The struct `CommandStatusWrapper` whose object representation is the 13
bytes `bs`: the 32-bit fields are read in host byte order. -/
def loadCommandStatusWrapper (h : ByteOrder) (bs : List Byte) : CommandStatusWrapper :=
  { dCSWSignature := load32 h bs
    dCSWTag := load32 h (bs.drop 4)
    dCSWDataResidue := load32 h (bs.drop 8)
    bCSWStatus := bs.getD 12 0 }

/-- The struct `MassStorageDevice::EndpointInfo`. -/
structure EndpointInfo where
  address : Byte
  max_packet_size : U16
  is_in : Bool
  deriving DecidableEq, Repr

/-- The members of a `MassStorageDevice` that the functions below read or
write. -/
structure MassStorageDevice where
  initialized : Bool
  capturing : Bool
  interface_number : Int
  bulk_in_endpoint : EndpointInfo
  bulk_out_endpoint : EndpointInfo
  next_tag : U32
  total_blocks : U64
  block_size : U32
  deriving DecidableEq, Repr

/-- The constructor `MassStorageDevice::MassStorageDevice`. -/
def MassStorageDevice.new : MassStorageDevice :=
  { initialized := false, capturing := false, interface_number := -1,
    bulk_in_endpoint := ⟨0, 0, false⟩, bulk_out_endpoint := ⟨0, 0, false⟩,
    next_tag := 1, total_blocks := 0, block_size := 512 }

/-- The function `MassStorageDevice::SendCBW` on the outcome of its bulk
transfer. -/
def SendCBW (transfer : BulkTransferResult) : Bool :=
  transfer.ok && decide (transfer.actual_length = (sizeofCommandBlockWrapper : Int))

/-- The function `MassStorageDevice::ReceiveCSW(csw, expected_tag)` on the
outcome of its bulk transfer into `csw`: the returned flag and `csw`
afterwards. -/
def ReceiveCSW (h : ByteOrder) (transfer : BulkTransferResult) (expected_tag : U32) :
    Bool × CommandStatusWrapper :=
  let csw := loadCommandStatusWrapper h (resize transfer.buffer sizeofCommandStatusWrapper)
  if !transfer.ok || decide (transfer.actual_length ≠ (sizeofCommandStatusWrapper : Int)) then
    (false, csw)
  else
    (decide (csw.dCSWSignature = CSW_SIGNATURE) && decide (csw.dCSWTag = expected_tag), csw)

/-- The conversion `static_cast<uint32_t>(x)` of an `int`. -/
def u32OfInt (x : Int) : U32 :=
  u32Of (x % 4294967296).toNat

/-- The function `MassStorageDevice::TransferData(is_read, data, length)` on
the outcome of its bulk transfer: the returned flag and `data` afterwards. -/
def TransferData (data : List Byte) (length : U32) (transfer : BulkTransferResult) :
    Bool × List Byte :=
  if length = 0 then
    (true, data)
  else
    (transfer.ok && decide (u32OfInt transfer.actual_length = length),
     resize transfer.buffer length.val)

/-- The expression `(d[i] << 24) | (d[i+1] << 16) | (d[i+2] << 8) | d[i+3]`
assigned to a `uint32_t`. -/
def shiftOr32 (d : List Byte) (i : Nat) : U32 :=
  u32Of ((d.getD i 0).val <<< 24 ||| (d.getD (i + 1) 0).val <<< 16
    ||| (d.getD (i + 2) 0).val <<< 8 ||| (d.getD (i + 3) 0).val)

/-- The assignment `total_blocks = (total_blocks << 8) | byte` on a
`uint64_t`. -/
def shiftOrStep (total_blocks : U64) (byte : Byte) : U64 :=
  u64Of ((u64Of (total_blocks.val <<< 8)).val ||| byte.val)

/-- The loop `for (i = 0; i < 8; ++i) total_blocks = (total_blocks << 8) | d[i]`
on a `uint64_t` that starts at 0. -/
def shiftOr64 (d : List Byte) : U64 :=
  (List.range 8).foldl (fun total_blocks i => shiftOrStep total_blocks (d.getD i 0)) 0

/-- The outcomes of the bulk transfers `GetCapacity` can make, in the order of
the calls: the CBW of READ CAPACITY (16), its 32 data bytes, the CBW of READ
CAPACITY (10), its 8 data bytes, the CSW. -/
structure CapacityTransfers where
  cbw16 : BulkTransferResult
  data16 : BulkTransferResult
  cbw10 : BulkTransferResult
  data10 : BulkTransferResult
  csw : BulkTransferResult
  deriving DecidableEq, Repr

/-- The function `MassStorageDevice::GetCapacity(total_blocks, block_size)`:
the returned flag, the two reference arguments afterwards, and the device,
whose `next_tag_` advances. -/
def GetCapacity (h : ByteOrder) (dev : MassStorageDevice) (total_blocks : U64)
    (block_size : U32) (io : CapacityTransfers) : Bool × U64 × U32 × MassStorageDevice :=
  let tag := dev.next_tag
  let dev := { dev with next_tag := dev.next_tag + 1 }
  if !SendCBW io.cbw16 then
    (false, total_blocks, block_size, dev)
  else
    let r16 := TransferData [] 32 io.data16
    if !r16.1 then
      let tag := dev.next_tag
      let dev := { dev with next_tag := dev.next_tag + 1 }
      if !SendCBW io.cbw10 then
        (false, total_blocks, block_size, dev)
      else
        let r10 := TransferData r16.2 8 io.data10
        if !r10.1 then
          (false, total_blocks, block_size, dev)
        else
          let capacity_data := r10.2
          let parsed : U64 × U32 :=
            if capacity_data.length ≥ 8 then
              let last_block := shiftOr32 capacity_data 0
              (u64Of last_block.val + 1, shiftOr32 capacity_data 4)
            else
              (total_blocks, block_size)
          let csw := ReceiveCSW h io.csw tag
          if !csw.1 then
            (false, parsed.1, parsed.2, dev)
          else
            (decide (csw.2.bCSWStatus = 0), parsed.1, parsed.2, dev)
    else
      let capacity_data := r16.2
      let parsed : U64 × U32 :=
        if capacity_data.length ≥ 32 then
          (shiftOr64 capacity_data + 1, shiftOr32 capacity_data 8)
        else
          (total_blocks, block_size)
      let csw := ReceiveCSW h io.csw tag
      if !csw.1 then
        (false, parsed.1, parsed.2, dev)
      else
        (decide (csw.2.bCSWStatus = 0), parsed.1, parsed.2, dev)

/-- The view `reinterpret_cast<const T*>(&config_desc[offset])` of a struct of
`size` bytes: its bytes, or `none` when they do not all lie inside the
vector. -/
def structAt (config_desc : List Byte) (offset size : Nat) : Option (List Byte) :=
  if offset + size ≤ config_desc.length then some ((config_desc.drop offset).take size)
  else none

/-- How one iteration of the loop of `FindEndpoints` ends: with `break`, with
`offset += desc_length`, or with a read outside `config_desc`. -/
inductive Iteration where
  | leave (dev : MassStorageDevice)
  | next (offset : Nat) (dev : MassStorageDevice)
  | fault
  deriving DecidableEq, Repr

/-- The body of the loop of `MassStorageDevice::FindEndpoints` at `offset`.
Every read of `config_desc` is checked. -/
def FindEndpoints.iteration (h : ByteOrder) (config_desc : List Byte) (offset : Nat)
    (dev : MassStorageDevice) : Iteration :=
  if offset + 2 > config_desc.length then
    .leave dev
  else
    match config_desc[offset]?, config_desc[offset + 1]? with
    | some desc_length, some desc_type =>
      if desc_length = 0 ∨ offset + desc_length.val > config_desc.length then
        .leave dev
      else if desc_type = DESCRIPTOR_INTERFACE then
        if desc_length.val ≥ 9 then
          match structAt config_desc offset 9 with
          | some iface_desc =>
            let bInterfaceNumber := iface_desc.getD 2 0
            let bInterfaceClass := iface_desc.getD 5 0
            if bInterfaceClass = MASS_STORAGE then
              .next (offset + desc_length.val)
                { dev with interface_number := (bInterfaceNumber.val : Int) }
            else
              .next (offset + desc_length.val) dev
          | none => .fault
        else
          .next (offset + desc_length.val) dev
      else if desc_type = DESCRIPTOR_ENDPOINT then
        if desc_length.val ≥ 7 ∧ dev.interface_number ≥ 0 then
          match structAt config_desc offset 7 with
          | some ep_desc =>
            let bEndpointAddress := ep_desc.getD 2 0
            let bmAttributes := ep_desc.getD 3 0
            let wMaxPacketSize := load16 h (ep_desc.drop 4)
            if bmAttributes.val &&& 0x03 = UsbTransferType.BULK.val then
              let ep_info : EndpointInfo :=
                { address := bEndpointAddress, max_packet_size := wMaxPacketSize,
                  is_in := decide (bEndpointAddress.val &&& 0x80 ≠ 0) }
              if ep_info.is_in then
                .next (offset + desc_length.val) { dev with bulk_in_endpoint := ep_info }
              else
                .next (offset + desc_length.val) { dev with bulk_out_endpoint := ep_info }
            else
              .next (offset + desc_length.val) dev
          | none => .fault
        else
          .next (offset + desc_length.val) dev
      else
        .next (offset + desc_length.val) dev
    | _, _ => .fault

/-- The loop `while (offset < config_desc.size())` of `FindEndpoints`, with at
most `fuel` iterations: the device at loop exit, or `none` after a read outside
`config_desc` or when the iterations are used up. -/
def FindEndpoints.loop (h : ByteOrder) (config_desc : List Byte) :
    Nat → Nat → MassStorageDevice → Option MassStorageDevice
  | 0, _, _ => none
  | fuel + 1, offset, dev =>
    if offset < config_desc.length then
      match FindEndpoints.iteration h config_desc offset dev with
      | .leave dev => some dev
      | .next offset dev => FindEndpoints.loop h config_desc fuel offset dev
      | .fault => none
    else
      some dev

/-- The function `MassStorageDevice::FindEndpoints` on the configuration
descriptor of the device: the returned flag and the device afterwards.  Every
iteration that goes on moves the offset forward, so one more iteration than the
descriptor has bytes is always enough. -/
def FindEndpoints (h : ByteOrder) (config_desc : List Byte) (dev : MassStorageDevice) :
    Option (Bool × MassStorageDevice) :=
  if config_desc = [] then
    some (false, dev)
  else
    (FindEndpoints.loop h config_desc (config_desc.length + 1) 0 dev).map fun dev =>
      (decide (dev.interface_number ≥ 0) && decide (dev.bulk_in_endpoint.address ≠ 0)
        && decide (dev.bulk_out_endpoint.address ≠ 0), dev)

/-! ## Vocabulary of the statements -/

/-- A HEARTBEAT message whose payload is exactly `MAX_MESSAGE_SIZE` zero
bytes. -/
def maxSizeMessage : NetworkMessage :=
  { header := { magic := MESSAGE_MAGIC, type := 8, length := 1048576, sequence := 1,
                checksum := 0 }
    payload := List.replicate 1048576 0 }

/-- Big-endian reading of the first four bytes of a buffer. -/
def readBE32 (bs : List Byte) : U32 :=
  fromBE32 (bs.getD 0 0) (bs.getD 1 0) (bs.getD 2 0) (bs.getD 3 0)

/-- The header of the frame `SerializeMessage` writes for `m`: the header of
`m` with the checksum of the payload filled in. -/
def sealedHeader (m : NetworkMessage) : MessageHeader :=
  { m.header with checksum := CalculateChecksum m.payload }

/-- The message a receiver gets for the frame of `m`. -/
def delivered (m : NetworkMessage) : NetworkMessage :=
  { header := sealedHeader m, payload := m.payload }

/-- A message whose frame is valid: the magic is `MESSAGE_MAGIC`, the length
field is the payload size, and the payload is at most `MAX_MESSAGE_SIZE`. -/
def WellFormed (m : NetworkMessage) : Prop :=
  m.header.magic = MESSAGE_MAGIC ∧ m.header.length.val = m.payload.length ∧
    m.payload.length ≤ MAX_MESSAGE_SIZE

instance (m : NetworkMessage) : Decidable (WellFormed m) := by
  unfold WellFormed; infer_instance

/-- A proper prefix of a valid frame (possibly empty): what the receive buffer
holds while a frame is still arriving. -/
def IsPartialFrame (h : ByteOrder) (p : List Byte) : Prop :=
  p = [] ∨ ∃ (m : NetworkMessage) (t : List Byte),
    WellFormed m ∧ t ≠ [] ∧ p ++ t = SerializeMessage h m

/-- The concatenation of the frames of the messages `ms`. -/
def frames (h : ByteOrder) (ms : List NetworkMessage) : List Byte :=
  (ms.map (SerializeMessage h)).flatten

/-- A bulk IN URB as the sender captures it: id 7, endpoint `0x81`, three data
bytes. -/
def bulkInUrb : UsbUrb :=
  { id := 7, type := UsbTransferType.BULK, direction := UsbDirection.IN, endpoint := 0x81,
    flags := 0, data := [1, 2, 3], setup := ⟨0, 0, 0, 0, 0⟩, status := 0, actual_length := 3,
    timestamp := 0 }

/-- A bulk OUT URB as the sender captures it: id 7, endpoint `0x02`, three data
bytes. -/
def bulkOutUrb : UsbUrb :=
  { id := 7, type := UsbTransferType.BULK, direction := UsbDirection.OUT, endpoint := 0x02,
    flags := 0, data := [1, 2, 3], setup := ⟨0, 0, 0, 0, 0⟩, status := 0, actual_length := 3,
    timestamp := 0 }

/-- Some content of a default-initialised local `UsbUrb`. -/
def staleUrb : UsbUrb :=
  { id := 0xDEAD, type := 9, direction := 9, endpoint := 9, flags := 9, data := [],
    setup := ⟨9, 9, 9, 9, 9⟩, status := 9, actual_length := 9, timestamp := 9 }

/-- A USB/IP CMD_SUBMIT for a bulk IN transfer on endpoint number 1, as the
USB/IP convention writes it: `ep = 1`, `direction = 1`. -/
def bulkInCmdSubmit : UsbipCmdSubmit :=
  { header := { command := USBIP_CMD_SUBMIT, seqnum := 5, devid := 0, direction := 1, ep := 1 }
    transfer_flags := 0, transfer_buffer_length := 0, start_frame := 0,
    number_of_packets := 0, interval := 0, setup := 0 }

/-- A CMD_SUBMIT whose endpoint field is the address `0x81` (bit 7 set) and
whose direction field is 0 (OUT). -/
def addressedOutCmdSubmit : UsbipCmdSubmit :=
  { header := { command := USBIP_CMD_SUBMIT, seqnum := 6, devid := 0, direction := 0, ep := 0x81 }
    transfer_flags := 0, transfer_buffer_length := 0, start_frame := 0,
    number_of_packets := 0, interval := 0, setup := 0 }

/-- A URB_SUBMIT message with the given payload. -/
def urbSubmitMessage (payload : List Byte) : NetworkMessage :=
  (NetworkMessage.create .URB_SUBMIT payload 1).1

/-- A CMD_SUBMIT for the control transfer GET_DESCRIPTOR(DEVICE) on endpoint 0;
`setup` is the `uint64_t` a little-endian host reads from the setup bytes
`80 06 00 01 00 00 12 00`. -/
def getDescriptorCmdSubmit : UsbipCmdSubmit :=
  { header := { command := USBIP_CMD_SUBMIT, seqnum := 9, devid := 0, direction := 1, ep := 0 }
    transfer_flags := 0, transfer_buffer_length := 0, start_frame := 0,
    number_of_packets := 0, interval := 0, setup := 0x0012000001000680 }

/-- The device descriptor `CreateDeviceDescriptors` fills in for a device
record. -/
def descriptorFor (info : UsbipDeviceInfo) : UsbDeviceDescriptor :=
  { bLength := 18
    bDescriptorType := DESCRIPTOR_DEVICE
    bcdUSB := 0x0200
    bDeviceClass := info.bDeviceClass
    bDeviceSubClass := info.bDeviceSubClass
    bDeviceProtocol := info.bDeviceProtocol
    bMaxPacketSize0 := 64
    idVendor := info.idVendor
    idProduct := info.idProduct
    bcdDevice := info.bcdDevice
    iManufacturer := 1
    iProduct := 2
    iSerialNumber := 3
    bNumConfigurations := 1 }

/-- The devices a program can hold: what the constructor yields, and what the
public member functions make of such a device. -/
inductive Reachable (h : ByteOrder) : VirtualUsbDevice → Prop
  | new (uninit_info : UsbipDeviceInfo) : Reachable h (VirtualUsbDevice.new uninit_info)
  | setCallback {d : VirtualUsbDevice} : Reachable h d → Reachable h (SetUrbResponseCallback d)
  | create {d : VirtualUsbDevice} (info : UsbipDeviceInfo) (port_usage : List Bool) :
      Reachable h d → Reachable h (CreateDevice h d info port_usage).2.1
  | attach {d : VirtualUsbDevice} (attach_ok : Bool) :
      Reachable h d → Reachable h (AttachDevice d attach_ok).2
  | detach {d : VirtualUsbDevice} : Reachable h d → Reachable h (DetachDevice d).2
  | destroy {d : VirtualUsbDevice} (port_usage : List Bool) :
      Reachable h d → Reachable h (DestroyDevice d port_usage).1
  | processUrb {d : VirtualUsbDevice} (urb : UsbUrb) :
      Reachable h d → Reachable h (VirtualUsbDevice.ProcessUrb h d urb).1

/-- What holds of every reachable device: an attached device is created, a
created device carries the descriptor of its device record, a configuration
descriptor of 32 bytes, and the four strings of the constructor. -/
def DeviceInvariant (h : ByteOrder) (d : VirtualUsbDevice) : Prop :=
  (d.attached = true → d.created = true) ∧
  (d.created = true →
    d.device_descriptor = storeDeviceDescriptor h (descriptorFor d.device_info) ∧
    d.config_descriptor.length = 32) ∧
  d.string_descriptors = (VirtualUsbDevice.new d.device_info).string_descriptors

/-- The virtual device of the receiver after a successful import of the device
of the protocol test: constructed, callback installed, created on the first
free port, attached. -/
def importedTestDevice (h : ByteOrder) : VirtualUsbDevice :=
  (AttachDevice
    (CreateDevice h (SetUrbResponseCallback (VirtualUsbDevice.new testDevice)) testDevice
      (List.replicate 8 false)).2.1 true).2

/-- A control URB with the given setup packet and no data. -/
def controlUrb (setup : UsbSetupPacket) : UsbUrb :=
  { id := 42, type := UsbTransferType.CONTROL, direction := UsbDirection.IN, endpoint := 0,
    flags := 0, data := [], setup := setup, status := 0, actual_length := 0, timestamp := 0 }

/-- The response every handler of the virtual device builds for a URB, given
the payload: a copy of the URB with the direction flipped, the payload as
data, status 0 and `actual_length` the size of the payload as a `uint32_t`. -/
def responseTo (urb : UsbUrb) (data : List Byte) : UsbUrb :=
  { urb with
    direction := flipDirection urb.direction
    data := data
    status := 0
    actual_length := u32Of data.length }

/-- A bulk OUT URB carrying a 31-byte Command Block Wrapper with the given tag
bytes (offsets 4..7) and command byte (offset 15). -/
def cbwUrb (tag : List Byte) (command : Byte) : UsbUrb :=
  { id := 50, type := UsbTransferType.BULK, direction := UsbDirection.OUT, endpoint := 0x02,
    flags := 0
    data := [0x55, 0x53, 0x42, 0x43] ++ tag.take 4 ++ List.replicate (4 - tag.length) 0
      ++ [0, 0, 0, 0, 0x80, 0, 6, command] ++ List.replicate 15 0
    setup := ⟨0, 0, 0, 0, 0⟩, status := 0, actual_length := 31, timestamp := 0 }

/-- A bulk IN URB without data, as the host sends it to read a status. -/
def statusInUrb : UsbUrb :=
  { id := 51, type := UsbTransferType.BULK, direction := UsbDirection.IN, endpoint := 0x81,
    flags := 0, data := [], setup := ⟨0, 0, 0, 0, 0⟩, status := 0, actual_length := 0,
    timestamp := 0 }

/-- A control URB whose request type has both type bits set (`0x60`), with the
given data buffer. -/
def reservedControlUrb (data : List Byte) : UsbUrb :=
  { controlUrb ⟨0x60, 0, 0, 0, 0⟩ with data := data }

/-- The URB `reservedControlUrb` with a data buffer of 2^32 bytes. -/
def hugeReservedControlUrb : UsbUrb :=
  reservedControlUrb (List.replicate 4294967296 0)

/-- A call of the port allocator: `GetAvailablePort()` or `ReleasePort(port)`. -/
inductive PortCall where
  | acquire
  | release (port : Int)
  deriving DecidableEq, Repr

/-- What a call of the port allocator did, as its caller sees it:
`GetAvailablePort` returned the index `index`, or returned -1, or
`ReleasePort(port)` was called. -/
inductive PortEvent where
  | acquired (index : Int)
  | refused
  | released (port : Int)
  deriving DecidableEq, Repr

/-- Running a sequence of allocator calls on `port_usage_`: the events in
order and `port_usage_` afterwards. -/
def runPortCalls : List Bool → List PortCall → List PortEvent × List Bool
  | port_usage, [] => ([], port_usage)
  | port_usage, .acquire :: calls =>
    let r := GetAvailablePort port_usage
    let rest := runPortCalls r.2 calls
    ((if r.1 = -1 then PortEvent.refused else PortEvent.acquired r.1) :: rest.1, rest.2)
  | port_usage, .release port :: calls =>
    let rest := runPortCalls (ReleasePort port_usage port) calls
    (PortEvent.released port :: rest.1, rest.2)

/-- The effect of one event on the set of indices that are acquired and not
yet released. -/
def heldStep (held : Finset Int) (e : PortEvent) : Finset Int :=
  match e with
  | .acquired index => insert index held
  | .refused => held
  | .released port => held.erase port

/-- The set of indices acquired and not yet released, after a history of
events that started with no index held. -/
def heldAfter (events : List PortEvent) : Finset Int :=
  events.foldl heldStep ∅

/-- The ports of a `UsbipManager` after a successful `Initialize`. -/
def initialPorts : List Bool :=
  (UsbipManager.Initialize [] false true).2.1

/-- The statistics after `UpdateStatistics` has been applied to the URBs of
`urbs`, in order. -/
def updateAll (statistics : Statistics) (urbs : List UsbUrb) : Statistics :=
  urbs.foldl UpdateStatistics statistics

/-- The sum of the `actual_length` fields of the URBs, as a natural number. -/
def totalBytes (urbs : List UsbUrb) : Nat :=
  (urbs.map fun u => u.actual_length.val).sum

/-- A bulk URB that reports `actual_length = 0xFFFFFFFF`. -/
def fullLengthUrb : UsbUrb :=
  { bulkInUrb with actual_length := 0xFFFFFFFF }

/-- The socket `tcp_server_` of the sender after a successful
`Listen("0.0.0.0", 3240)` that got descriptor 3, with one accepted client on
descriptor 4. -/
def senderSocket : TcpSocket :=
  (TcpSocket.Listen TcpSocket.new "0.0.0.0" ⟨3, 0, 1, 0, 0⟩).2.AcceptThread [4]

/-- A socket that `new`, `Listen` and `AcceptThread` can produce: the sockets
of a process that never calls `Connect`, which is the case of the sender. -/
inductive ServerSocket : TcpSocket → Prop where
  | new : ServerSocket TcpSocket.new
  | listen (s : TcpSocket) (bind_addr : String) (sys : ListenCalls) :
      ServerSocket s → ServerSocket (s.Listen bind_addr sys).2
  | accept (s : TcpSocket) (accepted : List Int) :
      ServerSocket s → ServerSocket (s.AcceptThread accepted)

/-- A successful 13-byte IN transfer whose bytes are the signature "USBS", the
tag 1, residue 0 and the status byte 7. -/
def cswWithStatus7 : BulkTransferResult :=
  { ok := true, actual_length := 13,
    buffer := [0x55, 0x53, 0x42, 0x53, 0x01, 0, 0, 0, 0, 0, 0, 0, 0x07] }

/-- A descriptor inside a configuration descriptor: its type byte and the
bytes that follow the two-byte head (length, type). -/
structure Descriptor where
  bDescriptorType : Byte
  body : List Byte
  deriving DecidableEq, Repr

/-- A descriptor is well formed when its size fits the length byte, an
interface descriptor has at least 9 bytes and an endpoint descriptor at least
7. -/
def Descriptor.WellFormed (d : Descriptor) : Prop :=
  d.body.length + 2 ≤ 255 ∧
  (d.bDescriptorType = DESCRIPTOR_INTERFACE → 7 ≤ d.body.length) ∧
  (d.bDescriptorType = DESCRIPTOR_ENDPOINT → 5 ≤ d.body.length)

instance (d : Descriptor) : Decidable d.WellFormed := by
  unfold Descriptor.WellFormed
  infer_instance

/-- The field `bInterfaceNumber` of an interface descriptor (offset 2). -/
def Descriptor.bInterfaceNumber (d : Descriptor) : Byte :=
  d.body.getD 0 0

/-- A bulk OUT transfer that sent the 31 bytes of a CBW. -/
def cbwSent : BulkTransferResult :=
  { ok := true, actual_length := 31, buffer := [] }

/-- A failed bulk transfer. -/
def transferFailed : BulkTransferResult :=
  { ok := false, actual_length := 0, buffer := [] }

/-- A successful 13-byte status wrapper with signature "USBS", the given tag
byte and status 0. -/
def cswPassed (tag : Byte) : BulkTransferResult :=
  { ok := true, actual_length := 13,
    buffer := [0x55, 0x53, 0x42, 0x53, tag, 0, 0, 0, 0, 0, 0, 0, 0] }

/-- The transfers of a capacity discovery in which READ CAPACITY (16) answers
with the 32 bytes `data`. -/
def readCapacity16Transfers (data : List Byte) : CapacityTransfers :=
  { cbw16 := cbwSent, data16 := ⟨true, 32, data⟩, cbw10 := transferFailed,
    data10 := transferFailed, csw := cswPassed 1 }

/-- The transfers of a capacity discovery in which READ CAPACITY (16) fails and
READ CAPACITY (10) answers with the 8 bytes `data`. -/
def readCapacity10Transfers (data : List Byte) : CapacityTransfers :=
  { cbw16 := cbwSent, data16 := transferFailed, cbw10 := cbwSent,
    data10 := ⟨true, 8, data⟩, csw := cswPassed 2 }

/-- A 32-byte READ CAPACITY (16) response: last block `0x3FF`, block length
`0x200` in bytes 8..11, zero in bytes 12..31. -/
def capacity16Response : List Byte :=
  [0, 0, 0, 0, 0, 0, 0x03, 0xFF, 0, 0, 0x02, 0x00,
   0, 0, 0, 0, 0, 0, 0, 0, 0, 0, 0, 0, 0, 0, 0, 0, 0, 0, 0, 0]

/-- A 32-byte READ CAPACITY (16) response whose last block is `2^64 - 1`. -/
def capacity16FullResponse : List Byte :=
  [0xFF, 0xFF, 0xFF, 0xFF, 0xFF, 0xFF, 0xFF, 0xFF, 0, 0, 0x02, 0x00,
   0, 0, 0, 0, 0, 0, 0, 0, 0, 0, 0, 0, 0, 0, 0, 0, 0, 0, 0, 0]

/-- One iteration of the loop of `ProcessReceivedData` on the receive buffer
`buf`: `none` when the loop is left with the buffer as it is, otherwise the
messages handed to the callback in this iteration and the buffer the next
iteration starts from. -/
def loopIteration (h : ByteOrder) (buf : List Byte) :
    Option (List NetworkMessage × List Byte) :=
  if buf.length < sizeofMessageHeader then
    none
  else
    let header := readHeader h buf
    if header.magic ≠ MESSAGE_MAGIC then
      match search buf.tail (store32 h MESSAGE_MAGIC) with
      | some k => some ([], buf.drop (k + 1))
      | none => some ([], [])
    else if header.length.val > MAX_MESSAGE_SIZE then
      some ([], buf.drop sizeofMessageHeader)
    else
      let total_size := sizeofMessageHeader + header.length.val
      if buf.length < total_size then
        none
      else
        some
          (if ValidateMessage header (buf.drop sizeofMessageHeader) then
            (ProcessCompleteMessage h (buf.take total_size)).toList
          else
            [],
           buf.drop total_size)

/-- What a receive buffer looks like when the loop of `ProcessReceivedData`
has left it: shorter than a header, or the start of a frame that is not yet
complete. -/
def Retained (rest : List Byte) : Prop :=
  rest.length < 20 ∨
  (rest.take 4 = [0x55, 0x53, 0x42, 0x49] ∧ (readBE32 (rest.drop 8)).val ≤ 1048576 ∧
    rest.length < 20 + (readBE32 (rest.drop 8)).val)

/-- A bulk OUT URB for the mass-storage emulation that carries five data
bytes, fewer than a CBW has. -/
def shortBulkOutUrb : UsbUrb :=
  { bulkOutUrb with data := [1, 2, 3, 4, 5], actual_length := 5 }

/-! ## Theorems -/

/-! ### Byte order -/

theorem be32_fromBE32 (a b c d : Byte) : be32 (fromBE32 a b c d) = [a, b, c, d] := by
  have ha := a.isLt; have hb := b.isLt; have hc := c.isLt; have hd := d.isLt
  simp only [be32, fromBE32, u32Of, byteOf, List.cons.injEq, and_true]
  refine ⟨?_, ?_, ?_, ?_⟩ <;> apply Fin.ext <;> simp only [] <;> omega

theorem fromBE32_be32 (x : U32) :
    fromBE32 (byteOf (x.val / 16777216)) (byteOf (x.val / 65536)) (byteOf (x.val / 256))
      (byteOf x.val) = x := by
  have hx := x.isLt
  apply Fin.ext
  simp only [fromBE32, u32Of, byteOf]
  omega

theorem store32_htonl (h : ByteOrder) (x : U32) : store32 h (htonl h x) = be32 x := by
  cases h
  · simp only [store32, htonl, bswap32]
    rw [be32_fromBE32]
    rfl
  · rfl

theorem ntohl_load32 (h : ByteOrder) (bs : List Byte) : ntohl h (load32 h bs) = readBE32 bs := by
  cases h
  · simp only [ntohl, load32, bswap32, readBE32]
    have := be32_fromBE32 (bs.getD 3 0) (bs.getD 2 0) (bs.getD 1 0) (bs.getD 0 0)
    simp only [be32, List.cons.injEq, and_true] at this
    obtain ⟨h1, h2, h3, h4⟩ := this
    rw [h1, h2, h3, h4]
  · rfl

theorem readBE32_be32 (x : U32) (rest : List Byte) : readBE32 (be32 x ++ rest) = x := by
  simp only [readBE32, be32, List.cons_append, List.nil_append, List.getD_cons_zero,
    List.getD_cons_succ]
  exact fromBE32_be32 x

theorem readBE32_take (l : List Byte) (n : Nat) (hn : 4 ≤ n) :
    readBE32 (l.take n) = readBE32 l := by
  simp only [readBE32, List.getD_eq_getElem?_getD, List.getElem?_take]
  rw [if_pos (by omega), if_pos (by omega), if_pos (by omega), if_pos (by omega)]

theorem ntohl_htonl (h : ByteOrder) (x : U32) : ntohl h (htonl h x) = x := by
  cases h
  · simp only [ntohl, htonl, bswap32]
    have := be32_fromBE32 (byteOf x.val) (byteOf (x.val / 256)) (byteOf (x.val / 65536))
      (byteOf (x.val / 16777216))
    simp only [be32, List.cons.injEq, and_true] at this
    obtain ⟨h1, h2, h3, h4⟩ := this
    rw [h1, h2, h3, h4]
    exact fromBE32_be32 x
  · rfl

theorem length_be32 (x : U32) : (be32 x).length = 4 := rfl

theorem length_store32 (h : ByteOrder) (x : U32) : (store32 h x).length = 4 := by
  cases h <;> rfl

theorem length_store16 (h : ByteOrder) (x : U16) : (store16 h x).length = 2 := by
  cases h <;> rfl

theorem length_store64 (h : ByteOrder) (x : U64) : (store64 h x).length = 8 := by
  cases h <;> rfl

theorem fromBE64_be64 (x : U64) :
    fromBE64 (byteOf (x.val / 72057594037927936)) (byteOf (x.val / 281474976710656))
      (byteOf (x.val / 1099511627776)) (byteOf (x.val / 4294967296))
      (byteOf (x.val / 16777216)) (byteOf (x.val / 65536)) (byteOf (x.val / 256))
      (byteOf x.val) = x := by
  have hx := x.isLt
  apply Fin.ext
  simp only [fromBE64, u64Of, byteOf]
  omega

theorem load64_store64 (h : ByteOrder) (x : U64) (rest : List Byte) :
    load64 h (store64 h x ++ rest) = x := by
  cases h <;>
    simp only [load64, store64, be64, List.reverse_cons, List.reverse_nil, List.nil_append,
      List.cons_append, List.getD_cons_zero, List.getD_cons_succ] <;>
    exact fromBE64_be64 x

theorem fromBE16_be16 (x : U16) : fromBE16 (byteOf (x.val / 256)) (byteOf x.val) = x := by
  have hx := x.isLt
  apply Fin.ext
  simp only [fromBE16, u16Of, byteOf]
  omega

theorem be16_fromBE16 (a b : Byte) : be16 (fromBE16 a b) = [a, b] := by
  have ha := a.isLt; have hb := b.isLt
  simp only [be16, fromBE16, u16Of, byteOf, List.cons.injEq, and_true]
  refine ⟨?_, ?_⟩ <;> apply Fin.ext <;> simp only [] <;> omega

theorem store16_htons (h : ByteOrder) (x : U16) : store16 h (htons h x) = be16 x := by
  cases h
  · simp only [store16, htons, bswap16]
    rw [be16_fromBE16]
    rfl
  · rfl

theorem ntohs_load16 (h : ByteOrder) (bs : List Byte) :
    ntohs h (load16 h bs) = fromBE16 (bs.getD 0 0) (bs.getD 1 0) := by
  cases h
  · simp only [ntohs, load16, bswap16]
    have := be16_fromBE16 (bs.getD 1 0) (bs.getD 0 0)
    simp only [be16, List.cons.injEq, and_true] at this
    obtain ⟨h1, h2⟩ := this
    rw [h1, h2]
  · rfl

/-! ### Headers, frames and the checksum -/

theorem writeHeader_eq (h : ByteOrder) (hdr : MessageHeader) :
    writeHeader h hdr = be32 hdr.magic ++ be32 hdr.type ++ be32 hdr.length
      ++ be32 hdr.sequence ++ be32 hdr.checksum := by
  simp only [writeHeader, store32_htonl]

theorem length_writeHeader (h : ByteOrder) (hdr : MessageHeader) :
    (writeHeader h hdr).length = 20 := by
  simp only [writeHeader_eq, List.length_append, length_be32]

theorem readHeader_eq (h : ByteOrder) (data : List Byte) :
    readHeader h data =
      { magic := readBE32 data
        type := readBE32 (data.drop 4)
        length := readBE32 (data.drop 8)
        sequence := readBE32 (data.drop 12)
        checksum := readBE32 (data.drop 16) } := by
  simp only [readHeader, ntohl_load32]

theorem readHeader_writeHeader (h : ByteOrder) (hdr : MessageHeader) (rest : List Byte) :
    readHeader h (writeHeader h hdr ++ rest) = hdr := by
  simp [readHeader, ntohl_load32, writeHeader_eq, readBE32, be32, fromBE32_be32]

theorem readHeader_take (h : ByteOrder) (l : List Byte) (n : Nat) (hn : 20 ≤ n) :
    readHeader h (l.take n) = readHeader h l := by
  simp only [readHeader_eq, List.drop_take]
  rw [readBE32_take _ _ (by omega), readBE32_take _ _ (by omega), readBE32_take _ _ (by omega),
    readBE32_take _ _ (by omega), readBE32_take _ _ (by omega)]

theorem SerializeMessage_eq (h : ByteOrder) (m : NetworkMessage) :
    SerializeMessage h m = writeHeader h (sealedHeader m) ++ m.payload := rfl

theorem length_SerializeMessage (h : ByteOrder) (m : NetworkMessage) :
    (SerializeMessage h m).length = 20 + m.payload.length := by
  simp only [SerializeMessage_eq, List.length_append, length_writeHeader]

theorem CalculateChecksum_nil : CalculateChecksum [] = 0 := rfl

theorem CalculateChecksum_foldl_val (l : List Byte) (acc : U32) :
    (l.foldl (fun checksum b => checksum + u32Of b.val) acc).val
      = (acc.val + (l.map Fin.val).sum) % 4294967296 := by
  induction l generalizing acc with
  | nil => simp [Nat.mod_eq_of_lt acc.isLt]
  | cons b bs ih =>
    rw [List.foldl_cons, ih]
    have hb := b.isLt
    simp only [Fin.val_add, u32Of, List.map_cons, List.sum_cons]
    omega

theorem CalculateChecksum_val (l : List Byte) :
    (CalculateChecksum l).val = (l.map Fin.val).sum % 4294967296 := by
  unfold CalculateChecksum
  rw [CalculateChecksum_foldl_val]
  simp

theorem sum_map_val_set (l : List Byte) (b : Byte) :
    ∀ (i : Nat) (hi : i < l.length),
      ((l.set i b).map Fin.val).sum + (l[i]).val = (l.map Fin.val).sum + b.val := by
  induction l with
  | nil => intro i hi; simp at hi
  | cons x xs ih =>
    intro i hi
    cases i with
    | zero => simp; omega
    | succ j =>
      have := ih j (by simpa using hi)
      simp only [List.set_cons_succ, List.map_cons, List.sum_cons, List.getElem_cons_succ]
      omega

theorem CalculateChecksum_set_ne (l : List Byte) (i : Nat) (hi : i < l.length) (b : Byte)
    (hb : b ≠ l[i]) : CalculateChecksum (l.set i b) ≠ CalculateChecksum l := by
  intro heq
  have h1 := congrArg Fin.val heq
  rw [CalculateChecksum_val, CalculateChecksum_val] at h1
  have h2 := sum_map_val_set l b i hi
  have h3 := b.isLt
  have h4 := (l[i]).isLt
  apply hb
  apply Fin.ext
  omega

theorem ValidateMessage_sealed (m : NetworkMessage) (rest : List Byte)
    (hl : m.header.length.val = m.payload.length) :
    ValidateMessage (sealedHeader m) (m.payload ++ rest) = true := by
  have hlen : (sealedHeader m).length = m.header.length := rfl
  have hck : (sealedHeader m).checksum = CalculateChecksum m.payload := rfl
  unfold ValidateMessage
  rw [hlen, hck]
  by_cases h0 : m.header.length = 0
  · have : m.payload = [] := by
      rw [h0] at hl
      exact List.length_eq_zero.mp hl.symm
    rw [if_pos h0, this]
    rfl
  · rw [if_neg h0, hl, List.take_left]
    simp

theorem ProcessCompleteMessage_frame (h : ByteOrder) (m : NetworkMessage)
    (hl : m.header.length.val = m.payload.length) :
    ProcessCompleteMessage h (SerializeMessage h m) = some (delivered m) := by
  have hlen := length_SerializeMessage h m
  unfold ProcessCompleteMessage
  rw [if_neg (by rw [hlen]; simp [sizeofMessageHeader])]
  rw [SerializeMessage_eq, readHeader_writeHeader]
  have h1 : (sealedHeader m).length.val = m.payload.length := hl
  simp only [h1, sizeofMessageHeader, delivered, Option.some.injEq, NetworkMessage.mk.injEq,
    true_and]
  rw [List.drop_left' (length_writeHeader h _)]
  split
  · simp
  · rename_i hz
    have : m.payload.length = 0 := by omega
    simp [List.length_eq_zero.mp this]

theorem ProcessCompleteMessage_take (h : ByteOrder) (buf : List Byte)
    (hlen : 0 < (readHeader h buf).length.val)
    (htot : 20 + (readHeader h buf).length.val ≤ buf.length) :
    ProcessCompleteMessage h (buf.take (20 + (readHeader h buf).length.val))
      = some { header := readHeader h buf
               payload := (buf.drop 20).take (readHeader h buf).length.val } := by
  unfold ProcessCompleteMessage
  rw [if_neg (by rw [List.length_take]; simp [sizeofMessageHeader]; omega),
    readHeader_take h buf _ (by omega)]
  simp only [sizeofMessageHeader, hlen, if_true, List.drop_take, Nat.add_sub_cancel_left,
    List.take_take, Nat.min_self]

/-! ### The receive loop: one iteration -/

theorem processLoop_short (h : ByteOrder) (fuel : Nat) (buf : List Byte)
    (hb : buf.length < 20) : processLoop h (fuel + 1) buf = some ([], buf) := by
  simp [processLoop, sizeofMessageHeader, hb]

theorem processLoop_frame (h : ByteOrder) (fuel : Nat) (m : NetworkMessage) (rest : List Byte)
    (hm : WellFormed m) :
    processLoop h (fuel + 1) (SerializeMessage h m ++ rest) =
      match processLoop h fuel rest with
      | some (ms, b) => some (delivered m :: ms, b)
      | none => none := by
  obtain ⟨hmagic, hl, hmax⟩ := hm
  have hlen := length_SerializeMessage h m
  have hrd : readHeader h (SerializeMessage h m ++ rest) = sealedHeader m := by
    rw [SerializeMessage_eq, List.append_assoc, readHeader_writeHeader]
  have h1 : (sealedHeader m).length.val = m.payload.length := hl
  have h2 : (sealedHeader m).magic = MESSAGE_MAGIC := hmagic
  rw [processLoop]
  simp only [hrd, h1, h2, sizeofMessageHeader, List.length_append, hlen]
  rw [if_neg (by omega), if_neg (by simp), if_neg (by omega), if_neg (by omega)]
  rw [← hlen, List.drop_left, List.take_left, ProcessCompleteMessage_frame h m hl]
  have hv : ValidateMessage (sealedHeader m) (List.drop 20 (SerializeMessage h m ++ rest)) = true := by
    rw [SerializeMessage_eq, List.append_assoc, List.drop_left' (length_writeHeader h _)]
    exact ValidateMessage_sealed m rest hl
  rw [hv]
  rfl

theorem processLoop_wait (h : ByteOrder) (fuel : Nat) (buf : List Byte)
    (h20 : 20 ≤ buf.length) (hmagic : (readHeader h buf).magic = MESSAGE_MAGIC)
    (hmax : (readHeader h buf).length.val ≤ MAX_MESSAGE_SIZE)
    (htot : buf.length < 20 + (readHeader h buf).length.val) :
    processLoop h (fuel + 1) buf = some ([], buf) := by
  rw [processLoop]
  simp only [sizeofMessageHeader]
  rw [if_neg (by omega), if_neg (by simp [hmagic]), if_neg (by omega), if_pos htot]

theorem processLoop_oversize (h : ByteOrder) (fuel : Nat) (buf : List Byte)
    (h20 : 20 ≤ buf.length) (hmagic : (readHeader h buf).magic = MESSAGE_MAGIC)
    (hbig : (readHeader h buf).length.val > MAX_MESSAGE_SIZE) :
    processLoop h (fuel + 1) buf = processLoop h fuel (buf.drop 20) := by
  rw [processLoop]
  simp only [sizeofMessageHeader]
  rw [if_neg (by omega), if_neg (by simp [hmagic]), if_pos hbig]

theorem processLoop_complete (h : ByteOrder) (fuel : Nat) (buf : List Byte)
    (h20 : 20 ≤ buf.length) (hmagic : (readHeader h buf).magic = MESSAGE_MAGIC)
    (hmax : (readHeader h buf).length.val ≤ MAX_MESSAGE_SIZE)
    (htot : 20 + (readHeader h buf).length.val ≤ buf.length) :
    processLoop h (fuel + 1) buf =
      match processLoop h fuel (buf.drop (20 + (readHeader h buf).length.val)) with
      | some (ms, rest) =>
        some ((if ValidateMessage (readHeader h buf) (buf.drop 20) then
            (ProcessCompleteMessage h (buf.take (20 + (readHeader h buf).length.val))).toList
          else []) ++ ms, rest)
      | none => none := by
  rw [processLoop]
  simp only [sizeofMessageHeader]
  rw [if_neg (by omega), if_neg (by simp [hmagic]), if_neg (by omega), if_neg (by omega)]

/-! ### The receive loop terminates within its iteration budget -/

theorem processLoop_fuel (h : ByteOrder) (fuel : Nat) :
    ∀ (buf : List Byte) (fuel2 : Nat), buf.length < fuel → buf.length < fuel2 →
      processLoop h fuel buf = processLoop h fuel2 buf ∧ (processLoop h fuel buf).isSome = true := by
  induction fuel with
  | zero => intro buf fuel2 h1; omega
  | succ n ih =>
    intro buf fuel2 h1 h2
    obtain ⟨n2, rfl⟩ : ∃ n2, fuel2 = n2 + 1 := ⟨fuel2 - 1, by omega⟩
    rw [processLoop, processLoop]
    by_cases hs : buf.length < sizeofMessageHeader
    · simp [hs]
    · rw [if_neg hs, if_neg hs]
      have h20 : 20 ≤ buf.length := by simp [sizeofMessageHeader] at hs; exact hs
      have key : ∀ b : List Byte, b.length < buf.length →
          processLoop h n b = processLoop h n2 b ∧ (processLoop h n b).isSome = true :=
        fun b hb => ih b n2 (by omega) (by omega)
      by_cases hm : (readHeader h buf).magic ≠ MESSAGE_MAGIC
      · rw [if_pos hm, if_pos hm]
        cases search buf.tail (store32 h MESSAGE_MAGIC) with
        | none => exact key [] (by simp; omega)
        | some k => exact key _ (by rw [List.length_drop]; omega)
      · rw [if_neg hm, if_neg hm]
        by_cases ho : (readHeader h buf).length.val > MAX_MESSAGE_SIZE
        · rw [if_pos ho, if_pos ho]
          exact key _ (by rw [List.length_drop]; simp [sizeofMessageHeader]; omega)
        · rw [if_neg ho, if_neg ho]
          by_cases ht : buf.length < sizeofMessageHeader + (readHeader h buf).length.val
          · rw [if_pos ht, if_pos ht]
            exact ⟨rfl, rfl⟩
          · rw [if_neg ht, if_neg ht]
            have := key (buf.drop (sizeofMessageHeader + (readHeader h buf).length.val))
              (by rw [List.length_drop]; simp [sizeofMessageHeader]; omega)
            rw [← this.1]
            refine ⟨rfl, ?_⟩
            have h3 := this.2
            revert h3
            cases processLoop h n (buf.drop (sizeofMessageHeader + (readHeader h buf).length.val)) with
            | none => simp
            | some r => simp

theorem processLoop_eq_of_lt (h : ByteOrder) (f1 f2 : Nat) (buf : List Byte)
    (h1 : buf.length < f1) (h2 : buf.length < f2) :
    processLoop h f1 buf = processLoop h f2 buf :=
  (processLoop_fuel h f1 buf f2 h1 h2).1

theorem ProcessReceivedData_eq (h : ByteOrder) (b d : List Byte) :
    ProcessReceivedData h b d = ProcessReceivedData h [] (b ++ d) := rfl

theorem ProcessReceivedData_isSome (h : ByteOrder) (b d : List Byte) :
    (ProcessReceivedData h b d).isSome = true :=
  (processLoop_fuel h _ (b ++ d) _ (Nat.lt_succ_self _) (Nat.lt_succ_self _)).2

theorem processLoop_eq_PRD (h : ByteOrder) (fuel : Nat) (buf : List Byte)
    (hf : buf.length < fuel) :
    processLoop h fuel buf = ProcessReceivedData h [] buf :=
  processLoop_eq_of_lt h _ _ buf hf (by simp)

/-! ### `ProcessReceivedData` on streams -/

theorem PRD_short (h : ByteOrder) (buf : List Byte) (hb : buf.length < 20) :
    ProcessReceivedData h [] buf = some ([], buf) :=
  processLoop_short h _ buf hb

/-- One valid frame at the head of the stream is delivered and parsing goes on
behind it. -/
theorem PRD_frame_append (h : ByteOrder) (m : NetworkMessage) (rest : List Byte)
    (hm : WellFormed m) :
    ProcessReceivedData h [] (SerializeMessage h m ++ rest) =
      match ProcessReceivedData h [] rest with
      | some (ms, b) => some (delivered m :: ms, b)
      | none => none := by
  have e : ProcessReceivedData h [] (SerializeMessage h m ++ rest)
      = processLoop h ((SerializeMessage h m ++ rest).length + 1) (SerializeMessage h m ++ rest) := rfl
  rw [e, processLoop_frame h _ m rest hm,
    processLoop_eq_PRD h _ rest (by rw [List.length_append, length_SerializeMessage]; omega)]

theorem PRD_wait (h : ByteOrder) (buf : List Byte)
    (h20 : 20 ≤ buf.length) (hmagic : (readHeader h buf).magic = MESSAGE_MAGIC)
    (hmax : (readHeader h buf).length.val ≤ MAX_MESSAGE_SIZE)
    (htot : buf.length < 20 + (readHeader h buf).length.val) :
    ProcessReceivedData h [] buf = some ([], buf) :=
  processLoop_wait h _ buf h20 hmagic hmax htot

theorem PRD_oversize (h : ByteOrder) (buf : List Byte)
    (h20 : 20 ≤ buf.length) (hmagic : (readHeader h buf).magic = MESSAGE_MAGIC)
    (hbig : (readHeader h buf).length.val > MAX_MESSAGE_SIZE) :
    ProcessReceivedData h [] buf = ProcessReceivedData h [] (buf.drop 20) := by
  have e : ProcessReceivedData h [] buf = processLoop h (buf.length + 1) buf := rfl
  rw [e, processLoop_oversize h _ buf h20 hmagic hbig,
    processLoop_eq_PRD h _ _ (by rw [List.length_drop]; omega)]

theorem PRD_complete (h : ByteOrder) (buf : List Byte)
    (h20 : 20 ≤ buf.length) (hmagic : (readHeader h buf).magic = MESSAGE_MAGIC)
    (hmax : (readHeader h buf).length.val ≤ MAX_MESSAGE_SIZE)
    (htot : 20 + (readHeader h buf).length.val ≤ buf.length) :
    ProcessReceivedData h [] buf =
      match ProcessReceivedData h [] (buf.drop (20 + (readHeader h buf).length.val)) with
      | some (ms, rest) =>
        some ((if ValidateMessage (readHeader h buf) (buf.drop 20) then
            (ProcessCompleteMessage h (buf.take (20 + (readHeader h buf).length.val))).toList
          else []) ++ ms, rest)
      | none => none := by
  have e : ProcessReceivedData h [] buf = processLoop h (buf.length + 1) buf := rfl
  rw [e, processLoop_complete h _ buf h20 hmagic hmax htot,
    processLoop_eq_PRD h _ _ (by rw [List.length_drop]; omega)]

theorem ProcessReceivedData_frame (h : ByteOrder) (m : NetworkMessage) (hm : WellFormed m) :
    ProcessReceivedData h [] (SerializeMessage h m) = some ([delivered m], []) := by
  unfold ProcessReceivedData
  rw [List.nil_append, length_SerializeMessage]
  have e : SerializeMessage h m = SerializeMessage h m ++ [] := (List.append_nil _).symm
  rw [e, show 20 + m.payload.length + 1 = (20 + m.payload.length) + 1 from rfl,
    processLoop_frame h _ m [] hm, show 20 + m.payload.length = (19 + m.payload.length) + 1 by omega,
    processLoop_short h _ [] (by simp)]

theorem PRD_partial (h : ByteOrder) (p : List Byte) (hp : IsPartialFrame h p) :
    ProcessReceivedData h [] p = some ([], p) := by
  rcases hp with rfl | ⟨m, t, hm, ht, hpt⟩
  · exact PRD_short h [] (by simp)
  · by_cases hs : p.length < 20
    · exact PRD_short h p hs
    · have hlen : p.length + t.length = 20 + m.payload.length := by
        rw [← List.length_append, hpt, length_SerializeMessage]
      have htl : 0 < t.length := List.length_pos.mpr ht
      rw [SerializeMessage_eq] at hpt
      obtain ⟨c, hc, hpay⟩ : ∃ c, p = writeHeader h (sealedHeader m) ++ c ∧ m.payload = c ++ t := by
        rcases List.append_eq_append_iff.mp hpt with ⟨a, ha, hb⟩ | ⟨c, hc, hd⟩
        · have : a = [] := by
            have := congrArg List.length ha
            rw [List.length_append, length_writeHeader] at this
            exact List.length_eq_zero.mp (by omega)
          subst this
          exact ⟨[], by simpa using ha.symm, by simpa using hb.symm⟩
        · exact ⟨c, hc, hd⟩
      have hrd : readHeader h p = sealedHeader m := by rw [hc, readHeader_writeHeader]
      obtain ⟨hmagic, hl, hmax⟩ := hm
      have h1 : (sealedHeader m).length.val = m.payload.length := hl
      apply PRD_wait h p (by omega)
      · rw [hrd]; exact hmagic
      · rw [hrd, h1]; exact hmax
      · rw [hrd, h1]; omega

theorem PRD_frames (h : ByteOrder) (ms : List NetworkMessage) (p : List Byte)
    (hms : ∀ m ∈ ms, WellFormed m) (hp : IsPartialFrame h p) :
    ProcessReceivedData h [] (frames h ms ++ p) = some (ms.map delivered, p) := by
  induction ms with
  | nil => simpa [frames] using PRD_partial h p hp
  | cons m ms ih =>
    have e : frames h (m :: ms) ++ p = SerializeMessage h m ++ (frames h ms ++ p) := by
      simp [frames]
    rw [e, PRD_frame_append h m _ (hms m (List.mem_cons_self _ _)),
      ih (fun x hx => hms x (List.mem_cons_of_mem _ hx))]
    rfl

theorem stream_split (h : ByteOrder) (ms : List NetworkMessage) :
    ∀ (X Y p : List Byte), (∀ m ∈ ms, WellFormed m) → IsPartialFrame h p →
      X ++ Y = frames h ms ++ p →
      ∃ (ms1 ms2 : List NetworkMessage) (b : List Byte),
        ms = ms1 ++ ms2 ∧ X = frames h ms1 ++ b ∧ b ++ Y = frames h ms2 ++ p ∧
          IsPartialFrame h b := by
  induction ms with
  | nil =>
    intro X Y p _ hp hXY
    refine ⟨[], [], X, rfl, by simp [frames], by simpa [frames] using hXY, ?_⟩
    simp only [frames, List.map_nil, List.flatten_nil, List.nil_append] at hXY
    rcases hp with rfl | ⟨m, t, hm, ht, hpt⟩
    · left
      exact (List.append_eq_nil.mp hXY).1
    · right
      refine ⟨m, Y ++ t, hm, ?_, ?_⟩
      · simp [ht]
      · rw [← List.append_assoc, hXY, hpt]
  | cons m ms ih =>
    intro X Y p hms hp hXY
    have e : frames h (m :: ms) ++ p = SerializeMessage h m ++ (frames h ms ++ p) := by
      simp [frames]
    rw [e] at hXY
    rcases List.append_eq_append_iff.mp hXY with ⟨a, ha, hb⟩ | ⟨c, hc, hd⟩
    · by_cases hane : a = []
      · subst hane
        refine ⟨[m], ms, [], rfl, ?_, ?_, Or.inl rfl⟩
        · simpa [frames] using ha.symm
        · simpa using hb
      · refine ⟨[], m :: ms, X, rfl, by simp [frames], ?_,
          Or.inr ⟨m, a, hms m (List.mem_cons_self _ _), hane, ha.symm⟩⟩
        rw [e, hXY]
    · obtain ⟨ms1, ms2, b, h1, h2, h3, h4⟩ :=
        ih c Y p (fun x hx => hms x (List.mem_cons_of_mem _ hx)) hp hd.symm
      refine ⟨m :: ms1, ms2, b, by rw [h1]; rfl, ?_, h3, h4⟩
      rw [hc, h2]
      simp [frames]

theorem feedAll_append (h : ByteOrder) (cs1 cs2 : List (List Byte)) :
    ∀ buf : List Byte, feedAll h buf (cs1 ++ cs2) =
      (feedAll h buf cs1).bind fun r1 =>
        (feedAll h r1.2 cs2).map fun r2 => (r1.1 ++ r2.1, r2.2) := by
  induction cs1 with
  | nil =>
    intro buf
    cases hf : feedAll h buf cs2 with
    | none => simp [feedAll, hf]
    | some r => simp [feedAll, hf]
  | cons c cs ih =>
    intro buf
    cases hp : ProcessReceivedData h buf c with
    | none => simp [feedAll, hp]
    | some r =>
      cases hf : feedAll h r.2 cs with
      | none => simp [feedAll, hp, ih, hf]
      | some r1 =>
        cases hg : feedAll h r1.2 cs2 with
        | none => simp [feedAll, hp, ih, hf, hg]
        | some r2 => simp [feedAll, hp, ih, hf, hg, List.append_assoc]

theorem feedAll_stream (h : ByteOrder) (chunks : List (List Byte)) :
    ∀ (ms : List NetworkMessage) (p : List Byte), (∀ m ∈ ms, WellFormed m) →
      IsPartialFrame h p → chunks.flatten = frames h ms ++ p →
      feedAll h [] chunks = some (ms.map delivered, p) := by
  induction chunks using List.reverseRecOn with
  | nil =>
    intro ms p _ _ hc
    have hnil : frames h ms ++ p = [] := by simpa using hc.symm
    obtain ⟨h1, h2⟩ := List.append_eq_nil.mp hnil
    cases ms with
    | nil => simp [feedAll, h2]
    | cons m ms =>
      exfalso
      have := congrArg List.length h1
      simp [frames, length_SerializeMessage] at this
  | append_singleton cs c ih =>
    intro ms p hms hp hc
    rw [List.flatten_append, List.flatten_singleton] at hc
    obtain ⟨ms1, ms2, b, h1, h2, h3, h4⟩ := stream_split h ms cs.flatten c p hms hp hc
    have hms1 : ∀ m ∈ ms1, WellFormed m := fun m hm => hms m (by rw [h1]; exact List.mem_append_left _ hm)
    have hms2 : ∀ m ∈ ms2, WellFormed m := fun m hm => hms m (by rw [h1]; exact List.mem_append_right _ hm)
    have hlast : ProcessReceivedData h b c = some (ms2.map delivered, p) := by
      rw [ProcessReceivedData_eq, h3, PRD_frames h ms2 p hms2 hp]
    rw [feedAll_append, ih ms1 b hms1 h4 h2]
    simp [feedAll, hlast, h1]

theorem PRD_altered_append (h : ByteOrder) (m : NetworkMessage) (i : Nat) (b : Byte)
    (hm : WellFormed m) (hi : i < m.payload.length) (hb : b ≠ m.payload[i]) (rest : List Byte) :
    ProcessReceivedData h [] ((SerializeMessage h m).set (20 + i) b ++ rest)
      = ProcessReceivedData h [] rest := by
  obtain ⟨hmagic, hl, hmax⟩ := hm
  have halt : (SerializeMessage h m).set (20 + i) b
      = writeHeader h (sealedHeader m) ++ m.payload.set i b := by
    rw [SerializeMessage_eq, List.set_append_right _ _ (by rw [length_writeHeader]; omega),
      length_writeHeader, Nat.add_sub_cancel_left]
  have hbuf : (SerializeMessage h m).set (20 + i) b ++ rest
      = writeHeader h (sealedHeader m) ++ (m.payload.set i b ++ rest) := by
    rw [halt, List.append_assoc]
  have hrd : readHeader h ((SerializeMessage h m).set (20 + i) b ++ rest) = sealedHeader m := by
    rw [hbuf, readHeader_writeHeader]
  have h1 : (sealedHeader m).length.val = m.payload.length := hl
  have hlenb : ((SerializeMessage h m).set (20 + i) b ++ rest).length
      = 20 + m.payload.length + rest.length := by
    rw [List.length_append, List.length_set, length_SerializeMessage]
  rw [PRD_complete h _ (by omega) (by rw [hrd]; exact hmagic) (by rw [hrd, h1]; exact hmax)
    (by rw [hrd, h1]; omega)]
  rw [hrd, h1]
  have hdrop : List.drop (20 + m.payload.length) ((SerializeMessage h m).set (20 + i) b ++ rest)
      = rest := by
    apply List.drop_left'
    rw [List.length_set, length_SerializeMessage]
  have hdrop20 : List.drop 20 ((SerializeMessage h m).set (20 + i) b ++ rest)
      = m.payload.set i b ++ rest := by
    rw [hbuf]
    exact List.drop_left' (length_writeHeader h _)
  have hv : ValidateMessage (sealedHeader m) (m.payload.set i b ++ rest) = false := by
    have hlen : (sealedHeader m).length = m.header.length := rfl
    have hck : (sealedHeader m).checksum = CalculateChecksum m.payload := rfl
    have h0 : m.header.length ≠ 0 := by
      intro h0
      rw [h0] at hl
      have : (0 : U32).val = 0 := rfl
      omega
    unfold ValidateMessage
    rw [hlen, hck, if_neg h0, hl, List.take_left' (by rw [List.length_set])]
    simpa using CalculateChecksum_set_ne m.payload i hi b hb
  rw [hdrop, hdrop20, hv]
  cases ProcessReceivedData h [] rest with
  | none => rfl
  | some r => simp

/-! ### Round trip of one frame -/

/-- C1, as amended.  For every host byte order and every message `m` whose
`header.magic` is `MESSAGE_MAGIC`, whose `header.length` equals its payload size
and whose payload is at most 1 MiB, feeding `SerializeMessage(m)` to a fresh
`MessageHandler` invokes the callback exactly once, with a message whose type,
sequence and payload are those of `m` and whose checksum is the sum of the
payload bytes modulo 2^32; the receive buffer is empty afterwards. -/
theorem serialize_then_process_roundtrip (h : ByteOrder) (m : NetworkMessage)
    (hmagic : m.header.magic = MESSAGE_MAGIC)
    (hlen : m.header.length.val = m.payload.length)
    (hmax : m.payload.length ≤ 1048576) :
    ∃ d : NetworkMessage,
      ProcessReceivedData h [] (SerializeMessage h m) = some ([d], []) ∧
      d.header.type = m.header.type ∧ d.header.sequence = m.header.sequence ∧
      d.payload = m.payload ∧
      d.header.checksum.val = (m.payload.map Fin.val).sum % 4294967296 :=
  ⟨delivered m, ProcessReceivedData_frame h m ⟨hmagic, hlen, hmax⟩, rfl, rfl, rfl,
    CalculateChecksum_val m.payload⟩

/-- Witness for `serialize_then_process_roundtrip`: the HEARTBEAT message with
payload `AA BB CC DD` built by the constructor, on a little-endian host. -/
theorem serialize_then_process_roundtrip_witness :
    ∃ d : NetworkMessage,
      ProcessReceivedData .little []
        (SerializeMessage .little (NetworkMessage.create .HEARTBEAT [0xAA, 0xBB, 0xCC, 0xDD] 1).1)
        = some ([d], []) ∧
      d.header.type = (NetworkMessage.create .HEARTBEAT [0xAA, 0xBB, 0xCC, 0xDD] 1).1.header.type ∧
      d.header.sequence
        = (NetworkMessage.create .HEARTBEAT [0xAA, 0xBB, 0xCC, 0xDD] 1).1.header.sequence ∧
      d.payload = (NetworkMessage.create .HEARTBEAT [0xAA, 0xBB, 0xCC, 0xDD] 1).1.payload ∧
      d.header.checksum.val
        = (((NetworkMessage.create .HEARTBEAT [0xAA, 0xBB, 0xCC, 0xDD] 1).1.payload).map
            Fin.val).sum % 4294967296 :=
  serialize_then_process_roundtrip .little
    (NetworkMessage.create .HEARTBEAT [0xAA, 0xBB, 0xCC, 0xDD] 1).1 (by decide) (by decide)
    (by decide)

/-- C1, as stated, fails.  The value-initialised `NetworkMessage()` has
`header.length` equal to its payload size (both 0) and a payload below 1 MiB,
but its `header.magic` is 0: on either host byte order its serialisation is
discarded by `ProcessReceivedData` and the callback is not invoked. -/
theorem zero_message_not_delivered :
    NetworkMessage.zero.header.length.val = NetworkMessage.zero.payload.length ∧
    NetworkMessage.zero.payload.length ≤ 1048576 ∧
    ProcessReceivedData .little [] (SerializeMessage .little NetworkMessage.zero) = some ([], []) ∧
    ProcessReceivedData .big [] (SerializeMessage .big NetworkMessage.zero) = some ([], []) := by
  decide

/-! ### Resynchronisation after garbage -/

/-- C2, evaluated at the failing input.  On a little-endian host the bytes
`FF FF FF` followed by the frame of the first HEARTBEAT are discarded whole:
the callback is not invoked and the receive buffer is cleared, because the
resynchronisation search looks for the host-order bytes `49 42 53 55` of
`MESSAGE_MAGIC` and not for the wire bytes `55 53 42 49`. -/
theorem resync_loses_heartbeat_on_little_endian :
    search ([0xFF, 0xFF, 0xFF] ++ SerializeMessage .little (CreateHeartbeat 1).1).tail
        (store32 .little MESSAGE_MAGIC) = none ∧
    store32 .little MESSAGE_MAGIC = [0x49, 0x42, 0x53, 0x55] ∧
    (SerializeMessage .little (CreateHeartbeat 1).1).take 4 = [0x55, 0x53, 0x42, 0x49] ∧
    ProcessReceivedData .little []
        ([0xFF, 0xFF, 0xFF] ++ SerializeMessage .little (CreateHeartbeat 1).1) = some ([], []) := by
  decide

theorem take4_ne_magic_of_garbage (s rest : List Byte) (hs : s ≠ [])
    (hno : ¬ ([0x55, 0x53, 0x42, 0x49] : List Byte) <:+: s) :
    (s ++ ([0x55, 0x53, 0x42, 0x49] ++ rest)).take 4 ≠ [0x55, 0x53, 0x42, 0x49] := by
  intro heq
  match s, hs with
  | [a], _ =>
    simp only [List.cons_append, List.nil_append, List.take_succ_cons, List.take_zero,
      List.cons.injEq] at heq
    exact absurd heq.2.1 (by decide)
  | [a, b], _ =>
    simp only [List.cons_append, List.nil_append, List.take_succ_cons, List.take_zero,
      List.cons.injEq] at heq
    exact absurd heq.2.2.1 (by decide)
  | [a, b, c], _ =>
    simp only [List.cons_append, List.nil_append, List.take_succ_cons, List.take_zero,
      List.cons.injEq] at heq
    exact absurd heq.2.2.2.1 (by decide)
  | a :: b :: c :: d :: t, _ =>
    simp only [List.cons_append, List.take_succ_cons, List.take_zero, List.cons.injEq,
      and_true] at heq
    obtain ⟨rfl, rfl, rfl, rfl⟩ := heq
    exact hno ⟨[], t, rfl⟩

theorem search_after_garbage (s rest : List Byte)
    (hno : ¬ ([0x55, 0x53, 0x42, 0x49] : List Byte) <:+: s) :
    search (s ++ ([0x55, 0x53, 0x42, 0x49] ++ rest)) [0x55, 0x53, 0x42, 0x49] = some s.length := by
  induction s with
  | nil => rfl
  | cons x s ih =>
    have hno2 : ¬ ([0x55, 0x53, 0x42, 0x49] : List Byte) <:+: s := fun hin =>
      hno (hin.trans (List.suffix_cons x s).isInfix)
    have hne := take4_ne_magic_of_garbage (x :: s) rest (List.cons_ne_nil _ _) hno
    rw [List.cons_append, search]
    rw [if_neg (by simpa using hne), ih hno2]
    rfl

/-- The intended resynchronisation, on a host whose memory order is the wire
order: for every byte string `g` that does not contain the wire magic
`55 53 42 49` and every valid message `m`, feeding `g` followed by the frame of
`m` to a fresh handler on a big-endian host delivers exactly `m`. -/
theorem resync_after_garbage_on_big_endian (g : List Byte) (m : NetworkMessage)
    (hm : WellFormed m) (hno : ¬ ([0x55, 0x53, 0x42, 0x49] : List Byte) <:+: g) :
    ProcessReceivedData .big [] (g ++ SerializeMessage .big m) = some ([delivered m], []) := by
  cases g with
  | nil => exact ProcessReceivedData_frame .big m hm
  | cons x s =>
    have hno2 : ¬ ([0x55, 0x53, 0x42, 0x49] : List Byte) <:+: s := fun hin =>
      hno (hin.trans (List.suffix_cons x s).isInfix)
    have hF : SerializeMessage .big m
        = [0x55, 0x53, 0x42, 0x49] ++ (SerializeMessage .big m).drop 4 := by
      rw [SerializeMessage_eq, writeHeader_eq]
      have : (sealedHeader m).magic = MESSAGE_MAGIC := hm.1
      rw [this]
      rfl
    have hlen := length_SerializeMessage .big m
    have hne := take4_ne_magic_of_garbage (x :: s) ((SerializeMessage .big m).drop 4)
      (List.cons_ne_nil _ _) hno
    rw [← hF] at hne
    have hmagic : (readHeader .big ((x :: s) ++ SerializeMessage .big m)).magic ≠ MESSAGE_MAGIC := by
      intro heq
      apply hne
      have h4 : 4 ≤ ((x :: s) ++ SerializeMessage .big m).length := by
        rw [List.length_append, hlen]; omega
      generalize (x :: s) ++ SerializeMessage .big m = buf at heq h4
      rcases buf with _ | ⟨a, _ | ⟨b, _ | ⟨c, _ | ⟨d, t⟩⟩⟩⟩
      · simp at h4
      · simp at h4
      · simp at h4
      · simp at h4
      · have h1 : fromBE32 a b c d = MESSAGE_MAGIC := by
          rw [readHeader_eq] at heq
          simpa only [readBE32, List.getD_cons_zero, List.getD_cons_succ] using heq
        have h2 := be32_fromBE32 a b c d
        have hM : be32 MESSAGE_MAGIC = [0x55, 0x53, 0x42, 0x49] := by decide
        rw [h1, hM] at h2
        simp only [List.take_succ_cons, List.take_zero]
        exact h2.symm
    have e : ProcessReceivedData .big [] ((x :: s) ++ SerializeMessage .big m)
        = processLoop .big (((x :: s) ++ SerializeMessage .big m).length + 1)
            ((x :: s) ++ SerializeMessage .big m) := rfl
    rw [e, processLoop]
    rw [if_neg (by rw [List.length_append, hlen]; simp [sizeofMessageHeader]; omega),
      if_pos hmagic]
    have hs : search ((x :: s) ++ SerializeMessage .big m).tail (store32 .big MESSAGE_MAGIC)
        = some s.length := by
      have : ((x :: s) ++ SerializeMessage .big m).tail
          = s ++ ([0x55, 0x53, 0x42, 0x49] ++ (SerializeMessage .big m).drop 4) := by
        rw [← hF]; rfl
      rw [this]
      exact search_after_garbage s _ hno2
    rw [hs]
    simp only
    have hd : List.drop (s.length + 1) ((x :: s) ++ SerializeMessage .big m)
        = SerializeMessage .big m := by
      rw [show s.length + 1 = (x :: s).length from rfl, List.drop_left]
    rw [hd, processLoop_eq_PRD .big _ _ (by rw [List.length_append, List.length_cons]; omega)]
    exact ProcessReceivedData_frame .big m hm

/-! ### Checksum mismatch -/

/-- C3.  For every host byte order, every valid message `m` with a non-empty
payload, every payload position `i` and every byte `b` different from the
byte at `i`: feeding the frame of `m` with byte `20 + i` replaced by `b`
delivers nothing and leaves the receive buffer empty; whatever follows the
altered frame is parsed as if the altered frame had not been there, and a valid
frame fed after it, in the same or in a later call, is delivered. -/
theorem altered_payload_byte_drops_frame (h : ByteOrder) (m : NetworkMessage) (i : Nat)
    (b : Byte) (hm : WellFormed m) (hi : i < m.payload.length) (hb : b ≠ m.payload[i]) :
    ProcessReceivedData h [] ((SerializeMessage h m).set (20 + i) b) = some ([], []) ∧
    ((SerializeMessage h m).set (20 + i) b).length = 20 + m.header.length.val ∧
    (∀ rest : List Byte,
      ProcessReceivedData h [] ((SerializeMessage h m).set (20 + i) b ++ rest)
        = ProcessReceivedData h [] rest) ∧
    (∀ m2 : NetworkMessage, WellFormed m2 →
      ProcessReceivedData h [] ((SerializeMessage h m).set (20 + i) b ++ SerializeMessage h m2)
        = some ([delivered m2], []) ∧
      feedAll h [] [(SerializeMessage h m).set (20 + i) b, SerializeMessage h m2]
        = some ([delivered m2], [])) := by
  have key := PRD_altered_append h m i b hm hi hb
  have h0 : ProcessReceivedData h [] ((SerializeMessage h m).set (20 + i) b) = some ([], []) := by
    have := key []
    rw [List.append_nil] at this
    rw [this]
    exact PRD_short h [] (by simp)
  refine ⟨h0, ?_, key, fun m2 hm2 => ⟨?_, ?_⟩⟩
  · rw [List.length_set, length_SerializeMessage, hm.2.1]
  · rw [key, ProcessReceivedData_frame h m2 hm2]
  · simp [feedAll, h0, ProcessReceivedData_frame h m2 hm2]

/-- Witness for `altered_payload_byte_drops_frame`: the HEARTBEAT message with
payload `AA BB CC DD`, byte 2 of the payload replaced by `00`. -/
theorem altered_payload_byte_drops_frame_witness :
    ProcessReceivedData .little []
        ((SerializeMessage .little (NetworkMessage.create .HEARTBEAT [0xAA, 0xBB, 0xCC, 0xDD] 1).1).set
          (20 + 2) 0) = some ([], []) :=
  (altered_payload_byte_drops_frame .little
    (NetworkMessage.create .HEARTBEAT [0xAA, 0xBB, 0xCC, 0xDD] 1).1 2 0
    (by decide) (by decide) (by decide)).1

/-! ### Chunked delivery -/

/-- C4.  For every host byte order, every list `ms` of valid messages, every
proper prefix `p` of a valid frame (possibly empty) and every list of chunks
whose concatenation is the frames of `ms` followed by `p`: feeding the chunks
one call after the other to a fresh handler delivers exactly the messages of
`ms`, in order, and leaves `p` in the receive buffer, nothing being delivered
for `p`; feeding the whole concatenation in one call does the same. -/
theorem chunked_feed_delivers_in_order (h : ByteOrder) (ms : List NetworkMessage)
    (p : List Byte) (chunks : List (List Byte))
    (hms : ∀ m ∈ ms, WellFormed m) (hp : IsPartialFrame h p)
    (hc : chunks.flatten = (ms.map (SerializeMessage h)).flatten ++ p) :
    feedAll h [] chunks = some (ms.map delivered, p) ∧
    ProcessReceivedData h [] ((ms.map (SerializeMessage h)).flatten ++ p)
      = some (ms.map delivered, p) ∧
    feedAll h [] chunks = feedAll h [] [(ms.map (SerializeMessage h)).flatten ++ p] := by
  have h1 := feedAll_stream h chunks ms p hms hp hc
  have h2 := PRD_frames h ms p hms hp
  refine ⟨h1, h2, ?_⟩
  rw [h1]
  have h3 : ProcessReceivedData h [] ((ms.map (SerializeMessage h)).flatten ++ p)
      = some (ms.map delivered, p) := h2
  simp [feedAll, h3]

/-- Witness for `chunked_feed_delivers_in_order`: two frames and the first
seven bytes of a third, cut into four chunks that split both frames. -/
theorem chunked_feed_delivers_in_order_witness :
    feedAll .little []
        [[0x55, 0x53, 0x42], [0x49, 0, 0, 0, 8, 0, 0, 0, 0, 0, 0, 0, 1, 0, 0, 0, 0, 0x55],
         [], [0x53, 0x42, 0x49, 0, 0, 0, 3, 0, 0, 0, 1, 0, 0, 0, 2, 0, 0, 0, 0x31, 0x31, 0x55, 0x53],
         [0x42, 0x49, 0, 0, 0]]
      = some ([delivered (CreateHeartbeat 1).1,
               delivered (NetworkMessage.create .DEVICE_IMPORT_REQUEST [0x31] 2).1],
              [0x55, 0x53, 0x42, 0x49, 0, 0, 0]) :=
  (chunked_feed_delivers_in_order .little
    [(CreateHeartbeat 1).1, (NetworkMessage.create .DEVICE_IMPORT_REQUEST [0x31] 2).1]
    [0x55, 0x53, 0x42, 0x49, 0, 0, 0] _
    (by decide)
    (Or.inr ⟨(CreateHeartbeat 3).1, [8, 0, 0, 0, 0, 0, 0, 0, 3, 0, 0, 0, 0],
      by decide, by decide, by decide⟩)
    (by decide)).1

/-! ### Frame layout -/

/-- C5, as amended.  For every host byte order and every message `m`,
`SerializeMessage(m)` is exactly `20 + |payload|` bytes: the five header fields
magic, type, length, sequence of `m.header` and the checksum, each 32-bit
big-endian, followed by the payload unchanged; the checksum field is the sum of
the payload bytes modulo 2^32 and is `00 00 00 00` for an empty payload.  The
magic field is `55 53 42 49` for every message built by the `NetworkMessage`
constructor. -/
theorem SerializeMessage_layout (h : ByteOrder) (m : NetworkMessage) :
    (SerializeMessage h m).length = 20 + m.payload.length ∧
    SerializeMessage h m
      = be32 m.header.magic ++ be32 m.header.type ++ be32 m.header.length
        ++ be32 m.header.sequence ++ be32 (u32Of (m.payload.map Fin.val).sum) ++ m.payload ∧
    SerializeMessage h { header := m.header, payload := [] }
      = be32 m.header.magic ++ be32 m.header.type ++ be32 m.header.length
        ++ be32 m.header.sequence ++ [0, 0, 0, 0] ∧
    (∀ (type : MessageType) (data : List Byte) (next_sequence : U32),
      (SerializeMessage h (NetworkMessage.create type data next_sequence).1).take 4
        = [0x55, 0x53, 0x42, 0x49]) := by
  have hck : CalculateChecksum m.payload = u32Of (m.payload.map Fin.val).sum :=
    Fin.ext (CalculateChecksum_val m.payload)
  refine ⟨length_SerializeMessage h m, ?_, ?_, ?_⟩
  · rw [SerializeMessage_eq, writeHeader_eq, ← hck]
    rfl
  · rw [SerializeMessage_eq, writeHeader_eq]
    simp [sealedHeader, CalculateChecksum_nil]
    rfl
  · intro type data s
    rw [SerializeMessage_eq, writeHeader_eq]
    have hmag : (sealedHeader (NetworkMessage.create type data s).1).magic = MESSAGE_MAGIC := rfl
    rw [hmag]
    simp only [List.append_assoc]
    rw [List.take_left' (length_be32 _)]
    decide

/-- C5, as stated, fails.  The serialisation of the value-initialised
`NetworkMessage()` does not start with the magic `0x55534249`: its first four
bytes are `00 00 00 00`, on either host byte order. -/
theorem zero_message_serialized_without_magic :
    (SerializeMessage .little NetworkMessage.zero).take 4 = [0, 0, 0, 0] ∧
    (SerializeMessage .big NetworkMessage.zero).take 4 = [0, 0, 0, 0] ∧
    (SerializeMessage .little NetworkMessage.zero).take 4 ≠ be32 0x55534249 ∧
    (SerializeMessage .big NetworkMessage.zero).take 4 ≠ be32 0x55534249 := by
  decide

/-! ### The payload round-trip scenario -/

/-- C6, as amended.  On either host byte order and for every value of the
sequence counter, feeding the encoding of a HEARTBEAT message with payload
`AA BB CC DD` to a fresh handler delivers one message of type 8 with exactly
that payload and with header checksum `0x030E`. -/
theorem heartbeat_payload_checksum (h : ByteOrder) (next_sequence : U32) :
    ∃ d : NetworkMessage,
      ProcessReceivedData h []
        (SerializeMessage h (NetworkMessage.create .HEARTBEAT [0xAA, 0xBB, 0xCC, 0xDD]
          next_sequence).1) = some ([d], []) ∧
      d.header.type = 8 ∧ d.payload = [0xAA, 0xBB, 0xCC, 0xDD] ∧ d.header.checksum = 0x030E :=
  ⟨delivered (NetworkMessage.create .HEARTBEAT [0xAA, 0xBB, 0xCC, 0xDD] next_sequence).1,
    ProcessReceivedData_frame h _ ⟨rfl, rfl, by simp [NetworkMessage.create, MAX_MESSAGE_SIZE]⟩,
    rfl, rfl, rfl⟩

/-- C6, as stated, fails.  The message delivered for the encoding of the
HEARTBEAT with payload `AA BB CC DD` has header checksum `0x030E` (782), so no
delivered message has that payload and checksum `0x02D2` (722). -/
theorem heartbeat_payload_checksum_is_not_0x02D2 :
    ¬ ∃ d : NetworkMessage,
      ProcessReceivedData .little []
        (SerializeMessage .little (NetworkMessage.create .HEARTBEAT [0xAA, 0xBB, 0xCC, 0xDD]
          1).1) = some ([d], []) ∧
      d.payload = [0xAA, 0xBB, 0xCC, 0xDD] ∧ d.header.checksum = 0x02D2 := by
  rintro ⟨d, hd, -, hc⟩
  have hr : ProcessReceivedData .little []
      (SerializeMessage .little (NetworkMessage.create .HEARTBEAT [0xAA, 0xBB, 0xCC, 0xDD] 1).1)
      = some ([delivered (NetworkMessage.create .HEARTBEAT [0xAA, 0xBB, 0xCC, 0xDD] 1).1], []) :=
    ProcessReceivedData_frame _ _ (by decide)
  rw [hr] at hd
  simp only [Option.some.injEq, Prod.mk.injEq, List.cons.injEq, and_true] at hd
  rw [← hd] at hc
  revert hc
  decide

/-! ### Sequence numbers -/

theorem constructAll_counter (args : List (MessageType × List Byte)) :
    ∀ s : U32, (constructAll args s).2.val = (s.val + args.length) % 4294967296 := by
  induction args with
  | nil => intro s; simp [constructAll, Nat.mod_eq_of_lt s.isLt]
  | cons a rest ih =>
    intro s
    have hs : (NetworkMessage.create a.1 a.2 s).2 = s + 1 := rfl
    simp only [constructAll, ih, hs, Fin.val_add, List.length_cons]
    have : ((1 : U32) : Nat) = 1 := rfl
    omega

/-- C7, as amended.  The first message built by the `NetworkMessage`
constructor gets `header.sequence` 1.  After `pre` earlier constructions, with
fewer than 2^32 - 2 of them, the next two messages built get the sequence
numbers `|pre| + 1` and `|pre| + 2`, the later one strictly greater. -/
theorem sequence_numbers_increase (pre : List (MessageType × List Byte))
    (a b : MessageType × List Byte) (hpre : pre.length < 4294967294) :
    (NetworkMessage.create a.1 a.2 initialNextSequence).1.header.sequence = 1 ∧
    (NetworkMessage.create a.1 a.2 (constructAll pre initialNextSequence).2).1.header.sequence.val
      = pre.length + 1 ∧
    (NetworkMessage.create b.1 b.2
        (NetworkMessage.create a.1 a.2 (constructAll pre initialNextSequence).2).2).1.header.sequence.val
      = pre.length + 2 ∧
    (NetworkMessage.create a.1 a.2 (constructAll pre initialNextSequence).2).1.header.sequence
      < (NetworkMessage.create b.1 b.2
          (NetworkMessage.create a.1 a.2 (constructAll pre initialNextSequence).2).2).1.header.sequence := by
  have hc := constructAll_counter pre initialNextSequence
  have h1 : (initialNextSequence : U32).val = 1 := rfl
  have e1 : (NetworkMessage.create a.1 a.2 (constructAll pre initialNextSequence).2).1.header.sequence
      = (constructAll pre initialNextSequence).2 := rfl
  have e2 : (NetworkMessage.create b.1 b.2
      (NetworkMessage.create a.1 a.2 (constructAll pre initialNextSequence).2).2).1.header.sequence
      = (constructAll pre initialNextSequence).2 + 1 := rfl
  have one : ((1 : U32) : Nat) = 1 := rfl
  refine ⟨rfl, ?_, ?_, ?_⟩
  · rw [e1, hc, h1]; omega
  · rw [e2, Fin.val_add, hc, h1, one]; omega
  · rw [e1, e2, Fin.lt_def, Fin.val_add, hc, h1, one]; omega

/-- Witness for `sequence_numbers_increase`: after one construction the next
two messages get sequence numbers 2 and 3. -/
theorem sequence_numbers_increase_witness :
    (NetworkMessage.create .HEARTBEAT []
        (constructAll [(.HEARTBEAT, [])] initialNextSequence).2).1.header.sequence
      < (NetworkMessage.create .URB_SUBMIT [1, 2]
          (NetworkMessage.create .HEARTBEAT []
            (constructAll [(.HEARTBEAT, [])] initialNextSequence).2).2).1.header.sequence :=
  (sequence_numbers_increase [(.HEARTBEAT, [])] (.HEARTBEAT, []) (.URB_SUBMIT, [1, 2])
    (by decide)).2.2.2

/-- C7, as stated, fails.  After 2^32 - 2 constructions the static counter is
`0xFFFFFFFF`; the next message gets sequence `0xFFFFFFFF` and the one built
right after it gets sequence 0, which is not greater. -/
theorem sequence_wraps_after_4294967294_messages :
    (NetworkMessage.create .HEARTBEAT []
        (constructAll (List.replicate 4294967294 (.HEARTBEAT, [])) initialNextSequence).2).1.header.sequence
      = 4294967295 ∧
    (NetworkMessage.create .HEARTBEAT []
        (NetworkMessage.create .HEARTBEAT []
          (constructAll (List.replicate 4294967294 (.HEARTBEAT, []))
            initialNextSequence).2).2).1.header.sequence = 0 ∧
    ¬ ((NetworkMessage.create .HEARTBEAT []
        (constructAll (List.replicate 4294967294 (.HEARTBEAT, [])) initialNextSequence).2).1.header.sequence
      < (NetworkMessage.create .HEARTBEAT []
        (NetworkMessage.create .HEARTBEAT []
          (constructAll (List.replicate 4294967294 (.HEARTBEAT, []))
            initialNextSequence).2).2).1.header.sequence) := by
  have hc := constructAll_counter (List.replicate 4294967294 (MessageType.HEARTBEAT, ([] : List Byte)))
    initialNextSequence
  rw [List.length_replicate] at hc
  have hs : (constructAll (List.replicate 4294967294 (MessageType.HEARTBEAT, ([] : List Byte)))
      initialNextSequence).2 = 4294967295 := Fin.ext (by rw [hc]; rfl)
  have e1 : ∀ s : U32, (NetworkMessage.create .HEARTBEAT [] s).1.header.sequence = s := fun _ => rfl
  have e2 : ∀ s : U32, (NetworkMessage.create .HEARTBEAT [] s).2 = s + 1 := fun _ => rfl
  rw [e1, e1, e2, hs]
  decide

/-! ### Oversize headers and the size limit -/

/-- C8.  When the receive buffer, with the new data appended, starts with a
20-byte header that has the magic `MESSAGE_MAGIC`: if its length field is
greater than 1,048,576, `ProcessReceivedData` behaves as on the buffer without
those 20 bytes (nothing is delivered for the header, exactly 20 bytes are
removed and the remainder is parsed); if its length field is exactly 1,048,576
the header is kept, with all the buffer, while fewer than `20 + 1,048,576` bytes
are present, and once they are present and the checksum matches, the message
with that header and the 1,048,576 payload bytes is delivered first and parsing
goes on behind the frame. -/
theorem oversize_header_skipped_limit_accepted (h : ByteOrder) (receive_buffer data : List Byte)
    (h20 : 20 ≤ (receive_buffer ++ data).length)
    (hmagic : (readHeader h (receive_buffer ++ data)).magic = MESSAGE_MAGIC) :
    ((readHeader h (receive_buffer ++ data)).length.val > 1048576 →
      ProcessReceivedData h receive_buffer data
        = ProcessReceivedData h [] ((receive_buffer ++ data).drop 20)) ∧
    ((readHeader h (receive_buffer ++ data)).length.val = 1048576 →
      (receive_buffer ++ data).length < 20 + 1048576 →
      ProcessReceivedData h receive_buffer data = some ([], receive_buffer ++ data)) ∧
    ((readHeader h (receive_buffer ++ data)).length.val = 1048576 →
      20 + 1048576 ≤ (receive_buffer ++ data).length →
      ValidateMessage (readHeader h (receive_buffer ++ data)) ((receive_buffer ++ data).drop 20)
        = true →
      ProcessReceivedData h receive_buffer data
        = (ProcessReceivedData h [] ((receive_buffer ++ data).drop (20 + 1048576))).map
            fun r => ({ header := readHeader h (receive_buffer ++ data)
                        payload := ((receive_buffer ++ data).drop 20).take 1048576 } :: r.1,
                      r.2)) := by
  rw [ProcessReceivedData_eq]
  generalize receive_buffer ++ data = buf at *
  refine ⟨fun hbig => ?_, fun heq hlt => ?_, fun heq hge hv => ?_⟩
  · exact PRD_oversize h buf h20 hmagic hbig
  · exact PRD_wait h buf h20 hmagic (by rw [heq]; decide) (by rw [heq]; exact hlt)
  · rw [PRD_complete h buf h20 hmagic (by rw [heq]; decide) (by rw [heq]; exact hge), hv,
      ProcessCompleteMessage_take h buf (by rw [heq]; decide) (by rw [heq]; exact hge), heq]
    cases ProcessReceivedData h [] (List.drop (20 + 1048576) buf) with
    | none => rfl
    | some r => rfl

theorem maxSizeMessage_wellFormed : WellFormed maxSizeMessage :=
  ⟨rfl, by 
    show (1048576 : U32).val = (List.replicate 1048576 (0 : Byte)).length
    rw [List.length_replicate]; rfl, by
    show (List.replicate 1048576 (0 : Byte)).length ≤ MAX_MESSAGE_SIZE
    rw [List.length_replicate]; decide⟩

theorem length_payload_maxSizeMessage : maxSizeMessage.payload.length = 1048576 :=
  List.length_replicate _ _

theorem readHeader_maxSizeMessage (h : ByteOrder) :
    readHeader h ([] ++ SerializeMessage h maxSizeMessage) = sealedHeader maxSizeMessage := by
  rw [List.nil_append, SerializeMessage_eq, readHeader_writeHeader]

/-- Witness for `oversize_header_skipped_limit_accepted`: a header announcing
1,048,577 bytes followed by a HEARTBEAT frame, with the first two bytes already
buffered; a lone header announcing 1,048,576 bytes; and the complete frame of
a message with 1,048,576 payload bytes. -/
theorem oversize_header_skipped_limit_accepted_witness :
    ProcessReceivedData .little [0x55, 0x53]
        ([0x42, 0x49, 0, 0, 0, 8, 0, 0x10, 0, 1, 0, 0, 0, 7, 0, 0, 0, 0]
          ++ SerializeMessage .little (CreateHeartbeat 1).1)
      = ProcessReceivedData .little []
          (([0x55, 0x53] ++ ([0x42, 0x49, 0, 0, 0, 8, 0, 0x10, 0, 1, 0, 0, 0, 7, 0, 0, 0, 0]
            ++ SerializeMessage .little (CreateHeartbeat 1).1)).drop 20) ∧
    ProcessReceivedData .little []
        [0x55, 0x53, 0x42, 0x49, 0, 0, 0, 8, 0, 0x10, 0, 0, 0, 0, 0, 7, 0, 0, 0, 0]
      = some ([], [] ++ [0x55, 0x53, 0x42, 0x49, 0, 0, 0, 8, 0, 0x10, 0, 0, 0, 0, 0, 7, 0, 0, 0, 0]) ∧
    ProcessReceivedData .little [] (SerializeMessage .little maxSizeMessage)
      = (ProcessReceivedData .little []
          (([] ++ SerializeMessage .little maxSizeMessage).drop (20 + 1048576))).map
          fun r => ({ header := readHeader .little ([] ++ SerializeMessage .little maxSizeMessage)
                      payload := (([] ++ SerializeMessage .little maxSizeMessage).drop 20).take
                        1048576 } :: r.1, r.2) :=
  ⟨(oversize_header_skipped_limit_accepted .little [0x55, 0x53]
      ([0x42, 0x49, 0, 0, 0, 8, 0, 0x10, 0, 1, 0, 0, 0, 7, 0, 0, 0, 0]
        ++ SerializeMessage .little (CreateHeartbeat 1).1) (by decide) (by decide)).1 (by decide),
   (oversize_header_skipped_limit_accepted .little []
      [0x55, 0x53, 0x42, 0x49, 0, 0, 0, 8, 0, 0x10, 0, 0, 0, 0, 0, 7, 0, 0, 0, 0]
      (by decide) (by decide)).2.1 (by decide) (by decide),
   (oversize_header_skipped_limit_accepted .little [] (SerializeMessage .little maxSizeMessage)
      (by rw [List.nil_append, length_SerializeMessage]; exact Nat.le_add_right _ _)
      (by rw [readHeader_maxSizeMessage]; rfl)).2.2
      (by rw [readHeader_maxSizeMessage]; rfl)
      (by rw [List.nil_append, length_SerializeMessage, length_payload_maxSizeMessage])
      (by
        rw [readHeader_maxSizeMessage, List.nil_append, SerializeMessage_eq,
          List.drop_left' (length_writeHeader _ _)]
        have := ValidateMessage_sealed maxSizeMessage [] maxSizeMessage_wellFormed.2.1
        rwa [List.append_nil] at this)⟩

/-! ### Device list round trip -/

theorem foldl_append_eq {α : Type} (f : α → List Byte) (l : List α) :
    ∀ init : List Byte,
      l.foldl (fun buffer x => buffer ++ f x) init = init ++ (l.map f).flatten := by
  induction l with
  | nil => intro init; simp
  | cons x xs ih => intro init; simp [ih]

theorem readChars_append {n : Nat} (c : CharArray n) (rest : List Byte) :
    readChars n (c.val ++ rest) = c := by
  apply Subtype.ext
  simp only [readChars, List.append_assoc]
  exact List.take_left' c.property

theorem storeDeviceInfo_net (h : ByteOrder) (d : UsbipDeviceInfo) :
    storeDeviceInfo h (deviceHostToNetwork h d)
      = d.path.val ++ (d.busid.val ++ (be32 d.busnum ++ be32 d.devnum ++ be32 d.speed
          ++ be16 d.idVendor ++ be16 d.idProduct ++ be16 d.bcdDevice
          ++ [d.bDeviceClass, d.bDeviceSubClass, d.bDeviceProtocol, d.bConfigurationValue,
              d.bNumConfigurations, d.bNumInterfaces])) := by
  simp only [storeDeviceInfo, deviceHostToNetwork, store32_htonl, store16_htons,
    List.append_assoc]

theorem length_storeDeviceInfo (h : ByteOrder) (d : UsbipDeviceInfo) :
    (storeDeviceInfo h d).length = 312 := by
  simp only [storeDeviceInfo, List.length_append, length_store32, length_store16,
    d.path.property, d.busid.property, List.length_cons, List.length_nil]

theorem parse_one_device (h : ByteOrder) (d : UsbipDeviceInfo) (rest : List Byte) :
    deviceNetworkToHost h (loadDeviceInfo h (storeDeviceInfo h (deviceHostToNetwork h d) ++ rest))
      = d := by
  rw [storeDeviceInfo_net]
  generalize hY : be32 d.busnum ++ be32 d.devnum ++ be32 d.speed
          ++ be16 d.idVendor ++ be16 d.idProduct ++ be16 d.bcdDevice
          ++ [d.bDeviceClass, d.bDeviceSubClass, d.bDeviceProtocol, d.bConfigurationValue,
              d.bNumConfigurations, d.bNumInterfaces] = Y
  have hP : (d.path.val ++ d.busid.val).length = 288 := by
    rw [List.length_append, d.path.property, d.busid.property]
  have e : d.path.val ++ (d.busid.val ++ Y) ++ rest = (d.path.val ++ d.busid.val) ++ (Y ++ rest) := by
    simp only [List.append_assoc]
  have d288 : ∀ k, (d.path.val ++ (d.busid.val ++ Y) ++ rest).drop (288 + k) = (Y ++ rest).drop k := by
    intro k
    rw [e, ← hP, List.drop_append]
  have g288 : ∀ k, (d.path.val ++ (d.busid.val ++ Y) ++ rest).getD (288 + k) 0
      = (Y ++ rest).getD k 0 := by
    intro k
    rw [e, List.getD_append_right _ _ _ _ (by omega), hP, Nat.add_sub_cancel_left]
  have hpath : readChars 256 (d.path.val ++ (d.busid.val ++ Y) ++ rest) = d.path := by
    rw [List.append_assoc]
    exact readChars_append d.path _
  have hbus : readChars 32 ((d.path.val ++ (d.busid.val ++ Y) ++ rest).drop 256) = d.busid := by
    rw [List.append_assoc, List.drop_left' d.path.property, List.append_assoc]
    exact readChars_append d.busid _
  have h0 := d288 0
  have h4 := d288 4
  have h8 := d288 8
  have h12 := d288 12
  have h14 := d288 14
  have h16 := d288 16
  have g18 := g288 18
  have g19 := g288 19
  have g20 := g288 20
  have g21 := g288 21
  have g22 := g288 22
  have g23 := g288 23
  simp only [Nat.reduceAdd, List.drop_zero] at h0 h4 h8 h12 h14 h16 g18 g19 g20 g21 g22 g23
  simp only [deviceNetworkToHost, loadDeviceInfo, hpath, hbus, h0, h4, h8, h12, h14, h16, g18, g19, g20, g21, g22, g23,
    ntohl_load32, ntohs_load16]
  subst hY
  simp [readBE32, be32, be16, fromBE32_be32, fromBE16_be16]

theorem SerializeDeviceList_eq (h : ByteOrder) (devs : List UsbipDeviceInfo) :
    SerializeDeviceList h devs
      = (be32 5 ++ be32 0 ++ be32 (u32Of devs.length))
        ++ (devs.map fun d => storeDeviceInfo h (deviceHostToNetwork h d)).flatten := by
  unfold SerializeDeviceList
  simp only [store32_htonl]
  rw [foldl_append_eq (fun d => storeDeviceInfo h (deviceHostToNetwork h d))]
  rfl

theorem parseDevices_stored (h : ByteOrder) (devs : List UsbipDeviceInfo) :
    ∀ (pre rest : List Byte),
      parseDevices h
          (pre ++ ((devs.map fun d => storeDeviceInfo h (deviceHostToNetwork h d)).flatten ++ rest))
          devs.length pre.length = devs := by
  induction devs with
  | nil => intro pre rest; rfl
  | cons d ds ih =>
    intro pre rest
    simp only [List.map_cons, List.flatten_cons, List.length_cons, parseDevices,
      sizeofUsbipDeviceInfo]
    rw [if_pos (by
      simp only [List.length_append, length_storeDeviceInfo]
      omega)]
    rw [List.drop_left, List.append_assoc, parse_one_device]
    have e : pre ++ (storeDeviceInfo h (deviceHostToNetwork h d) ++
        ((ds.map fun d => storeDeviceInfo h (deviceHostToNetwork h d)).flatten ++ rest))
        = (pre ++ storeDeviceInfo h (deviceHostToNetwork h d)) ++
          ((ds.map fun d => storeDeviceInfo h (deviceHostToNetwork h d)).flatten ++ rest) := by
      simp only [List.append_assoc]
    have hl : pre.length + 312 = (pre ++ storeDeviceInfo h (deviceHostToNetwork h d)).length := by
      rw [List.length_append, length_storeDeviceInfo]
    rw [e, hl, ih]

theorem HandleDeviceListResponse_count (h : ByteOrder) (hdr : MessageHeader)
    (devs : List UsbipDeviceInfo) :
    HandleDeviceListResponse h { header := hdr, payload := SerializeDeviceList h devs }
      = parseDevices h (SerializeDeviceList h devs) (devs.length % 4294967296) 12 := by
  have hlen : 12 ≤ (SerializeDeviceList h devs).length := by
    rw [SerializeDeviceList_eq, List.length_append]
    exact Nat.le_add_right _ _
  unfold HandleDeviceListResponse
  simp only [ge_iff_le, hlen, if_true, Nat.reduceAdd, ntohl_load32]
  congr 1
  rw [SerializeDeviceList_eq]
  simp only [List.append_assoc]
  rw [show (8 : Nat) = (be32 5 ++ be32 0).length from rfl, ← List.append_assoc (be32 5),
    List.drop_left, readBE32_be32]
  rfl

theorem HandleDeviceListResponse_roundtrip (h : ByteOrder) (hdr : MessageHeader)
    (devs : List UsbipDeviceInfo) (hn : devs.length < 4294967296) :
    HandleDeviceListResponse h { header := hdr, payload := SerializeDeviceList h devs } = devs := by
  rw [HandleDeviceListResponse_count, Nat.mod_eq_of_lt hn, SerializeDeviceList_eq]
  have := parseDevices_stored h devs (be32 5 ++ be32 0 ++ be32 (u32Of devs.length)) []
  rw [List.append_nil] at this
  exact this

/-- C9, as amended.  For every host byte order, every message header and every
list `devs` of fewer than 2^32 `UsbipDeviceInfo` records, the receiver function
`HandleDeviceListResponse` applied to a message whose payload is
`SerializeDeviceList(devs)` hands the callback a list equal to `devs`: same
length, same order, every field of every record; the payload is
`12 + 312 * |devs|` bytes.  For the one device of the protocol test (vendor
`0x1234`, product `0x5678`, class `0x08`) the decoded vendor is `0x1234` and
the decoded class `0x08`. -/
theorem device_list_roundtrip (h : ByteOrder) (hdr : MessageHeader)
    (devs : List UsbipDeviceInfo) (hn : devs.length < 4294967296) :
    HandleDeviceListResponse h { header := hdr, payload := SerializeDeviceList h devs } = devs ∧
    (SerializeDeviceList h devs).length = 12 + 312 * devs.length ∧
    (HandleDeviceListResponse h
        { header := hdr, payload := SerializeDeviceList h [testDevice] }).map
        (fun d => (d.idVendor, d.idProduct, d.bDeviceClass)) = [(0x1234, 0x5678, 0x08)] := by
  refine ⟨HandleDeviceListResponse_roundtrip h hdr devs hn, ?_, ?_⟩
  · rw [SerializeDeviceList_eq, List.length_append, List.length_flatten, List.map_map]
    have : (List.map (List.length ∘ fun d => storeDeviceInfo h (deviceHostToNetwork h d)) devs)
        = List.replicate devs.length 312 := by
      rw [List.eq_replicate_iff]
      refine ⟨by simp, fun b hb => ?_⟩
      obtain ⟨d, -, rfl⟩ := List.mem_map.mp hb
      exact length_storeDeviceInfo h _
    rw [this, List.sum_replicate]
    simp [length_be32]
    omega
  · rw [HandleDeviceListResponse_roundtrip h hdr [testDevice] (by decide)]
    rfl

/-- Witness for `device_list_roundtrip`: the DEVICE_LIST_RESPONSE message the
sender builds for the device of the protocol test followed by a second copy
with another vendor. -/
theorem device_list_roundtrip_witness :
    HandleDeviceListResponse .little
        { header := (CreateDeviceListResponse .little
            [testDevice, { testDevice with idVendor := 0xABCD }] 1).1.header
          payload := SerializeDeviceList .little
            [testDevice, { testDevice with idVendor := 0xABCD }] }
      = [testDevice, { testDevice with idVendor := 0xABCD }] :=
  (device_list_roundtrip .little _ [testDevice, { testDevice with idVendor := 0xABCD }]
    (by decide)).1

/-- C9, as stated, fails.  The count field of the device list is 32 bits wide:
for a list of 2^32 records `SerializeDeviceList` writes the count 0, and
`HandleDeviceListResponse` applied to the DEVICE_LIST_RESPONSE message built
for that list hands the callback the empty list. -/
theorem device_list_count_wraps_at_4294967296 :
    HandleDeviceListResponse .little
        (CreateDeviceListResponse .little (List.replicate 4294967296 testDevice) 1).1 = [] ∧
    HandleDeviceListResponse .little
        (CreateDeviceListResponse .little (List.replicate 4294967296 testDevice) 1).1
      ≠ List.replicate 4294967296 testDevice := by
  have e : (CreateDeviceListResponse .little (List.replicate 4294967296 testDevice) 1).1
      = { header := (CreateDeviceListResponse .little
            (List.replicate 4294967296 testDevice) 1).1.header
          payload := SerializeDeviceList .little (List.replicate 4294967296 testDevice) } := rfl
  have h0 : HandleDeviceListResponse .little
      (CreateDeviceListResponse .little (List.replicate 4294967296 testDevice) 1).1 = [] := by
    rw [e, HandleDeviceListResponse_count, List.length_replicate, Nat.mod_self]
    rfl
  refine ⟨h0, fun hEq => ?_⟩
  rw [h0] at hEq
  have := congrArg List.length hEq
  rw [List.length_replicate] at this
  exact absurd this (by decide)

/-! ### CMD_SUBMIT layout and round trip -/

theorem length_storeCmdSubmit (h : ByteOrder) (cmd : UsbipCmdSubmit) :
    (storeCmdSubmit h cmd).length = 48 := by
  simp only [storeCmdSubmit, List.length_append, length_store32, length_store64]

theorem storeCmdSubmit_HostToNetwork (h : ByteOrder) (c : UsbipCmdSubmit) :
    storeCmdSubmit h (HostToNetworkCmdSubmit h c)
      = be32 c.header.command ++ be32 c.header.seqnum ++ be32 c.header.devid
        ++ be32 c.header.direction ++ be32 c.header.ep ++ be32 c.transfer_flags
        ++ be32 c.transfer_buffer_length ++ be32 c.start_frame ++ be32 c.number_of_packets
        ++ be32 c.interval ++ store64 h c.setup := by
  simp only [storeCmdSubmit, HostToNetworkCmdSubmit, HostToNetworkHeader, store32_htonl]

theorem NetworkToHost_load_store (h : ByteOrder) (c : UsbipCmdSubmit) (rest : List Byte) :
    NetworkToHostCmdSubmit h (loadCmdSubmit h (storeCmdSubmit h (HostToNetworkCmdSubmit h c) ++ rest))
      = c := by
  rw [storeCmdSubmit_HostToNetwork]
  simp [NetworkToHostCmdSubmit, NetworkToHostHeader, loadCmdSubmit, ntohl_load32, readBE32, be32,
    fromBE32_be32, load64_store64]

theorem SerializeCmdSubmit_eq (h : ByteOrder) (c : UsbipCmdSubmit) (d : List Byte) :
    SerializeCmdSubmit h c d = storeCmdSubmit h (HostToNetworkCmdSubmit h c) ++ d := by
  unfold SerializeCmdSubmit
  by_cases hd : d.length > 0
  · simp only [hd, if_true]
  · have : d = [] := List.length_eq_zero.mp (by omega)
    subst this
    simp

/-- C10.  For every host byte order, every `UsbipCmdSubmit c` and every data
buffer `d`: `SerializeCmdSubmit(c, d)` is `48 + |d|` bytes, the ten 32-bit
fields big-endian in declaration order, then the 8 bytes of `setup` as they
are in memory (offsets 40..47), then `d` from offset 48; `ParseCmdSubmit` of it
returns true and yields `c`, network-to-host conversion undoing host-to-network
conversion; and `ParseCmdSubmit` returns false exactly on inputs shorter than
48 bytes. -/
theorem CmdSubmit_layout_and_roundtrip (h : ByteOrder) (c : UsbipCmdSubmit) (d : List Byte) :
    (SerializeCmdSubmit h c d).length = 48 + d.length ∧
    SerializeCmdSubmit h c d
      = be32 c.header.command ++ be32 c.header.seqnum ++ be32 c.header.devid
        ++ be32 c.header.direction ++ be32 c.header.ep ++ be32 c.transfer_flags
        ++ be32 c.transfer_buffer_length ++ be32 c.start_frame ++ be32 c.number_of_packets
        ++ be32 c.interval ++ store64 h c.setup ++ d ∧
    ((SerializeCmdSubmit h c d).drop 40).take 8 = store64 h c.setup ∧
    (SerializeCmdSubmit h c d).drop 48 = d ∧
    ParseCmdSubmit h (SerializeCmdSubmit h c d) = some c ∧
    NetworkToHostCmdSubmit h (HostToNetworkCmdSubmit h c) = c ∧
    (∀ bs : List Byte, ParseCmdSubmit h bs = none ↔ bs.length < 48) := by
  have hlen : (SerializeCmdSubmit h c d).length = 48 + d.length := by
    rw [SerializeCmdSubmit_eq, List.length_append, length_storeCmdSubmit]
  refine ⟨hlen, ?_, ?_, ?_, ?_, ?_, ?_⟩
  · rw [SerializeCmdSubmit_eq, storeCmdSubmit_HostToNetwork]
  · rw [SerializeCmdSubmit_eq, storeCmdSubmit_HostToNetwork]
    simp only [List.append_assoc]
    rw [show (40 : Nat) = (be32 c.header.command ++ (be32 c.header.seqnum ++ (be32 c.header.devid
        ++ (be32 c.header.direction ++ (be32 c.header.ep ++ (be32 c.transfer_flags
        ++ (be32 c.transfer_buffer_length ++ (be32 c.start_frame ++ (be32 c.number_of_packets
        ++ be32 c.interval))))))))).length from rfl]
    simp only [← List.append_assoc]
    rw [List.append_assoc _ (store64 h c.setup) d, List.drop_left,
      List.take_left' (length_store64 h _)]
  · rw [SerializeCmdSubmit_eq]
    exact List.drop_left' (length_storeCmdSubmit h _)
  · unfold ParseCmdSubmit
    rw [if_neg (by rw [hlen]; simp [sizeofUsbipCmdSubmit]), SerializeCmdSubmit_eq,
      NetworkToHost_load_store]
  · simp only [NetworkToHostCmdSubmit, HostToNetworkCmdSubmit, NetworkToHostHeader,
      HostToNetworkHeader, ntohl_htonl]
  · intro bs
    unfold ParseCmdSubmit
    by_cases hb : bs.length < sizeofUsbipCmdSubmit
    · simp only [hb, if_true, true_iff]
      exact hb
    · simp only [hb, if_false, false_iff]
      simpa [sizeofUsbipCmdSubmit] using hb

/-! ### Byte order: 64-bit values and setup packets -/

theorem be64_fromBE64 (a b c d e f g k : Byte) :
    be64 (fromBE64 a b c d e f g k) = [a, b, c, d, e, f, g, k] := by
  have ha := a.isLt; have hb := b.isLt; have hc := c.isLt; have hd := d.isLt
  have he := e.isLt; have hf := f.isLt; have hg := g.isLt; have hk := k.isLt
  simp only [be64, fromBE64, u64Of, byteOf, List.cons.injEq, and_true]
  refine ⟨?_, ?_, ?_, ?_, ?_, ?_, ?_, ?_⟩ <;> apply Fin.ext <;> simp only [] <;> omega

theorem store64_load64 (h : ByteOrder) (a b c d e f g k : Byte) (rest : List Byte) :
    store64 h (load64 h (a :: b :: c :: d :: e :: f :: g :: k :: rest))
      = [a, b, c, d, e, f, g, k] := by
  cases h <;>
    simp only [load64, store64, List.getD_cons_zero, List.getD_cons_succ, be64_fromBE64,
      List.reverse_cons, List.reverse_nil, List.nil_append, List.cons_append]

theorem load16_store16 (h : ByteOrder) (x : U16) (rest : List Byte) :
    load16 h (store16 h x ++ rest) = x := by
  cases h <;>
    simp only [load16, store16, be16, List.reverse_cons, List.reverse_nil, List.nil_append,
      List.cons_append, List.getD_cons_zero, List.getD_cons_succ] <;>
    exact fromBE16_be16 x

theorem store16_load16 (h : ByteOrder) (a b : Byte) (rest : List Byte) :
    store16 h (load16 h (a :: b :: rest)) = [a, b] := by
  cases h <;>
    simp only [load16, store16, List.getD_cons_zero, List.getD_cons_succ, be16_fromBE16,
      List.reverse_cons, List.reverse_nil, List.nil_append, List.cons_append]

theorem storeSetup_loadSetup (h : ByteOrder) (a b c d e f g k : Byte) (rest : List Byte) :
    storeSetup h (loadSetup h (a :: b :: c :: d :: e :: f :: g :: k :: rest))
      = [a, b, c, d, e, f, g, k] := by
  simp only [storeSetup, loadSetup, List.getD_cons_zero, List.getD_cons_succ,
    List.drop_succ_cons, List.drop_zero, store16_load16, List.cons_append, List.nil_append]

theorem loadSetup_storeSetup (h : ByteOrder) (s : UsbSetupPacket) (rest : List Byte) :
    loadSetup h (storeSetup h s ++ rest) = s := by
  cases s with
  | mk t r v i l =>
    simp only [loadSetup, storeSetup, List.cons_append, List.nil_append, List.getD_cons_zero,
      List.getD_cons_succ, List.drop_succ_cons, List.drop_zero, List.append_assoc,
      load16_store16, UsbSetupPacket.mk.injEq, true_and]
    have e1 : ∀ X : List Byte, List.drop 2 (store16 h v ++ X) = X :=
      fun X => List.drop_left' (length_store16 h v)
    have e2 : ∀ X : List Byte, List.drop 4 (store16 h v ++ (store16 h i ++ X)) = X := by
      intro X
      rw [← List.append_assoc]
      exact List.drop_left' (by rw [List.length_append, length_store16, length_store16])
    rw [e1, e2, load16_store16, load16_store16]
    exact ⟨rfl, rfl⟩

theorem take8_of_length {bs : List Byte} (hl : 8 ≤ bs.length) :
    ∃ a b c d e f g k rest, bs = a :: b :: c :: d :: e :: f :: g :: k :: rest := by
  rcases bs with _ | ⟨a, _ | ⟨b, _ | ⟨c, _ | ⟨d, _ | ⟨e, _ | ⟨f, _ | ⟨g, _ | ⟨k, rest⟩⟩⟩⟩⟩⟩⟩⟩ <;>
    simp at hl
  exact ⟨a, b, c, d, e, f, g, k, rest, rfl⟩

theorem setup_bytes_roundtrip (h : ByteOrder) (bs : List Byte) (hl : 8 ≤ bs.length) :
    storeSetup h (loadSetup h (store64 h (load64 h bs))) = bs.take 8 := by
  obtain ⟨a, b, c, d, e, f, g, k, rest, rfl⟩ := take8_of_length hl
  rw [store64_load64]
  exact storeSetup_loadSetup h a b c d e f g k []
/-! ### DEVICE_IMPORT_RESPONSE -/

/-- C11.  For every flag `success`, every string `error` and every value of
the sequence counter, `CreateDeviceImportResponse(success, error)` is a message
of type 4 whose payload is the single byte 1 when `success` is true and the
byte 0 followed by the bytes of `error` when it is false; the receiver function
`HandleDeviceImportResponse` recovers `success` from the first byte, an empty
error text on success and the text `error` on failure. -/
theorem import_response_layout_and_decoding (success : Bool) (error : List Byte)
    (next_sequence : U32) :
    (CreateDeviceImportResponse success error next_sequence).1.header.type = 4 ∧
    (CreateDeviceImportResponse success error next_sequence).1.payload
      = (if success then [1] else 0 :: error) ∧
    HandleDeviceImportResponse (CreateDeviceImportResponse success error next_sequence).1
      = (success, if success then [] else error) := by
  cases success
  · cases error with
    | nil => exact ⟨rfl, rfl, rfl⟩
    | cons c cs =>
      refine ⟨rfl, rfl, ?_⟩
      simp [CreateDeviceImportResponse, NetworkMessage.create, HandleDeviceImportResponse]
  · exact ⟨rfl, rfl, rfl⟩
/-! ### URB_SUBMIT messages of the sender -/

theorem length_storeRetSubmit (h : ByteOrder) (ret : UsbipRetSubmit) :
    (storeRetSubmit h ret).length = 40 := by
  simp only [storeRetSubmit, List.length_append, length_store32]

theorem storeRetSubmit_HostToNetwork (h : ByteOrder) (r : UsbipRetSubmit) :
    storeRetSubmit h (HostToNetworkRetSubmit h r)
      = be32 r.header.command ++ be32 r.header.seqnum ++ be32 r.header.devid
        ++ be32 r.header.direction ++ be32 r.header.ep ++ be32 r.status
        ++ be32 r.actual_length ++ be32 r.start_frame ++ be32 r.number_of_packets
        ++ be32 r.error_count := by
  simp only [storeRetSubmit, HostToNetworkRetSubmit, HostToNetworkHeader, store32_htonl]

theorem SerializeRetSubmit_eq (h : ByteOrder) (r : UsbipRetSubmit) (d : List Byte) :
    SerializeRetSubmit h r d = storeRetSubmit h (HostToNetworkRetSubmit h r) ++ d := by
  unfold SerializeRetSubmit
  by_cases hd : d.length > 0
  · simp only [hd, if_true]
  · have : d = [] := List.length_eq_zero.mp (by omega)
    subst this
    simp

theorem ProcessUrb_out (h : ByteOrder) (u : UsbUrb) (s : U32)
    (hd : u.direction = UsbDirection.OUT) :
    UrbProcessor.ProcessUrb h u s
      = (storeCmdSubmit h (HostToNetworkCmdSubmit h (CreateCmdSubmit h u s).1) ++ u.data,
         s + 1) := by
  unfold UrbProcessor.ProcessUrb
  rw [if_pos hd]
  simp only [SerializeCmdSubmit_eq]
  rfl

theorem ProcessUrb_in (h : ByteOrder) (u : UsbUrb) (s : U32)
    (hd : u.direction ≠ UsbDirection.OUT) :
    UrbProcessor.ProcessUrb h u s
      = (storeRetSubmit h (HostToNetworkRetSubmit h (CreateRetSubmit u s).1) ++ u.data,
         s + 1) := by
  unfold UrbProcessor.ProcessUrb
  rw [if_neg hd]
  simp only [SerializeRetSubmit_eq]
  rfl

theorem take4_cmd (h : ByteOrder) (c : UsbipCmdSubmit) (d : List Byte) :
    (storeCmdSubmit h (HostToNetworkCmdSubmit h c) ++ d).take 4 = be32 c.header.command := by
  rw [storeCmdSubmit_HostToNetwork]
  simp only [List.append_assoc]
  exact List.take_left' (length_be32 _)

theorem seqnum_cmd (h : ByteOrder) (c : UsbipCmdSubmit) (d : List Byte) :
    ((storeCmdSubmit h (HostToNetworkCmdSubmit h c) ++ d).drop 4).take 4
      = be32 c.header.seqnum := by
  rw [storeCmdSubmit_HostToNetwork]
  simp only [List.append_assoc]
  rw [List.drop_left' (length_be32 _)]
  exact List.take_left' (length_be32 _)

theorem take4_ret (h : ByteOrder) (r : UsbipRetSubmit) (d : List Byte) :
    (storeRetSubmit h (HostToNetworkRetSubmit h r) ++ d).take 4 = be32 r.header.command := by
  rw [storeRetSubmit_HostToNetwork]
  simp only [List.append_assoc]
  exact List.take_left' (length_be32 _)

theorem seqnum_ret (h : ByteOrder) (r : UsbipRetSubmit) (d : List Byte) :
    ((storeRetSubmit h (HostToNetworkRetSubmit h r) ++ d).drop 4).take 4
      = be32 r.header.seqnum := by
  rw [storeRetSubmit_HostToNetwork]
  simp only [List.append_assoc]
  rw [List.drop_left' (length_be32 _)]
  exact List.take_left' (length_be32 _)

theorem ParseCmdSubmit_stored (h : ByteOrder) (c : UsbipCmdSubmit) (d : List Byte) :
    ParseCmdSubmit h (storeCmdSubmit h (HostToNetworkCmdSubmit h c) ++ d) = some c := by
  unfold ParseCmdSubmit
  rw [if_neg (by rw [List.length_append, length_storeCmdSubmit]; simp [sizeofUsbipCmdSubmit]),
    NetworkToHost_load_store]

theorem CreateUsbipSubmit_out (h : ByteOrder) (u : UsbUrb) (s next_sequence : U32)
    (hd : u.direction = UsbDirection.OUT) :
    (CreateUsbipSubmit h u s next_sequence).1.payload
      = storeCmdSubmit h (HostToNetworkCmdSubmit h (CreateCmdSubmit h u s).1) ++ u.data := by
  have hp : (CreateUsbipSubmit h u s next_sequence).1.payload
      = (UrbProcessor.ProcessUrb h u s).1 := rfl
  rw [hp, ProcessUrb_out h u s hd]

/-- C12, as amended.  For every host byte order, every URB `u` and all counter
values, the message built by `UrbProcessor::CreateUsbipSubmit(u)` has type 5.
When `u` is an OUT transfer its payload is a CMD_SUBMIT frame: `48 + |data|`
bytes, the command field `USBIP_CMD_SUBMIT` (1), the transfer buffer of `u` from
offset 48, and it parses back to the command of `CreateCmdSubmit`.  When `u` is
not an OUT transfer its payload is a RET_SUBMIT frame: `40 + |data|` bytes, the
command field `USBIP_RET_SUBMIT` (3), and the data of `u` from offset 40. -/
theorem CreateUsbipSubmit_payload (h : ByteOrder) (u : UsbUrb) (next_seqnum next_sequence : U32) :
    (CreateUsbipSubmit h u next_seqnum next_sequence).1.header.type = 5 ∧
    (u.direction = UsbDirection.OUT →
      (CreateUsbipSubmit h u next_seqnum next_sequence).1.payload.length = 48 + u.data.length ∧
      (CreateUsbipSubmit h u next_seqnum next_sequence).1.payload.take 4 = [0, 0, 0, 1] ∧
      (CreateUsbipSubmit h u next_seqnum next_sequence).1.payload.drop 48 = u.data ∧
      ParseCmdSubmit h (CreateUsbipSubmit h u next_seqnum next_sequence).1.payload
        = some (CreateCmdSubmit h u next_seqnum).1) ∧
    (u.direction ≠ UsbDirection.OUT →
      (CreateUsbipSubmit h u next_seqnum next_sequence).1.payload.length = 40 + u.data.length ∧
      (CreateUsbipSubmit h u next_seqnum next_sequence).1.payload.take 4 = [0, 0, 0, 3] ∧
      (CreateUsbipSubmit h u next_seqnum next_sequence).1.payload.drop 40 = u.data) := by
  have hp : (CreateUsbipSubmit h u next_seqnum next_sequence).1.payload
      = (UrbProcessor.ProcessUrb h u next_seqnum).1 := rfl
  refine ⟨rfl, fun hd => ?_, fun hd => ?_⟩
  · rw [hp, ProcessUrb_out h u next_seqnum hd]
    refine ⟨?_, ?_, ?_, ?_⟩
    · rw [List.length_append, length_storeCmdSubmit]
    · rw [take4_cmd]
      have : (CreateCmdSubmit h u next_seqnum).1.header.command = 1 := rfl
      rw [this]; decide
    · exact List.drop_left' (length_storeCmdSubmit h _)
    · exact ParseCmdSubmit_stored h _ _
  · rw [hp, ProcessUrb_in h u next_seqnum hd]
    refine ⟨?_, ?_, ?_⟩
    · rw [List.length_append, length_storeRetSubmit]
    · rw [take4_ret]
      have : (CreateRetSubmit u next_seqnum).1.header.command = 3 := rfl
      rw [this]; decide
    · exact List.drop_left' (length_storeRetSubmit h _)

/-- C12, as stated, fails.  For a bulk IN URB with three data bytes the
URB_SUBMIT payload is 43 bytes, not a 48-byte header followed by nothing: its
command field is 3 (`USBIP_RET_SUBMIT`), and the three data bytes follow a
40-byte header. -/
theorem submit_of_in_urb_is_ret_submit :
    bulkInUrb.direction = UsbDirection.IN ∧
    (CreateUsbipSubmit .little bulkInUrb 1 1).1.payload.length = 43 ∧
    (CreateUsbipSubmit .little bulkInUrb 1 1).1.payload.take 4 = [0, 0, 0, 3] ∧
    (CreateUsbipSubmit .little bulkInUrb 1 1).1.payload.drop 40 = [1, 2, 3] ∧
    (CreateUsbipSubmit .big bulkInUrb 1 1).1.payload
      = (CreateUsbipSubmit .little bulkInUrb 1 1).1.payload := by
  decide

/-! ### The URB the receiver builds from a CMD_SUBMIT -/

theorem HandleUrbSubmit_fields (h : ByteOrder) (uninit : UsbUrb) (now : U64)
    (message : NetworkMessage) (cmd : UsbipCmdSubmit)
    (hp : ParseCmdSubmit h message.payload = some cmd) :
    ∃ urb : UsbUrb, HandleUrbSubmit h uninit now message = some urb ∧
      urb.id = cmd.header.seqnum ∧
      urb.endpoint = byteOf cmd.header.ep.val ∧
      urb.direction = byteOf cmd.header.direction.val ∧
      urb.flags = cmd.transfer_flags ∧
      (urb.endpoint = 0 →
        urb.type = UsbTransferType.CONTROL ∧ urb.setup = loadSetup h (store64 h cmd.setup)) ∧
      (urb.endpoint ≠ 0 → urb.type = UsbTransferType.BULK ∧ urb.setup = uninit.setup) ∧
      urb.status = 0 ∧ urb.actual_length = u32Of urb.data.length ∧ urb.timestamp = now := by
  have hlen : ¬ message.payload.length < sizeofUsbipCmdSubmit := by
    intro hlt
    unfold ParseCmdSubmit at hp
    rw [if_pos hlt] at hp
    exact Option.noConfusion hp
  unfold HandleUrbSubmit
  rw [if_neg hlen]
  simp only [hp]
  refine ⟨_, rfl, ?_⟩
  by_cases he : byteOf cmd.header.ep.val = (0 : Byte)
  · simp only [he, if_true]
    split_ifs <;> simp
  · simp only [he, if_false]
    split_ifs <;> simp [he]

/-! ### Sequence numbers of USB/IP frames -/

/-- C13, as amended.  For every host byte order, every URB `u` and every value
`s` of the counter `next_seqnum_` of the `UrbProcessor`, the seqnum field of the
frame the processor encodes for `u` (bytes 4..7, big-endian) is `s`, whatever
`u.id` is: the frame and the counter are the same for every other id.  The
counter advances by one per frame, and a processor just constructed has
`s = 1`.  For an OUT transfer the URB the receiver decodes from the URB_SUBMIT
message (`HandleUrbSubmit`) has id `s`. -/
theorem frame_seqnum_is_processor_counter (h : ByteOrder) (u : UsbUrb) (s : U32)
    (next_sequence : U32) (uninit : UsbUrb) (now : U64) :
    (CreateCmdSubmit h u s).1.header.seqnum = s ∧ (CreateCmdSubmit h u s).2 = s + 1 ∧
    (CreateRetSubmit u s).1.header.seqnum = s ∧ (CreateRetSubmit u s).2 = s + 1 ∧
    ((UrbProcessor.ProcessUrb h u s).1.drop 4).take 4 = be32 s ∧
    (UrbProcessor.ProcessUrb h u s).2 = s + 1 ∧
    (∀ id : U32,
      CreateCmdSubmit h { u with id := id } s = CreateCmdSubmit h u s ∧
      CreateRetSubmit { u with id := id } s = CreateRetSubmit u s ∧
      UrbProcessor.ProcessUrb h { u with id := id } s = UrbProcessor.ProcessUrb h u s) ∧
    UrbProcessor.new = 1 ∧
    (u.direction = UsbDirection.OUT →
      (HandleUrbSubmit h uninit now (CreateUsbipSubmit h u s next_sequence).1).map (·.id)
        = some s) := by
  refine ⟨rfl, rfl, rfl, rfl, ?_, ?_, fun id => ⟨rfl, rfl, rfl⟩, rfl, fun hd => ?_⟩
  · by_cases hd : u.direction = UsbDirection.OUT
    · rw [ProcessUrb_out h u s hd, seqnum_cmd]; rfl
    · rw [ProcessUrb_in h u s hd, seqnum_ret]; rfl
  · by_cases hd : u.direction = UsbDirection.OUT
    · rw [ProcessUrb_out h u s hd]
    · rw [ProcessUrb_in h u s hd]
  · have hp : ParseCmdSubmit h (CreateUsbipSubmit h u s next_sequence).1.payload
        = some (CreateCmdSubmit h u s).1 := by
      rw [CreateUsbipSubmit_out h u s next_sequence hd]
      exact ParseCmdSubmit_stored h _ _
    obtain ⟨urb, hu, hid, -⟩ := HandleUrbSubmit_fields h uninit now _ _ hp
    rw [hu, Option.map_some', hid]
    rfl

/-- C13, as stated, fails.  The bulk OUT URB with id 7 is the first URB a
processor just constructed encodes: `CreateCmdSubmit` gives its frame the
seqnum 1, and so does `CreateRetSubmit` for the bulk IN URB with id 7.  Sent by
`OnUrbCaptured`, the OUT URB travels in a frame whose seqnum field is 1, and the
URB the receiver decodes from the message has id 1, not 7. -/
theorem captured_urb_id_7_gets_seqnum_1 :
    bulkOutUrb.id = 7 ∧
    (CreateCmdSubmit .little bulkOutUrb UrbProcessor.new).1.header.seqnum = 1 ∧
    bulkInUrb.id = 7 ∧
    (CreateRetSubmit bulkInUrb UrbProcessor.new).1.header.seqnum = 1 ∧
    (((OnUrbCaptured .little bulkOutUrb 1).1.drop 20).drop 4).take 4 = [0, 0, 0, 1] ∧
    (match ProcessReceivedData .little [] (OnUrbCaptured .little bulkOutUrb 1).1 with
      | some ([m], []) => (HandleUrbSubmit .little staleUrb 0 m).map (·.id)
      | _ => none) = some 1 := by
  decide

/-! ### URB_RESPONSE messages of the receiver -/

/-- C14, evaluated at a failing input.  For the response URB with id 7 and the
data `12 01`, `CreateUrbResponse` builds a message of type 6 with an empty
payload, and `SendUrbResponse` sends the bare 20-byte header: there is no
RET_SUBMIT frame, no seqnum, status or actual_length field and no data. -/
theorem urb_response_message_is_empty :
    (CreateUrbResponse { bulkInUrb with data := [0x12, 0x01], actual_length := 2 } 1).1.header.type
      = 6 ∧
    (CreateUrbResponse { bulkInUrb with data := [0x12, 0x01], actual_length := 2 } 1).1.payload
      = [] ∧
    (SendUrbResponse .little true { bulkInUrb with data := [0x12, 0x01], actual_length := 2 } 1).map
        (·.1)
      = some [0x55, 0x53, 0x42, 0x49, 0, 0, 0, 6, 0, 0, 0, 0, 0, 0, 0, 1, 0, 0, 0, 0] := by
  decide

/-- The stub `CreateUrbResponse` ignores its argument: every response URB is
sent as a type-6 message with an empty payload. -/
theorem CreateUrbResponse_payload_empty (u : UsbUrb) (next_sequence : U32) :
    (CreateUrbResponse u next_sequence).1.header.type = 6 ∧
    (CreateUrbResponse u next_sequence).1.payload = [] ∧
    (CreateUrbResponse u next_sequence).1.header.length = 0 :=
  ⟨rfl, rfl, rfl⟩
/-! ### Transfer type and direction of a submitted URB -/

/-- C15, as amended.  For every URB_SUBMIT payload that parses as a CMD_SUBMIT
`cmd`, `HandleUrbSubmit` hands the callback a URB whose endpoint is the low byte
of `cmd.header.ep`; when that endpoint is 0 its transfer type is CONTROL and its
setup packet is the 8 setup bytes of the payload (offsets 40..47), otherwise
its transfer type is BULK; its direction is the low byte of the direction field
of the header, so it is IN exactly when that byte is 1, whatever the endpoint
address is. -/
theorem urb_built_from_cmd_submit (h : ByteOrder) (uninit : UsbUrb) (now : U64)
    (message : NetworkMessage) (cmd : UsbipCmdSubmit)
    (hp : ParseCmdSubmit h message.payload = some cmd) :
    ∃ urb : UsbUrb, HandleUrbSubmit h uninit now message = some urb ∧
      urb.endpoint = byteOf cmd.header.ep.val ∧
      (urb.endpoint = 0 →
        urb.type = UsbTransferType.CONTROL ∧
        storeSetup h urb.setup = (message.payload.drop 40).take 8) ∧
      (urb.endpoint ≠ 0 → urb.type = UsbTransferType.BULK) ∧
      urb.direction = byteOf cmd.header.direction.val ∧
      (urb.direction = UsbDirection.IN ↔ cmd.header.direction.val % 256 = 1) := by
  obtain ⟨urb, hu, -, hep, hdir, -, hctl, hbulk, -⟩ :=
    HandleUrbSubmit_fields h uninit now message cmd hp
  have hlen : 48 ≤ message.payload.length := by
    by_contra hlt
    unfold ParseCmdSubmit at hp
    rw [if_pos (by simpa [sizeofUsbipCmdSubmit] using hlt)] at hp
    exact Option.noConfusion hp
  have hsetup : cmd.setup = load64 h (message.payload.drop 40) := by
    unfold ParseCmdSubmit at hp
    rw [if_neg (by simp [sizeofUsbipCmdSubmit]; omega)] at hp
    rw [← Option.some.inj hp]
    rfl
  refine ⟨urb, hu, hep, fun h0 => ⟨(hctl h0).1, ?_⟩, fun h0 => (hbulk h0).1, hdir, ?_⟩
  · rw [(hctl h0).2, hsetup, setup_bytes_roundtrip h _ (by rw [List.length_drop]; omega)]
  · rw [hdir]
    constructor
    · intro hin
      exact congrArg Fin.val hin
    · intro hval
      exact Fin.ext hval

/-- Witness for `urb_built_from_cmd_submit`: the URB_SUBMIT message carrying the
CMD_SUBMIT of GET_DESCRIPTOR(DEVICE) on endpoint 0, on a little-endian host. -/
theorem urb_built_from_cmd_submit_witness :
    ∃ urb : UsbUrb,
      HandleUrbSubmit .little staleUrb 0
        (urbSubmitMessage (SerializeCmdSubmit .little getDescriptorCmdSubmit [])) = some urb ∧
      urb.endpoint = byteOf getDescriptorCmdSubmit.header.ep.val ∧
      (urb.endpoint = 0 →
        urb.type = UsbTransferType.CONTROL ∧
        storeSetup .little urb.setup
          = ((urbSubmitMessage (SerializeCmdSubmit .little
              getDescriptorCmdSubmit [])).payload.drop 40).take 8) ∧
      (urb.endpoint ≠ 0 → urb.type = UsbTransferType.BULK) ∧
      urb.direction = byteOf getDescriptorCmdSubmit.header.direction.val ∧
      (urb.direction = UsbDirection.IN ↔ getDescriptorCmdSubmit.header.direction.val % 256 = 1) :=
  urb_built_from_cmd_submit .little staleUrb 0
    (urbSubmitMessage (SerializeCmdSubmit .little getDescriptorCmdSubmit []))
    getDescriptorCmdSubmit (by decide)

/-- C15, as stated, fails.  A CMD_SUBMIT with endpoint 1 and direction field 1
yields a bulk URB with endpoint address `0x01`, bit 7 clear, and direction IN;
one with endpoint `0x81`, bit 7 set, and direction field 0 yields a bulk URB
with direction OUT. -/
theorem direction_is_taken_from_the_header_field :
    (HandleUrbSubmit .little staleUrb 0
        (urbSubmitMessage (SerializeCmdSubmit .little bulkInCmdSubmit []))).map
        (fun urb => (urb.type, urb.endpoint, urb.endpoint.val / 128 % 2, urb.direction))
      = some (UsbTransferType.BULK, 0x01, 0, UsbDirection.IN) ∧
    (HandleUrbSubmit .little staleUrb 0
        (urbSubmitMessage (SerializeCmdSubmit .little addressedOutCmdSubmit []))).map
        (fun urb => (urb.type, urb.endpoint, urb.endpoint.val / 128 % 2, urb.direction))
      = some (UsbTransferType.BULK, 0x81, 1, UsbDirection.OUT) := by
  decide
/-! ### The virtual device: invariant of the reachable devices -/

theorem emitResponse_installed (dev : VirtualUsbDevice) (response : UsbUrb)
    (hc : dev.callback_installed = true) :
    emitResponse dev response
      = [{ response with status := 0, actual_length := u32Of response.data.length }] := by
  simp [emitResponse, hc]

theorem HandleStandardRequest_frame (dev : VirtualUsbDevice) (setup : UsbSetupPacket) :
    ∃ c : Byte, (HandleStandardRequest dev setup).2 = { dev with current_configuration := c } := by
  unfold HandleStandardRequest
  dsimp only
  split_ifs
  all_goals first
    | exact ⟨dev.current_configuration, rfl⟩
    | exact ⟨_, rfl⟩

theorem HandleControlUrb_frame (dev : VirtualUsbDevice) (urb : UsbUrb) :
    ∃ c : Byte, (HandleControlUrb dev urb).1 = { dev with current_configuration := c } := by
  unfold HandleControlUrb
  dsimp only
  split_ifs
  · exact HandleStandardRequest_frame dev urb.setup
  · exact ⟨dev.current_configuration, rfl⟩
  · exact ⟨dev.current_configuration, rfl⟩
  · exact ⟨dev.current_configuration, rfl⟩

theorem ProcessUrb_frame (h : ByteOrder) (dev : VirtualUsbDevice) (urb : UsbUrb) :
    ∃ c : Byte,
      (VirtualUsbDevice.ProcessUrb h dev urb).1 = { dev with current_configuration := c } := by
  unfold VirtualUsbDevice.ProcessUrb
  split_ifs
  · exact ⟨dev.current_configuration, rfl⟩
  · exact HandleControlUrb_frame dev urb
  · exact ⟨dev.current_configuration, rfl⟩
  · exact ⟨dev.current_configuration, rfl⟩
  · exact ⟨dev.current_configuration, rfl⟩
  · exact ⟨dev.current_configuration, rfl⟩

theorem length_resize (v : List Byte) (n : Nat) : (resize v n).length = n := by
  simp only [resize, List.length_append, List.length_take, List.length_replicate]
  omega

theorem invariant_of_reachable (h : ByteOrder) (d : VirtualUsbDevice) (hr : Reachable h d) :
    DeviceInvariant h d := by
  induction hr with
  | new uninit_info => exact ⟨fun ha => Bool.noConfusion ha, fun hc => Bool.noConfusion hc, rfl⟩
  | setCallback _ ih => exact ih
  | @create d info port_usage _ ih =>
    obtain ⟨h1, h2, h3⟩ := ih
    unfold CreateDevice
    by_cases hc : d.created = true
    · simp only [hc, if_true]
      exact ⟨h1, h2, h3⟩
    · have hcf : d.created = false := by simpa using hc
      have haf : d.attached = false := by
        cases ha : d.attached
        · rfl
        · exact absurd (h1 ha) hc
      simp only [hcf, Bool.false_eq_true, if_false]
      split_ifs
      · exact ⟨fun ha => by simp [haf] at ha, fun hc2 => by simp [hcf] at hc2, h3⟩
      · refine ⟨fun _ => rfl, fun _ => ⟨rfl, ?_⟩, h3⟩
        simp only [CreateDeviceDescriptors]
        exact length_resize _ _
  | @attach d attach_ok _ ih =>
    obtain ⟨h1, h2, h3⟩ := ih
    unfold AttachDevice
    split_ifs with hc ha hk
    · exact ⟨h1, h2, h3⟩
    · exact ⟨h1, h2, h3⟩
    · exact ⟨h1, h2, h3⟩
    · exact ⟨fun _ => by simpa using hc, h2, h3⟩
  | @detach d _ ih =>
    obtain ⟨h1, h2, h3⟩ := ih
    unfold DetachDevice
    split_ifs
    · exact ⟨h1, h2, h3⟩
    · exact ⟨fun ha => Bool.noConfusion ha, h2, h3⟩
  | @destroy d port_usage _ ih =>
    obtain ⟨h1, h2, h3⟩ := ih
    have hdet : ((DetachDevice d).2).attached = false := by
      unfold DetachDevice
      split_ifs with ha
      · simpa using ha
      · rfl
    have hdet3 : ((DetachDevice d).2).string_descriptors = d.string_descriptors := by
      unfold DetachDevice
      split_ifs <;> rfl
    have hdeti : ((DetachDevice d).2).device_info = d.device_info := by
      unfold DetachDevice
      split_ifs <;> rfl
    unfold DestroyDevice
    simp only
    split_ifs
    · exact ⟨fun ha => by simp [hdet] at ha, fun hc => Bool.noConfusion hc,
        by simpa [hdet3, hdeti] using h3⟩
    · exact ⟨fun ha => by simp [hdet] at ha, fun hc => Bool.noConfusion hc,
        by simpa [hdet3, hdeti] using h3⟩
    · refine ⟨fun ha => by simp [hdet] at ha, fun hc => ?_, by simpa [hdet3, hdeti] using h3⟩
      rename_i hnc
      exact absurd hc hnc
  | @processUrb d urb _ ih =>
    obtain ⟨h1, h2, h3⟩ := ih
    obtain ⟨c, hc⟩ := ProcessUrb_frame h d urb
    rw [hc]
    exact ⟨h1, h2, h3⟩
/-! ### The virtual device: one response per URB -/

theorem emitResponse_eq (dev : VirtualUsbDevice) (urb : UsbUrb) (data : List Byte)
    (hc : dev.callback_installed = true) :
    emitResponse dev { urb with direction := flipDirection urb.direction, data := data }
      = [responseTo urb data] := by
  simp [emitResponse, hc, responseTo]

theorem HandleStandardRequest_callback (dev : VirtualUsbDevice) (setup : UsbSetupPacket) :
    (HandleStandardRequest dev setup).2.callback_installed = dev.callback_installed := by
  obtain ⟨c, hc⟩ := HandleStandardRequest_frame dev setup
  rw [hc]

theorem HandleControlUrb_eq (dev : VirtualUsbDevice) (urb : UsbUrb)
    (hc : dev.callback_installed = true) :
    HandleControlUrb dev urb
      = (if urb.setup.bmRequestType.val &&& 0x60 = 0x00 then
          ((HandleStandardRequest dev urb.setup).2,
            [responseTo urb (HandleStandardRequest dev urb.setup).1])
        else if urb.setup.bmRequestType.val &&& 0x60 = 0x20 then
          (dev, [responseTo urb (HandleClassRequest dev urb.setup)])
        else if urb.setup.bmRequestType.val &&& 0x60 = 0x40 then
          (dev, [responseTo urb (HandleVendorRequest dev urb.setup)])
        else
          (dev, [responseTo urb urb.data])) := by
  unfold HandleControlUrb
  dsimp only
  split_ifs
  · rw [emitResponse_eq _ _ _ (by rw [HandleStandardRequest_callback]; exact hc)]
  · rw [emitResponse_eq _ _ _ hc]
  · rw [emitResponse_eq _ _ _ hc]
  · rw [emitResponse_eq _ _ _ hc]

theorem SimulateDeviceResponse_eq (dev : VirtualUsbDevice) (urb : UsbUrb)
    (hc : dev.callback_installed = true) :
    SimulateDeviceResponse dev urb
      = [responseTo urb (if urb.direction = UsbDirection.OUT then [] else [0x00, 0x01, 0x02, 0x03])] := by
  unfold SimulateDeviceResponse
  dsimp only
  split_ifs
  · exact emitResponse_eq dev urb [] hc
  · exact emitResponse_eq dev urb _ hc

theorem HandleMassStorageUrb_eq (h : ByteOrder) (dev : VirtualUsbDevice) (urb : UsbUrb)
    (hc : dev.callback_installed = true) :
    HandleMassStorageUrb h dev urb
      = [responseTo urb
          (if urb.direction = UsbDirection.OUT then
            (if urb.data.length ≥ 31 then ProcessScsiCommand h urb.data else urb.data)
          else store32 h 0x53425355 ++ (resize urb.data 13).drop 4)] := by
  unfold HandleMassStorageUrb
  dsimp only
  split_ifs
  · exact emitResponse_eq dev urb _ hc
  · rw [← emitResponse_eq dev urb urb.data hc]
  · exact emitResponse_eq dev urb _ hc

theorem ProcessUrb_not_attached (h : ByteOrder) (dev : VirtualUsbDevice) (urb : UsbUrb)
    (ha : dev.attached = false) : VirtualUsbDevice.ProcessUrb h dev urb = (dev, []) := by
  unfold VirtualUsbDevice.ProcessUrb
  simp [ha]

theorem ProcessUrb_control (h : ByteOrder) (dev : VirtualUsbDevice) (urb : UsbUrb)
    (ha : dev.attached = true) (ht : urb.type = UsbTransferType.CONTROL) :
    VirtualUsbDevice.ProcessUrb h dev urb = HandleControlUrb dev urb := by
  unfold VirtualUsbDevice.ProcessUrb
  rw [if_neg (by simp [ha]), if_pos ht]

theorem ProcessUrb_bulk (h : ByteOrder) (dev : VirtualUsbDevice) (urb : UsbUrb)
    (ha : dev.attached = true) (ht : urb.type = UsbTransferType.BULK) :
    VirtualUsbDevice.ProcessUrb h dev urb = (dev, HandleBulkUrb h dev urb) := by
  unfold VirtualUsbDevice.ProcessUrb
  have h1 : ¬ urb.type = UsbTransferType.CONTROL := by rw [ht]; decide
  rw [if_neg (by simp [ha]), if_neg h1, if_pos ht]

theorem ProcessUrb_simulated (h : ByteOrder) (dev : VirtualUsbDevice) (urb : UsbUrb)
    (ha : dev.attached = true)
    (ht : urb.type = UsbTransferType.INTERRUPT ∨ urb.type = UsbTransferType.ISOCHRONOUS) :
    VirtualUsbDevice.ProcessUrb h dev urb = (dev, SimulateDeviceResponse dev urb) := by
  unfold VirtualUsbDevice.ProcessUrb
  rcases ht with ht | ht
  · have h1 : ¬ urb.type = UsbTransferType.CONTROL := by rw [ht]; decide
    have h2 : ¬ urb.type = UsbTransferType.BULK := by rw [ht]; decide
    rw [if_neg (by simp [ha]), if_neg h1, if_neg h2, if_pos ht]
  · have h1 : ¬ urb.type = UsbTransferType.CONTROL := by rw [ht]; decide
    have h2 : ¬ urb.type = UsbTransferType.BULK := by rw [ht]; decide
    have h3 : ¬ urb.type = UsbTransferType.INTERRUPT := by rw [ht]; decide
    rw [if_neg (by simp [ha]), if_neg h1, if_neg h2, if_neg h3, if_pos ht]

theorem get_device_descriptor_response (h : ByteOrder) (dev : VirtualUsbDevice) (urb : UsbUrb)
    (ha : dev.attached = true) (hc : dev.callback_installed = true)
    (ht : urb.type = UsbTransferType.CONTROL)
    (hstd : urb.setup.bmRequestType.val &&& 0x60 = 0x00)
    (hreq : urb.setup.bRequest = GET_DESCRIPTOR)
    (hval : urb.setup.wValue.val / 256 % 256 = 1) :
    VirtualUsbDevice.ProcessUrb h dev urb = (dev, [responseTo urb dev.device_descriptor]) := by
  rw [ProcessUrb_control h dev urb ha ht, HandleControlUrb_eq dev urb hc, if_pos hstd]
  have : HandleStandardRequest dev urb.setup = (dev.device_descriptor, dev) := by
    unfold HandleStandardRequest
    rw [if_pos hreq]
    dsimp only
    rw [if_pos (by rw [hval]; rfl)]
  rw [this]
/-! ### GET_DESCRIPTOR(DEVICE) -/

theorem reachable_attached (h : ByteOrder) (d : VirtualUsbDevice) (hr : Reachable h d)
    (ha : d.attached = true) :
    d.device_descriptor = storeDeviceDescriptor h (descriptorFor d.device_info) ∧
    d.config_descriptor.length = 32 ∧
    d.string_descriptors = (VirtualUsbDevice.new d.device_info).string_descriptors := by
  obtain ⟨h1, h2, h3⟩ := invariant_of_reachable h d hr
  exact ⟨(h2 (h1 ha)).1, (h2 (h1 ha)).2, h3⟩

theorem storeDeviceDescriptor_little (info : UsbipDeviceInfo) :
    storeDeviceDescriptor .little (descriptorFor info)
      = [0x12, 0x01, 0x00, 0x02, info.bDeviceClass, info.bDeviceSubClass, info.bDeviceProtocol, 64,
         byteOf info.idVendor.val, byteOf (info.idVendor.val / 256),
         byteOf info.idProduct.val, byteOf (info.idProduct.val / 256),
         byteOf info.bcdDevice.val, byteOf (info.bcdDevice.val / 256), 1, 2, 3, 1] := by
  simp only [storeDeviceDescriptor, descriptorFor, store16, be16, List.reverse_cons,
    List.reverse_nil, List.nil_append, List.cons_append, List.append_assoc]
  rfl

theorem storeDeviceDescriptor_head (h : ByteOrder) (info : UsbipDeviceInfo) :
    (storeDeviceDescriptor h (descriptorFor info)).take 2 = [18, 1] ∧
    (storeDeviceDescriptor h (descriptorFor info)).length = 18 := by
  constructor
  · rfl
  · simp only [storeDeviceDescriptor, List.length_append, length_store16, List.length_cons,
      List.length_nil]

/-- C16, as amended.  On a little-endian host, for every reachable virtual
device that is attached and has a response callback, with device record
`info = device_info`, a control URB whose setup packet is the bytes
`80 06 00 01 00 00 12 00` is answered by exactly one response, whose payload
is 18 bytes: `12 01`, bcdUSB `0x0200`, class, subclass and protocol of `info`,
max packet size 64, idVendor, idProduct and bcdDevice of `info`, the 16-bit
fields little-endian, string indices 1, 2, 3 and bNumConfigurations 1. -/
theorem get_descriptor_device_on_little_endian (d : VirtualUsbDevice) (u : UsbUrb)
    (hr : Reachable .little d) (ha : d.attached = true) (hc : d.callback_installed = true)
    (ht : u.type = UsbTransferType.CONTROL)
    (hs : storeSetup .little u.setup = [0x80, 0x06, 0x00, 0x01, 0x00, 0x00, 0x12, 0x00]) :
    ∃ r : UsbUrb, VirtualUsbDevice.ProcessUrb .little d u = (d, [r]) ∧
      r.data.length = 18 ∧
      r.data = [0x12, 0x01, 0x00, 0x02, d.device_info.bDeviceClass,
        d.device_info.bDeviceSubClass, d.device_info.bDeviceProtocol, 64,
        byteOf d.device_info.idVendor.val, byteOf (d.device_info.idVendor.val / 256),
        byteOf d.device_info.idProduct.val, byteOf (d.device_info.idProduct.val / 256),
        byteOf d.device_info.bcdDevice.val, byteOf (d.device_info.bcdDevice.val / 256),
        1, 2, 3, 1] := by
  have hsetup : u.setup = ⟨0x80, 0x06, 0x0100, 0, 0x12⟩ := by
    have := loadSetup_storeSetup .little u.setup []
    rw [List.append_nil, hs] at this
    rw [← this]
    decide
  have hd := (reachable_attached .little d hr ha).1
  refine ⟨responseTo u d.device_descriptor, ?_, ?_, ?_⟩
  · exact get_device_descriptor_response .little d u ha hc ht (by rw [hsetup]; decide)
      (by rw [hsetup]; decide) (by rw [hsetup]; decide)
  · show d.device_descriptor.length = 18
    rw [hd]
    exact (storeDeviceDescriptor_head .little _).2
  · show d.device_descriptor = _
    rw [hd, storeDeviceDescriptor_little]

/-- Witness for `get_descriptor_device_on_little_endian`: the virtual device
imported for the device of the protocol test, vendor `0x1234`, product
`0x5678`, class 8. -/
theorem get_descriptor_device_on_little_endian_witness :
    ∃ r : UsbUrb,
      VirtualUsbDevice.ProcessUrb .little (importedTestDevice .little)
          (controlUrb ⟨0x80, 0x06, 0x0100, 0, 0x12⟩)
        = (importedTestDevice .little, [r]) ∧
      r.data.length = 18 ∧
      r.data = [0x12, 0x01, 0x00, 0x02, (importedTestDevice .little).device_info.bDeviceClass,
        (importedTestDevice .little).device_info.bDeviceSubClass,
        (importedTestDevice .little).device_info.bDeviceProtocol, 64,
        byteOf (importedTestDevice .little).device_info.idVendor.val,
        byteOf ((importedTestDevice .little).device_info.idVendor.val / 256),
        byteOf (importedTestDevice .little).device_info.idProduct.val,
        byteOf ((importedTestDevice .little).device_info.idProduct.val / 256),
        byteOf (importedTestDevice .little).device_info.bcdDevice.val,
        byteOf ((importedTestDevice .little).device_info.bcdDevice.val / 256),
        1, 2, 3, 1] :=
  get_descriptor_device_on_little_endian (importedTestDevice .little)
    (controlUrb ⟨0x80, 0x06, 0x0100, 0, 0x12⟩)
    (Reachable.attach true (Reachable.create testDevice (List.replicate 8 false)
      (Reachable.setCallback (Reachable.new testDevice))))
    (by decide) (by decide) (by decide) (by decide)

/-- C16, as stated, fails on a big-endian host.  There the setup bytes
`80 06 00 01 00 00 12 00` are read as `wValue = 0x0001`, the request is not
GET_DESCRIPTOR(DEVICE) and the response payload is empty; and the descriptor
built at creation holds its 16-bit fields in host order, big-endian
(`02 00`, `12 34`, `56 78`). -/
theorem get_descriptor_device_on_big_endian :
    storeSetup .big (loadSetup .big [0x80, 0x06, 0x00, 0x01, 0x00, 0x00, 0x12, 0x00])
      = [0x80, 0x06, 0x00, 0x01, 0x00, 0x00, 0x12, 0x00] ∧
    (VirtualUsbDevice.ProcessUrb .big (importedTestDevice .big)
        (controlUrb (loadSetup .big [0x80, 0x06, 0x00, 0x01, 0x00, 0x00, 0x12, 0x00]))).2.map
        (·.data) = [[]] ∧
    (importedTestDevice .big).attached = true ∧
    (importedTestDevice .big).device_descriptor
      = [0x12, 0x01, 0x02, 0x00, 0x08, 0, 0, 64, 0x12, 0x34, 0x56, 0x78, 0, 0, 1, 2, 3, 1] := by
  decide

/-! ### Control URBs with `wValue = 0x0100` -/

/-- C17, as amended.  For every reachable virtual device that is attached and
has a response callback, and every control URB whose setup packet is a
standard request (`bmRequestType & 0x60 = 0`) GET_DESCRIPTOR (`bRequest = 6`)
with `wValue = 0x0100`, there is exactly one response; its payload has 18
bytes, the first is 18 and the second is 1. -/
theorem get_descriptor_0x0100_starts_18_1 (h : ByteOrder) (d : VirtualUsbDevice) (u : UsbUrb)
    (hr : Reachable h d) (ha : d.attached = true) (hc : d.callback_installed = true)
    (ht : u.type = UsbTransferType.CONTROL)
    (hstd : u.setup.bmRequestType.val &&& 0x60 = 0x00)
    (hreq : u.setup.bRequest = GET_DESCRIPTOR)
    (hval : u.setup.wValue = 0x0100) :
    ∃ r : UsbUrb, VirtualUsbDevice.ProcessUrb h d u = (d, [r]) ∧
      r.data.length = 18 ∧ r.data.take 2 = [18, 1] ∧
      r.data.getD 0 0 = 18 ∧ r.data.getD 1 0 = 1 := by
  have hd := (reachable_attached h d hr ha).1
  have hhead := storeDeviceDescriptor_head h d.device_info
  refine ⟨responseTo u d.device_descriptor, ?_, ?_, ?_, ?_, ?_⟩
  · exact get_device_descriptor_response h d u ha hc ht hstd hreq (by rw [hval]; decide)
  · show d.device_descriptor.length = 18
    rw [hd]; exact hhead.2
  · show d.device_descriptor.take 2 = [18, 1]
    rw [hd]; exact hhead.1
  · show d.device_descriptor.getD 0 0 = 18
    rw [hd]; rfl
  · show d.device_descriptor.getD 1 0 = 1
    rw [hd]; rfl

/-- Witness for `get_descriptor_0x0100_starts_18_1`: the imported test device
on a big-endian host and GET_DESCRIPTOR with `wValue = 0x0100`. -/
theorem get_descriptor_0x0100_starts_18_1_witness :
    ∃ r : UsbUrb,
      VirtualUsbDevice.ProcessUrb .big (importedTestDevice .big)
          (controlUrb ⟨0x80, 0x06, 0x0100, 0, 0x12⟩) = (importedTestDevice .big, [r]) ∧
      r.data.length = 18 ∧ r.data.take 2 = [18, 1] ∧
      r.data.getD 0 0 = 18 ∧ r.data.getD 1 0 = 1 :=
  get_descriptor_0x0100_starts_18_1 .big (importedTestDevice .big)
    (controlUrb ⟨0x80, 0x06, 0x0100, 0, 0x12⟩)
    (Reachable.attach true (Reachable.create testDevice (List.replicate 8 false)
      (Reachable.setCallback (Reachable.new testDevice))))
    (by decide) (by decide) (by decide) (by decide) (by decide) (by decide)

/-- C17, as stated, fails.  On the attached test device a vendor request and
a SET_CONFIGURATION request with `wValue = 0x0100` are answered with an empty
payload, and GET_CONFIGURATION with `wValue = 0x0100` with the single byte 0:
no first byte 18, no second byte 1. -/
theorem wValue_0x0100_without_get_descriptor :
    (VirtualUsbDevice.ProcessUrb .little (importedTestDevice .little)
        (controlUrb ⟨0x40, 0x01, 0x0100, 0, 0⟩)).2.map (·.data) = [[]] ∧
    (VirtualUsbDevice.ProcessUrb .little (importedTestDevice .little)
        (controlUrb ⟨0x00, 0x09, 0x0100, 0, 0⟩)).2.map (·.data) = [[]] ∧
    (VirtualUsbDevice.ProcessUrb .little (importedTestDevice .little)
        (controlUrb ⟨0x80, 0x08, 0x0100, 0, 1⟩)).2.map (·.data) = [[0]] := by
  decide
/-! ### Shape of every response -/

theorem GetStringDescriptor_length (d : VirtualUsbDevice) (idx : Byte)
    (h3 : d.string_descriptors = (VirtualUsbDevice.new d.device_info).string_descriptors) :
    (GetStringDescriptor d idx).length ≤ 42 := by
  have hnew : (VirtualUsbDevice.new d.device_info).string_descriptors
      = (VirtualUsbDevice.new testDevice).string_descriptors := rfl
  have hall : ∀ i : Byte, i.val < 4 →
      (GetStringDescriptor (VirtualUsbDevice.new testDevice) i).length ≤ 42 := by
    intro i hi
    obtain ⟨n, hn⟩ := i
    simp only at hi
    interval_cases n
    · show (GetStringDescriptor (VirtualUsbDevice.new testDevice) (0 : Byte)).length ≤ 42
      decide
    · show (GetStringDescriptor (VirtualUsbDevice.new testDevice) (1 : Byte)).length ≤ 42
      decide
    · show (GetStringDescriptor (VirtualUsbDevice.new testDevice) (2 : Byte)).length ≤ 42
      decide
    · show (GetStringDescriptor (VirtualUsbDevice.new testDevice) (3 : Byte)).length ≤ 42
      decide
  have heq : GetStringDescriptor d idx
      = GetStringDescriptor (VirtualUsbDevice.new testDevice) idx := by
    unfold GetStringDescriptor
    rw [h3, hnew]
  rw [heq]
  by_cases hi : idx.val < 4
  · exact hall idx hi
  · have : GetStringDescriptor (VirtualUsbDevice.new testDevice) idx = [] := by
      unfold GetStringDescriptor
      exact if_neg hi
    rw [this]
    exact Nat.zero_le _

theorem ProcessScsiCommand_length (h : ByteOrder) (cbw : List Byte) :
    (ProcessScsiCommand h cbw).length ≤ 42 := by
  unfold ProcessScsiCommand
  dsimp only
  split_ifs
  · decide
  · simp only [List.length_append, length_store32]; decide
  · decide
  · decide

theorem HandleStandardRequest_length (h : ByteOrder) (d : VirtualUsbDevice)
    (setup : UsbSetupPacket) (hr : Reachable h d) (ha : d.attached = true) :
    (HandleStandardRequest d setup).1.length ≤ 42 := by
  obtain ⟨h1, h2, h3⟩ := reachable_attached h d hr ha
  unfold HandleStandardRequest
  dsimp only
  split_ifs
  · show d.device_descriptor.length ≤ 42
    rw [h1, (storeDeviceDescriptor_head h _).2]; decide
  · show d.config_descriptor.length ≤ 42
    rw [h2]; decide
  · exact GetStringDescriptor_length d _ h3
  · exact Nat.zero_le _
  · exact Nat.zero_le _
  · show 1 ≤ 42
    decide
  · exact Nat.zero_le _

theorem one_response (h : ByteOrder) (d : VirtualUsbDevice) (u : UsbUrb)
    (hr : Reachable h d) (ha : d.attached = true) (hc : d.callback_installed = true)
    (ht : u.type = UsbTransferType.CONTROL ∨ u.type = UsbTransferType.BULK ∨
      u.type = UsbTransferType.INTERRUPT ∨ u.type = UsbTransferType.ISOCHRONOUS) :
    ∃ (d2 : VirtualUsbDevice) (data : List Byte),
      VirtualUsbDevice.ProcessUrb h d u = (d2, [responseTo u data]) ∧
      (data = u.data ∨ data.length ≤ 42) := by
  rcases ht with ht | ht | ht | ht
  · rw [ProcessUrb_control h d u ha ht, HandleControlUrb_eq d u hc]
    split_ifs
    · exact ⟨_, _, rfl, Or.inr (HandleStandardRequest_length h d u.setup hr ha)⟩
    · refine ⟨_, _, rfl, Or.inr ?_⟩
      unfold HandleClassRequest
      split_ifs <;> decide
    · exact ⟨_, _, rfl, Or.inr (Nat.zero_le _)⟩
    · exact ⟨_, _, rfl, Or.inl rfl⟩
  · rw [ProcessUrb_bulk h d u ha ht]
    unfold HandleBulkUrb
    split_ifs
    · rw [HandleMassStorageUrb_eq h d u hc]
      split_ifs
      · exact ⟨_, _, rfl, Or.inr (ProcessScsiCommand_length h _)⟩
      · exact ⟨_, _, rfl, Or.inl rfl⟩
      · refine ⟨_, _, rfl, Or.inr ?_⟩
        rw [List.length_append, length_store32, List.length_drop, length_resize]
        decide
    · rw [SimulateDeviceResponse_eq d u hc]
      refine ⟨_, _, rfl, Or.inr ?_⟩
      split_ifs <;> decide
  · rw [ProcessUrb_simulated h d u ha (Or.inl ht), SimulateDeviceResponse_eq d u hc]
    refine ⟨_, _, rfl, Or.inr ?_⟩
    split_ifs <;> decide
  · rw [ProcessUrb_simulated h d u ha (Or.inr ht), SimulateDeviceResponse_eq d u hc]
    refine ⟨_, _, rfl, Or.inr ?_⟩
    split_ifs <;> decide

theorem reserved_control_echo (h : ByteOrder) (d : VirtualUsbDevice) (data : List Byte)
    (ha : d.attached = true) (hc : d.callback_installed = true) :
    VirtualUsbDevice.ProcessUrb h d (reservedControlUrb data)
      = (d, [responseTo (reservedControlUrb data) data]) := by
  rw [ProcessUrb_control h d (reservedControlUrb data) ha rfl,
    HandleControlUrb_eq d (reservedControlUrb data) hc]
  have hs : (reservedControlUrb data).setup = ⟨0x60, 0, 0, 0, 0⟩ := rfl
  rw [hs, if_neg (by decide), if_neg (by decide), if_neg (by decide)]
  rfl

/-- C18, as amended.  For every reachable virtual device that is attached and
has a response callback, and every URB `u` of transfer type control, bulk,
interrupt or isochronous whose data buffer is shorter than 2^32 bytes, the
callback is invoked exactly once, with a response whose id, endpoint and
transfer type are those of `u`, whose direction is flipped (OUT for IN, IN for
OUT), whose status is 0 and whose `actual_length` is the size of its payload. -/
theorem every_urb_gets_one_response (h : ByteOrder) (d : VirtualUsbDevice) (u : UsbUrb)
    (hr : Reachable h d) (ha : d.attached = true) (hc : d.callback_installed = true)
    (ht : u.type = UsbTransferType.CONTROL ∨ u.type = UsbTransferType.BULK ∨
      u.type = UsbTransferType.INTERRUPT ∨ u.type = UsbTransferType.ISOCHRONOUS)
    (hlen : u.data.length < 4294967296) :
    ∃ (d2 : VirtualUsbDevice) (r : UsbUrb),
      VirtualUsbDevice.ProcessUrb h d u = (d2, [r]) ∧
      r.id = u.id ∧ r.endpoint = u.endpoint ∧ r.type = u.type ∧
      (u.direction = UsbDirection.IN → r.direction = UsbDirection.OUT) ∧
      (u.direction = UsbDirection.OUT → r.direction = UsbDirection.IN) ∧
      r.status = 0 ∧ r.actual_length.val = r.data.length := by
  obtain ⟨d2, data, hp, hdata⟩ := one_response h d u hr ha hc ht
  refine ⟨d2, responseTo u data, hp, rfl, rfl, rfl, ?_, ?_, rfl, ?_⟩
  · intro hin
    show flipDirection u.direction = UsbDirection.OUT
    rw [hin]; rfl
  · intro hout
    show flipDirection u.direction = UsbDirection.IN
    rw [hout]; rfl
  · show (u32Of data.length).val = data.length
    have : data.length < 4294967296 := by
      rcases hdata with rfl | hle
      · exact hlen
      · omega
    exact Nat.mod_eq_of_lt this

/-- Witness for `every_urb_gets_one_response`: the imported test device and a
bulk OUT URB carrying an INQUIRY command block. -/
theorem every_urb_gets_one_response_witness :
    ∃ (d2 : VirtualUsbDevice) (r : UsbUrb),
      VirtualUsbDevice.ProcessUrb .little (importedTestDevice .little) (cbwUrb [1, 0, 0, 0] 0x12)
        = (d2, [r]) ∧
      r.id = (cbwUrb [1, 0, 0, 0] 0x12).id ∧ r.endpoint = (cbwUrb [1, 0, 0, 0] 0x12).endpoint ∧
      r.type = (cbwUrb [1, 0, 0, 0] 0x12).type ∧
      ((cbwUrb [1, 0, 0, 0] 0x12).direction = UsbDirection.IN → r.direction = UsbDirection.OUT) ∧
      ((cbwUrb [1, 0, 0, 0] 0x12).direction = UsbDirection.OUT → r.direction = UsbDirection.IN) ∧
      r.status = 0 ∧ r.actual_length.val = r.data.length :=
  every_urb_gets_one_response .little (importedTestDevice .little) (cbwUrb [1, 0, 0, 0] 0x12)
    (Reachable.attach true (Reachable.create testDevice (List.replicate 8 false)
      (Reachable.setCallback (Reachable.new testDevice))))
    (by decide) (by decide) (by decide) (by decide)

/-- C18, as stated, fails.  `actual_length` is a `uint32_t`: a control URB
whose request type has both type bits set is answered with its own data, and
when that data holds 2^32 bytes the response has `actual_length` 0 and a
payload of 4,294,967,296 bytes. -/
theorem actual_length_wraps_at_4294967296 :
    (VirtualUsbDevice.ProcessUrb .little (importedTestDevice .little) hugeReservedControlUrb).2.map
        (fun r => (r.actual_length, r.data.length)) = [(0, 4294967296)] := by
  rw [show hugeReservedControlUrb = reservedControlUrb (List.replicate 4294967296 0) from rfl,
    reserved_control_echo .little (importedTestDevice .little) _ (by decide) (by decide)]
  simp only [List.map_cons, List.map_nil, responseTo, List.length_replicate]
  rfl

/-! ### URBs for a device that is not attached -/

/-- C19.  For every virtual device that is not attached and every URB,
`ProcessUrb` hands nothing to the response callback and returns the device
unchanged, `current_configuration` included.  A device just constructed is not
attached; creating a device that is not attached, or failing to attach it,
leaves it not attached; a detached and a destroyed device are not attached;
and whenever `ProcessUrb` produces a response the device is attached. -/
theorem unattached_device_ignores_urbs (h : ByteOrder) (d : VirtualUsbDevice) (u : UsbUrb)
    (ha : d.attached = false) :
    VirtualUsbDevice.ProcessUrb h d u = (d, []) ∧
    (∀ info : UsbipDeviceInfo, (VirtualUsbDevice.new info).attached = false) ∧
    (∀ (info : UsbipDeviceInfo) (port_usage : List Bool),
      (CreateDevice h d info port_usage).2.1.attached = false) ∧
    (AttachDevice d false).2.attached = false ∧
    (d.created = false → ∀ ok : Bool, (AttachDevice d ok).2.attached = false) ∧
    (∀ d2 : VirtualUsbDevice, (DetachDevice d2).2.attached = false) ∧
    (∀ (d2 : VirtualUsbDevice) (port_usage : List Bool),
      (DestroyDevice d2 port_usage).1.attached = false) ∧
    (∀ (d2 : VirtualUsbDevice) (u2 : UsbUrb),
      (VirtualUsbDevice.ProcessUrb h d2 u2).2 ≠ [] → d2.attached = true) := by
  have hdet : ∀ d2 : VirtualUsbDevice, (DetachDevice d2).2.attached = false := by
    intro d2
    unfold DetachDevice
    split_ifs with h1
    · simpa using h1
    · rfl
  refine ⟨ProcessUrb_not_attached h d u ha, fun _ => rfl, ?_, ?_, ?_, hdet, ?_, ?_⟩
  · intro info port_usage
    unfold CreateDevice
    dsimp only
    split_ifs
    · exact ha
    · exact ha
    · exact ha
  · unfold AttachDevice
    split_ifs <;> first | exact ha | simp_all
  · intro hcr ok
    unfold AttachDevice
    simp [hcr, ha]
  · intro d2 port_usage
    unfold DestroyDevice
    dsimp only
    split_ifs <;> exact hdet d2
  · intro d2 u2 hne
    by_contra hna
    have : d2.attached = false := by simpa using hna
    rw [ProcessUrb_not_attached h d2 u2 this] at hne
    exact hne rfl

/-- Witness for `unattached_device_ignores_urbs`: a device that was created
and never attached ignores GET_DESCRIPTOR. -/
theorem unattached_device_ignores_urbs_witness :
    VirtualUsbDevice.ProcessUrb .little
        (CreateDevice .little (SetUrbResponseCallback (VirtualUsbDevice.new testDevice))
          testDevice (List.replicate 8 false)).2.1
        (controlUrb ⟨0x80, 0x06, 0x0100, 0, 0x12⟩)
      = ((CreateDevice .little (SetUrbResponseCallback (VirtualUsbDevice.new testDevice))
          testDevice (List.replicate 8 false)).2.1, []) :=
  (unattached_device_ignores_urbs .little
    (CreateDevice .little (SetUrbResponseCallback (VirtualUsbDevice.new testDevice))
      testDevice (List.replicate 8 false)).2.1
    (controlUrb ⟨0x80, 0x06, 0x0100, 0, 0x12⟩) (by decide)).1

/-! ### The status wrapper of the mass-storage emulation -/

/-- C20, as amended.  On an attached virtual device of class mass storage with
a response callback, after an OUT bulk URB carrying a 31-byte CBW, the
response to the next IN bulk URB, one that carries no data, has a 13-byte
payload: the signature `0x53425355` in host byte order in bytes 0..3
(`55 53 42 53` on a little-endian host) and zero in all other bytes, so the
tag field (bytes 4..7) is 0 whatever the tag of the CBW was, and the status
byte (offset 12) is 0. -/
theorem status_wrapper_after_command (h : ByteOrder) (d : VirtualUsbDevice)
    (cbw status_in : UsbUrb)
    (ha : d.attached = true) (hc : d.callback_installed = true)
    (hclass : d.device_info.bDeviceClass = MASS_STORAGE)
    (h1 : cbw.type = UsbTransferType.BULK) (_h2 : cbw.direction = UsbDirection.OUT)
    (_h3 : cbw.data.length = 31)
    (h4 : status_in.type = UsbTransferType.BULK) (h5 : status_in.direction = UsbDirection.IN)
    (h6 : status_in.data = []) :
    (VirtualUsbDevice.ProcessUrb h d cbw).1 = d ∧
    ∃ r : UsbUrb,
      VirtualUsbDevice.ProcessUrb h (VirtualUsbDevice.ProcessUrb h d cbw).1 status_in = (d, [r]) ∧
      r.data.length = 13 ∧
      r.data = store32 h 0x53425355 ++ [0, 0, 0, 0, 0, 0, 0, 0, 0] ∧
      (h = .little → r.data.take 4 = [0x55, 0x53, 0x42, 0x53]) ∧
      (r.data.drop 4).take 4 = [0, 0, 0, 0] ∧
      r.data.getD 12 0 = 0 := by
  have hd1 : (VirtualUsbDevice.ProcessUrb h d cbw).1 = d := by
    rw [ProcessUrb_bulk h d cbw ha h1]
  have hin : ¬ status_in.direction = UsbDirection.OUT := by rw [h5]; decide
  have hdata : store32 h 0x53425355 ++ (resize status_in.data 13).drop 4
      = store32 h 0x53425355 ++ [0, 0, 0, 0, 0, 0, 0, 0, 0] := by
    rw [h6]; rfl
  have hkey : (responseTo status_in (store32 h 0x53425355 ++ [0, 0, 0, 0, 0, 0, 0, 0, 0])).data
      = store32 h 0x53425355 ++ [0, 0, 0, 0, 0, 0, 0, 0, 0] := rfl
  refine ⟨hd1, responseTo status_in (store32 h 0x53425355 ++ [0, 0, 0, 0, 0, 0, 0, 0, 0]),
    ?_, ?_, rfl, ?_, ?_, ?_⟩
  · rw [hd1, ProcessUrb_bulk h d status_in ha h4]
    unfold HandleBulkUrb
    rw [if_pos hclass, HandleMassStorageUrb_eq h d status_in hc, if_neg hin, hdata]
  · rw [hkey, List.length_append, length_store32]
    rfl
  · intro hl
    subst hl
    rw [hkey]
    decide
  · rw [hkey, List.drop_left' (length_store32 h _)]
    rfl
  · rw [hkey]
    cases h <;> rfl

/-- Witness for `status_wrapper_after_command`: the imported test device, an
INQUIRY command block with tag `44 33 22 11`, then a status read. -/
theorem status_wrapper_after_command_witness :
    ∃ r : UsbUrb,
      VirtualUsbDevice.ProcessUrb .little
          (VirtualUsbDevice.ProcessUrb .little (importedTestDevice .little)
            (cbwUrb [0x44, 0x33, 0x22, 0x11] 0x12)).1 statusInUrb
        = (importedTestDevice .little, [r]) ∧
      r.data.length = 13 ∧
      r.data = store32 .little 0x53425355 ++ [0, 0, 0, 0, 0, 0, 0, 0, 0] ∧
      (ByteOrder.little = .little → r.data.take 4 = [0x55, 0x53, 0x42, 0x53]) ∧
      (r.data.drop 4).take 4 = [0, 0, 0, 0] ∧
      r.data.getD 12 0 = 0 :=
  (status_wrapper_after_command .little (importedTestDevice .little)
    (cbwUrb [0x44, 0x33, 0x22, 0x11] 0x12) statusInUrb
    (by decide) (by decide) (by decide) (by decide) (by decide) (by decide) (by decide)
    (by decide) (by decide)).2

/-- C20, as stated, fails.  After a CBW with tag `0x11223344` (bytes
`44 33 22 11`) the status wrapper returned for the next IN bulk URB has the tag
bytes `00 00 00 00`. -/
theorem status_wrapper_tag_is_zero :
    ((cbwUrb [0x44, 0x33, 0x22, 0x11] 0x12).data.length = 31 ∧
      ((cbwUrb [0x44, 0x33, 0x22, 0x11] 0x12).data.drop 4).take 4 = [0x44, 0x33, 0x22, 0x11]) ∧
    (VirtualUsbDevice.ProcessUrb .little
        (VirtualUsbDevice.ProcessUrb .little (importedTestDevice .little)
          (cbwUrb [0x44, 0x33, 0x22, 0x11] 0x12)).1 statusInUrb).2.map
        (fun r => (r.data.length, (r.data.drop 4).take 4)) = [(13, [0, 0, 0, 0])] := by
  decide

/-! ### SCSI INQUIRY of the virtual device -/

/-- C21.  For every host byte order and every CBW of at least 31 bytes whose
command byte (offset 15) is `0x12`, `ProcessScsiCommand` returns exactly 36
bytes; byte 1 is `0x80`, so the removable-media bit is set; bytes 8..15 are the
ASCII characters of `Virtual ` and the 15 bytes from offset 16 are the ASCII
characters of `Mass Storage` followed by three spaces. -/
theorem inquiry_response (h : ByteOrder) (cbw_data : List Byte)
    (hlen : 31 ≤ cbw_data.length) (hcmd : cbw_data.getD 15 0 = 0x12) :
    (ProcessScsiCommand h cbw_data).length = 36 ∧
    (ProcessScsiCommand h cbw_data).getD 1 0 = 0x80 ∧
    ((ProcessScsiCommand h cbw_data).getD 1 0).val &&& 0x80 = 0x80 ∧
    ((ProcessScsiCommand h cbw_data).drop 8).take 8 = stringBytes "Virtual " ∧
    ((ProcessScsiCommand h cbw_data).drop 8).take 8
      = [0x56, 0x69, 0x72, 0x74, 0x75, 0x61, 0x6C, 0x20] ∧
    ((ProcessScsiCommand h cbw_data).drop 16).take 15 = stringBytes "Mass Storage   " ∧
    ((ProcessScsiCommand h cbw_data).drop 16).take 15
      = [0x4D, 0x61, 0x73, 0x73, 0x20, 0x53, 0x74, 0x6F, 0x72, 0x61, 0x67, 0x65,
         0x20, 0x20, 0x20] := by
  have hp : ProcessScsiCommand h cbw_data
      = [0x00, 0x80, 0x04, 0x02, 31, 0, 0, 0] ++ stringBytes "Virtual "
        ++ (stringBytes "Mass Storage   " ++ [0]) ++ [0, 0, 0, 0] := by
    unfold ProcessScsiCommand
    rw [if_pos hlen]
    dsimp only
    rw [if_pos hcmd]
  rw [hp]
  decide

/-- Witness for `inquiry_response`: a 31-byte CBW with tag `01 00 00 00` and
the command byte `0x12`. -/
theorem inquiry_response_witness :
    (ProcessScsiCommand .little (cbwUrb [1, 0, 0, 0] 0x12).data).length = 36 ∧
    (ProcessScsiCommand .little (cbwUrb [1, 0, 0, 0] 0x12).data).getD 1 0 = 0x80 :=
  ⟨(inquiry_response .little (cbwUrb [1, 0, 0, 0] 0x12).data (by decide) (by decide)).1,
   (inquiry_response .little (cbwUrb [1, 0, 0, 0] 0x12).data (by decide) (by decide)).2.1⟩

/-! ### The port allocator -/

theorem getD_set_ports (u : List Bool) (k j : Nat) (b d : Bool) :
    (u.set k b).getD j d = if j = k ∧ k < u.length then b else u.getD j d := by
  induction u generalizing k j with
  | nil => simp
  | cons x xs ih =>
    cases k with
    | zero =>
      cases j with
      | zero => simp
      | succ j => simp
    | succ k =>
      cases j with
      | zero => simp
      | succ j =>
        simp only [List.set_cons_succ, List.getD_cons_succ, ih, List.length_cons]
        simp

theorem getD_default_ports (u : List Bool) (j : Nat) (a b : Bool) (hj : j < u.length) :
    u.getD j a = u.getD j b := by
  simp [List.getD_eq_getElem?_getD, List.getElem?_eq_getElem hj]

theorem scanPorts_some (u : List Bool) (n i k : Nat) (hs : scanPorts u n i = some k) :
    i ≤ k ∧ k < i + n ∧ u.getD k true = false ∧
      ∀ j, i ≤ j → j < k → u.getD j true = true := by
  induction n generalizing i with
  | zero => simp [scanPorts] at hs
  | succ n ih =>
    unfold scanPorts at hs
    split_ifs at hs with hfree
    · cases hs
      refine ⟨le_refl _, by omega, by simpa using hfree, fun j h1 h2 => by omega⟩
    · obtain ⟨h1, h2, h3, h4⟩ := ih (i + 1) hs
      refine ⟨by omega, by omega, h3, fun j hj1 hj2 => ?_⟩
      by_cases hji : j = i
      · subst hji
        simpa using hfree
      · exact h4 j (by omega) hj2

theorem scanPorts_none (u : List Bool) (n i : Nat) (hs : scanPorts u n i = none) :
    ∀ j, i ≤ j → j < i + n → u.getD j true = true := by
  induction n generalizing i with
  | zero => intro j h1 h2; omega
  | succ n ih =>
    unfold scanPorts at hs
    split_ifs at hs with hfree
    intro j h1 h2
    by_cases hji : j = i
    · subst hji
      simpa using hfree
    · exact ih (i + 1) hs j (by omega) (by omega)

/-- What `GetAvailablePort` does: it takes the lowest free index, or finds
every slot in use and changes nothing. -/
theorem GetAvailablePort_cases (u : List Bool) :
    (∃ k : Nat, k < u.length ∧ GetAvailablePort u = ((k : Int), u.set k true) ∧
      u.getD k false = false ∧ ∀ j, j < k → u.getD j false = true) ∨
    (GetAvailablePort u = (-1, u) ∧ ∀ j, j < u.length → u.getD j false = true) := by
  unfold GetAvailablePort
  cases hs : scanPorts u u.length 0 with
  | some k =>
    left
    obtain ⟨-, h2, h3, h4⟩ := scanPorts_some u _ _ _ hs
    have hk : k < u.length := by omega
    refine ⟨k, hk, rfl, ?_, fun j hj => ?_⟩
    · rw [getD_default_ports u k false true hk]; exact h3
    · rw [getD_default_ports u j false true (by omega)]; exact h4 j (Nat.zero_le _) hj
  | none =>
    right
    refine ⟨rfl, fun j hj => ?_⟩
    rw [getD_default_ports u j false true hj]
    exact scanPorts_none u _ _ hs j (Nat.zero_le _) (by omega)

theorem length_GetAvailablePort (u : List Bool) : (GetAvailablePort u).2.length = u.length := by
  rcases GetAvailablePort_cases u with ⟨k, -, hk, -⟩ | ⟨hk, -⟩
  · rw [hk]; simp
  · rw [hk]

theorem length_ReleasePort (u : List Bool) (port : Int) :
    (ReleasePort u port).length = u.length := by
  unfold ReleasePort
  split_ifs <;> simp

theorem getD_ReleasePort (u : List Bool) (port : Int) (j : Nat) :
    (ReleasePort u port).getD j false = if (j : Int) = port then false else u.getD j false := by
  unfold ReleasePort
  split_ifs with h1 h2 h2
  · rw [getD_set_ports]
    have : j = port.toNat ∧ port.toNat < u.length := by omega
    rw [if_pos this]
  · rw [getD_set_ports]
    have : ¬ (j = port.toNat ∧ port.toNat < u.length) := by omega
    rw [if_neg this]
  · have : ¬ j < u.length := by omega
    simp [List.getD_eq_getElem?_getD, List.getElem?_eq_none (not_lt.mp this)]
  · rfl

theorem runPortCalls_acquire (u : List Bool) (calls : List PortCall) :
    runPortCalls u (.acquire :: calls)
      = ((if (GetAvailablePort u).1 = -1 then PortEvent.refused
            else PortEvent.acquired (GetAvailablePort u).1)
          :: (runPortCalls (GetAvailablePort u).2 calls).1,
         (runPortCalls (GetAvailablePort u).2 calls).2) := rfl

theorem runPortCalls_release (u : List Bool) (port : Int) (calls : List PortCall) :
    runPortCalls u (.release port :: calls)
      = (PortEvent.released port :: (runPortCalls (ReleasePort u port) calls).1,
         (runPortCalls (ReleasePort u port) calls).2) := rfl

/-- The first event of an acquire call, and the ports after it. -/
theorem acquire_event (u : List Bool) :
    (∃ k : Nat, k < u.length ∧ (GetAvailablePort u).2 = u.set k true ∧
      u.getD k false = false ∧
      (if (GetAvailablePort u).1 = -1 then PortEvent.refused
        else PortEvent.acquired (GetAvailablePort u).1) = PortEvent.acquired (k : Int)) ∨
    ((GetAvailablePort u).2 = u ∧
      (if (GetAvailablePort u).1 = -1 then PortEvent.refused
        else PortEvent.acquired (GetAvailablePort u).1) = PortEvent.refused) := by
  rcases GetAvailablePort_cases u with ⟨k, hk, hg, hfree, -⟩ | ⟨hg, -⟩
  · left
    refine ⟨k, hk, by rw [hg], hfree, ?_⟩
    rw [hg]
    have : ¬ ((k : Int) = -1) := by omega
    simp only [this, if_false]
  · right
    rw [hg]
    exact ⟨rfl, rfl⟩

/-- The ports and the set of held indices stay in step along every run. -/
theorem runPortCalls_tracks (calls : List PortCall) (u : List Bool) (held : Finset Int)
    (ht : ∀ x : Int, x ∈ held ↔ ∃ i : Nat, i < u.length ∧ x = (i : Int) ∧ u.getD i false = true) :
    (runPortCalls u calls).2.length = u.length ∧
    ∀ x : Int, x ∈ (runPortCalls u calls).1.foldl heldStep held ↔
      ∃ i : Nat, i < u.length ∧ x = (i : Int) ∧ (runPortCalls u calls).2.getD i false = true := by
  induction calls generalizing u held with
  | nil => exact ⟨rfl, ht⟩
  | cons call calls ih =>
    cases call with
    | acquire =>
      rw [runPortCalls_acquire]
      rcases acquire_event u with ⟨k, hk, hu, hfree, he⟩ | ⟨hu, he⟩
      · rw [he, hu]
        have hlen : (u.set k true).length = u.length := by simp
        have := ih (u.set k true) (insert (k : Int) held) (by
          intro x
          rw [Finset.mem_insert, ht x, hlen]
          constructor
          · rintro (rfl | ⟨i, hi, rfl, hv⟩)
            · exact ⟨k, hk, rfl, by rw [getD_set_ports]; simp [hk]⟩
            · refine ⟨i, hi, rfl, ?_⟩
              rw [getD_set_ports]
              split_ifs
              · rfl
              · exact hv
          · rintro ⟨i, hi, rfl, hv⟩
            rw [getD_set_ports] at hv
            by_cases hik : i = k
            · left; rw [hik]
            · right
              refine ⟨i, hi, rfl, ?_⟩
              rw [if_neg (by simp [hik])] at hv
              exact hv)
        rw [hlen] at this
        exact this
      · rw [he, hu]
        exact ih u held ht
    | release port =>
      rw [runPortCalls_release]
      have hlen := length_ReleasePort u port
      have := ih (ReleasePort u port) (held.erase port) (by
        intro x
        rw [Finset.mem_erase, ht x, hlen]
        constructor
        · rintro ⟨hne, i, hi, rfl, hv⟩
          refine ⟨i, hi, rfl, ?_⟩
          rw [getD_ReleasePort, if_neg hne]
          exact hv
        · rintro ⟨i, hi, rfl, hv⟩
          rw [getD_ReleasePort] at hv
          split_ifs at hv with hp
          exact ⟨hp, i, hi, rfl, hv⟩)
      rw [hlen] at this
      exact this

/-- An index that is held is not handed out again before it is released. -/
theorem held_until_released (calls : List PortCall) (u : List Bool) (i : Nat)
    (hi : i < u.length) (hv : u.getD i false = true) (b c : List PortEvent)
    (he : (runPortCalls u calls).1 = b ++ PortEvent.acquired (i : Int) :: c) :
    PortEvent.released (i : Int) ∈ b := by
  induction calls generalizing u b with
  | nil =>
    cases b <;> simp [runPortCalls] at he
  | cons call calls ih =>
    cases call with
    | acquire =>
      rw [runPortCalls_acquire] at he
      rcases acquire_event u with ⟨k, hk, hu, hfree, hev⟩ | ⟨hu, hev⟩
      · rw [hev, hu] at he
        cases b with
        | nil =>
          simp only [List.nil_append, List.cons.injEq, PortEvent.acquired.injEq] at he
          have : k = i := by omega
          rw [this] at hfree
          rw [hfree] at hv
          cases hv
        | cons e b =>
          simp only [List.cons_append, List.cons.injEq] at he
          have := ih (u.set k true) (by simpa using hi)
            (by rw [getD_set_ports]; split_ifs <;> first | rfl | exact hv) b he.2
          exact List.mem_cons_of_mem _ this
      · rw [hev, hu] at he
        cases b with
        | nil => simp at he
        | cons e b =>
          simp only [List.cons_append, List.cons.injEq] at he
          exact List.mem_cons_of_mem _ (ih u hi hv b he.2)
    | release port =>
      rw [runPortCalls_release] at he
      cases b with
      | nil => simp at he
      | cons e b =>
        simp only [List.cons_append, List.cons.injEq] at he
        by_cases hp : (i : Int) = port
        · rw [← he.1, hp]
          exact List.mem_cons_self _ _
        · have := ih (ReleasePort u port) (by rw [length_ReleasePort]; exact hi)
            (by rw [getD_ReleasePort, if_neg hp]; exact hv) b he.2
          exact List.mem_cons_of_mem _ this

/-- Between two acquisitions of the same index there is a release of it. -/
theorem no_double_acquire (calls : List PortCall) (u : List Bool) (a b c : List PortEvent)
    (x : Int)
    (he : (runPortCalls u calls).1
      = a ++ PortEvent.acquired x :: (b ++ PortEvent.acquired x :: c)) :
    PortEvent.released x ∈ b := by
  induction calls generalizing u a with
  | nil =>
    cases a <;> simp [runPortCalls] at he
  | cons call calls ih =>
    cases call with
    | acquire =>
      rw [runPortCalls_acquire] at he
      cases a with
      | nil =>
        rcases acquire_event u with ⟨k, hk, hu, hfree, hev⟩ | ⟨hu, hev⟩
        · rw [hev, hu] at he
          simp only [List.nil_append, List.cons.injEq, PortEvent.acquired.injEq] at he
          obtain ⟨hx, hrest⟩ := he
          subst hx
          exact held_until_released calls (u.set k true) k (by simpa using hk)
            (by rw [getD_set_ports]; simp [hk]) b c hrest
        · rw [hev] at he
          simp at he
      | cons e a =>
        simp only [List.cons_append, List.cons.injEq] at he
        exact ih _ a he.2
    | release port =>
      rw [runPortCalls_release] at he
      cases a with
      | nil => simp at he
      | cons e a =>
        simp only [List.cons_append, List.cons.injEq] at he
        exact ih _ a he.2

/-- C22.  Starting from an initialised `UsbipManager`, whose 8 ports are free,
after every sequence of `GetAvailablePort` and `ReleasePort` calls: there are
8 ports; the indices in use are exactly the indices acquired and not yet
released; when some port is free `GetAvailablePort` returns the lowest free
index, which is not held, and marks it; it returns -1 exactly when all 8 are in
use, and then changes nothing; and between two calls that returned the same
index there was a release of that index. -/
theorem port_allocator (calls : List PortCall) :
    initialPorts = List.replicate 8 false ∧
    (runPortCalls initialPorts calls).2.length = 8 ∧
    (∀ x : Int, x ∈ heldAfter (runPortCalls initialPorts calls).1 ↔
      ∃ i : Nat, i < 8 ∧ x = (i : Int) ∧
        (runPortCalls initialPorts calls).2.getD i false = true) ∧
    ((∃ i, i < 8 ∧ (runPortCalls initialPorts calls).2.getD i false = false) →
      ∃ k : Nat, k < 8 ∧
        GetAvailablePort (runPortCalls initialPorts calls).2
          = ((k : Int), (runPortCalls initialPorts calls).2.set k true) ∧
        (runPortCalls initialPorts calls).2.getD k false = false ∧
        (∀ j, j < k → (runPortCalls initialPorts calls).2.getD j false = true) ∧
        (k : Int) ∉ heldAfter (runPortCalls initialPorts calls).1) ∧
    ((∀ i, i < 8 → (runPortCalls initialPorts calls).2.getD i false = true) ↔
      (GetAvailablePort (runPortCalls initialPorts calls).2).1 = -1) ∧
    ((GetAvailablePort (runPortCalls initialPorts calls).2).1 = -1 →
      GetAvailablePort (runPortCalls initialPorts calls).2
        = (-1, (runPortCalls initialPorts calls).2)) ∧
    (∀ (a b c : List PortEvent) (x : Int),
      (runPortCalls initialPorts calls).1
        = a ++ PortEvent.acquired x :: (b ++ PortEvent.acquired x :: c) →
      PortEvent.released x ∈ b) := by
  have h0 : initialPorts = List.replicate 8 false := by decide
  have hl0 : initialPorts.length = 8 := by rw [h0]; rfl
  have ht := runPortCalls_tracks calls initialPorts ∅ (by
    intro x
    constructor
    · intro hx; simp at hx
    · rintro ⟨i, hi, -, hv⟩
      rw [hl0] at hi
      rw [h0] at hv
      interval_cases i <;> simp at hv)
  rw [hl0] at ht
  obtain ⟨hlen, htr⟩ := ht
  have htr2 : ∀ x : Int, x ∈ heldAfter (runPortCalls initialPorts calls).1 ↔
      ∃ i : Nat, i < 8 ∧ x = (i : Int) ∧
        (runPortCalls initialPorts calls).2.getD i false = true := htr
  refine ⟨h0, hlen, htr2, ?_, ?_, ?_, fun a b c x he => no_double_acquire calls _ a b c x he⟩
  · rintro ⟨i, hi, hfree⟩
    rcases GetAvailablePort_cases (runPortCalls initialPorts calls).2 with
      ⟨k, hk, hg, hkfree, hlow⟩ | ⟨-, hall⟩
    · rw [hlen] at hk
      refine ⟨k, hk, hg, hkfree, hlow, ?_⟩
      rw [htr2]
      rintro ⟨j, -, hj, hv⟩
      have : k = j := by omega
      rw [← this, hkfree] at hv
      cases hv
    · rw [hall i (by rw [hlen]; exact hi)] at hfree
      cases hfree
  · rcases GetAvailablePort_cases (runPortCalls initialPorts calls).2 with
      ⟨k, hk, hg, hkfree, -⟩ | ⟨hg, hall⟩
    · rw [hlen] at hk
      constructor
      · intro hall
        rw [hall k hk] at hkfree
        cases hkfree
      · intro hm
        rw [hg] at hm
        simp only at hm
        omega
    · constructor
      · intro _
        rw [hg]
      · intro _ i hi
        exact hall i (by rw [hlen]; exact hi)
  · intro hm
    rcases GetAvailablePort_cases (runPortCalls initialPorts calls).2 with
      ⟨k, hk, hg, -, -⟩ | ⟨hg, -⟩
    · rw [hg] at hm
      simp only at hm
      omega
    · exact hg

/-! ### Capture statistics -/

theorem u64Of_val (n : Nat) : (u64Of n).val = n % 18446744073709551616 := rfl

theorem u64Of_add (a : U64) (n m : Nat) : a + u64Of n + u64Of m = a + u64Of (n + m) := by
  apply Fin.ext
  simp only [Fin.val_add, u64Of_val]
  omega

theorem u64_add_one (a : U64) (n : Nat) : a + u64Of n + 1 = a + u64Of (n + 1) := by
  have : (1 : U64) = u64Of 1 := rfl
  rw [this, u64Of_add]

theorem u64_add_zero (a : U64) : a = a + u64Of 0 := by
  apply Fin.ext
  simp only [Fin.val_add, u64Of_val]
  have := a.isLt
  omega

/-- The seven counters after one `UpdateStatistics`. -/
theorem UpdateStatistics_fields (s : Statistics) (u : UsbUrb) :
    (UpdateStatistics s u).total_urbs = s.total_urbs + 1 ∧
    (UpdateStatistics s u).bytes_transferred = s.bytes_transferred + u64Of u.actual_length.val ∧
    (UpdateStatistics s u).errors = s.errors + u64Of (if u.status ≠ 0 then 1 else 0) ∧
    (UpdateStatistics s u).control_urbs
      = s.control_urbs + u64Of (if u.type = UsbTransferType.CONTROL then 1 else 0) ∧
    (UpdateStatistics s u).bulk_urbs
      = s.bulk_urbs + u64Of (if u.type = UsbTransferType.BULK then 1 else 0) ∧
    (UpdateStatistics s u).interrupt_urbs
      = s.interrupt_urbs + u64Of (if u.type = UsbTransferType.INTERRUPT then 1 else 0) ∧
    (UpdateStatistics s u).iso_urbs
      = s.iso_urbs + u64Of (if u.type = UsbTransferType.ISOCHRONOUS then 1 else 0) := by
  have h1 : (1 : U64) = u64Of 1 := rfl
  have e1 : UsbTransferType.CONTROL ≠ UsbTransferType.BULK := by decide
  have e2 : UsbTransferType.CONTROL ≠ UsbTransferType.INTERRUPT := by decide
  have e3 : UsbTransferType.CONTROL ≠ UsbTransferType.ISOCHRONOUS := by decide
  have e4 : UsbTransferType.BULK ≠ UsbTransferType.INTERRUPT := by decide
  have e5 : UsbTransferType.BULK ≠ UsbTransferType.ISOCHRONOUS := by decide
  have e6 : UsbTransferType.INTERRUPT ≠ UsbTransferType.ISOCHRONOUS := by decide
  unfold UpdateStatistics
  dsimp only
  by_cases hs : u.status = 0
  · by_cases hc : u.type = UsbTransferType.CONTROL
    · simp [hs, hc, e1, e2, e3, ← u64_add_zero, h1]
    · by_cases hb : u.type = UsbTransferType.BULK
      · simp [hs, hb, e1.symm, e4, e5, ← u64_add_zero, h1]
      · by_cases hi : u.type = UsbTransferType.INTERRUPT
        · simp [hs, hi, e2.symm, e4.symm, e6, ← u64_add_zero, h1]
        · by_cases hy : u.type = UsbTransferType.ISOCHRONOUS
          · simp [hs, hy, e3.symm, e5.symm, e6.symm, ← u64_add_zero, h1]
          · simp [hs, hc, hb, hi, hy, ← u64_add_zero, h1]
  · by_cases hc : u.type = UsbTransferType.CONTROL
    · simp [hs, hc, e1, e2, e3, ← u64_add_zero, h1]
    · by_cases hb : u.type = UsbTransferType.BULK
      · simp [hs, hb, e1.symm, e4, e5, ← u64_add_zero, h1]
      · by_cases hi : u.type = UsbTransferType.INTERRUPT
        · simp [hs, hi, e2.symm, e4.symm, e6, ← u64_add_zero, h1]
        · by_cases hy : u.type = UsbTransferType.ISOCHRONOUS
          · simp [hs, hy, e3.symm, e5.symm, e6.symm, ← u64_add_zero, h1]
          · simp [hs, hc, hb, hi, hy, ← u64_add_zero, h1]

/-- The counters after any sequence of URBs, from any starting values. -/
theorem updateAll_fields (urbs : List UsbUrb) (s : Statistics) :
    (updateAll s urbs).total_urbs = s.total_urbs + u64Of urbs.length ∧
    (updateAll s urbs).bytes_transferred = s.bytes_transferred + u64Of (totalBytes urbs) ∧
    (updateAll s urbs).errors = s.errors + u64Of (urbs.countP fun u => u.status ≠ 0) ∧
    (updateAll s urbs).control_urbs
      = s.control_urbs + u64Of (urbs.countP fun u => u.type = UsbTransferType.CONTROL) ∧
    (updateAll s urbs).bulk_urbs
      = s.bulk_urbs + u64Of (urbs.countP fun u => u.type = UsbTransferType.BULK) ∧
    (updateAll s urbs).interrupt_urbs
      = s.interrupt_urbs + u64Of (urbs.countP fun u => u.type = UsbTransferType.INTERRUPT) ∧
    (updateAll s urbs).iso_urbs
      = s.iso_urbs + u64Of (urbs.countP fun u => u.type = UsbTransferType.ISOCHRONOUS) := by
  induction urbs generalizing s with
  | nil =>
    refine ⟨?_, ?_, ?_, ?_, ?_, ?_, ?_⟩ <;> exact u64_add_zero _
  | cons u us ih =>
    have hstep : updateAll s (u :: us) = updateAll (UpdateStatistics s u) us := rfl
    obtain ⟨a1, a2, a3, a4, a5, a6, a7⟩ := ih (UpdateStatistics s u)
    obtain ⟨b1, b2, b3, b4, b5, b6, b7⟩ := UpdateStatistics_fields s u
    have h1 : (1 : U64) = u64Of 1 := rfl
    have hcount : ∀ p : UsbUrb → Bool,
        (u :: us).countP p = (if p u = true then 1 else 0) + us.countP p := by
      intro p
      rw [List.countP_cons]
      omega
    refine ⟨?_, ?_, ?_, ?_, ?_, ?_, ?_⟩
    · rw [hstep, a1, b1, h1, u64Of_add, List.length_cons, Nat.add_comm]
    · rw [hstep, a2, b2, u64Of_add]
      rfl
    · rw [hstep, a3, b3, u64Of_add, hcount]
      simp
    · rw [hstep, a4, b4, u64Of_add, hcount]
      simp
    · rw [hstep, a5, b5, u64Of_add, hcount]
      simp
    · rw [hstep, a6, b6, u64Of_add, hcount]
      simp
    · rw [hstep, a7, b7, u64Of_add, hcount]
      simp

theorem zero_add_u64Of (n : Nat) : ((0 : U64) + u64Of n).val = n % 18446744073709551616 := by
  simp only [Fin.val_add, u64Of_val]
  have : (0 : U64).val = 0 := rfl
  rw [this]
  omega

theorem totalBytes_replicate (n : Nat) (u : UsbUrb) :
    totalBytes (List.replicate n u) = n * u.actual_length.val := by
  unfold totalBytes
  rw [List.map_replicate, List.sum_replicate, smul_eq_mul]

/-- C23, as amended.  Starting from zeroed or reset statistics, after
`UpdateStatistics` has been applied to any sequence of URBs, each counter holds
its count modulo 2^64: `total_urbs` the number of URBs, the four type counters
the numbers of control, bulk, interrupt and isochronous URBs, `errors` the
number of URBs with `status != 0`, and `bytes_transferred` the sum of the
`actual_length` fields.  The six counts are exact for fewer than 2^64 URBs and
the byte sum is exact while it is below 2^64; each URB raises `total_urbs` by
one. -/
theorem statistics_after_urbs (urbs : List UsbUrb) (before : Statistics) :
    ResetStatistics before = Statistics.zero ∧
    (updateAll Statistics.zero urbs).total_urbs.val = urbs.length % 18446744073709551616 ∧
    (updateAll Statistics.zero urbs).control_urbs.val
      = (urbs.countP fun u => u.type = UsbTransferType.CONTROL) % 18446744073709551616 ∧
    (updateAll Statistics.zero urbs).bulk_urbs.val
      = (urbs.countP fun u => u.type = UsbTransferType.BULK) % 18446744073709551616 ∧
    (updateAll Statistics.zero urbs).interrupt_urbs.val
      = (urbs.countP fun u => u.type = UsbTransferType.INTERRUPT) % 18446744073709551616 ∧
    (updateAll Statistics.zero urbs).iso_urbs.val
      = (urbs.countP fun u => u.type = UsbTransferType.ISOCHRONOUS) % 18446744073709551616 ∧
    (updateAll Statistics.zero urbs).errors.val
      = (urbs.countP fun u => u.status ≠ 0) % 18446744073709551616 ∧
    (updateAll Statistics.zero urbs).bytes_transferred.val
      = totalBytes urbs % 18446744073709551616 ∧
    (urbs.length < 18446744073709551616 →
      (updateAll Statistics.zero urbs).total_urbs.val = urbs.length ∧
      (updateAll Statistics.zero urbs).control_urbs.val
        = (urbs.countP fun u => u.type = UsbTransferType.CONTROL) ∧
      (updateAll Statistics.zero urbs).bulk_urbs.val
        = (urbs.countP fun u => u.type = UsbTransferType.BULK) ∧
      (updateAll Statistics.zero urbs).interrupt_urbs.val
        = (urbs.countP fun u => u.type = UsbTransferType.INTERRUPT) ∧
      (updateAll Statistics.zero urbs).iso_urbs.val
        = (urbs.countP fun u => u.type = UsbTransferType.ISOCHRONOUS) ∧
      (updateAll Statistics.zero urbs).errors.val = (urbs.countP fun u => u.status ≠ 0)) ∧
    (totalBytes urbs < 18446744073709551616 →
      (updateAll Statistics.zero urbs).bytes_transferred.val = totalBytes urbs) ∧
    (∀ (s : Statistics) (u : UsbUrb), (UpdateStatistics s u).total_urbs = s.total_urbs + 1) := by
  obtain ⟨a1, a2, a3, a4, a5, a6, a7⟩ := updateAll_fields urbs Statistics.zero
  have z : ∀ n : Nat, (Statistics.zero.total_urbs + u64Of n).val = n % 18446744073709551616 :=
    zero_add_u64Of
  have c1 : (updateAll Statistics.zero urbs).total_urbs.val
      = urbs.length % 18446744073709551616 := by rw [a1]; exact zero_add_u64Of _
  have c2 : (updateAll Statistics.zero urbs).bytes_transferred.val
      = totalBytes urbs % 18446744073709551616 := by rw [a2]; exact zero_add_u64Of _
  have c3 : (updateAll Statistics.zero urbs).errors.val
      = (urbs.countP fun u => u.status ≠ 0) % 18446744073709551616 := by
    rw [a3]; exact zero_add_u64Of _
  have c4 : (updateAll Statistics.zero urbs).control_urbs.val
      = (urbs.countP fun u => u.type = UsbTransferType.CONTROL) % 18446744073709551616 := by
    rw [a4]; exact zero_add_u64Of _
  have c5 : (updateAll Statistics.zero urbs).bulk_urbs.val
      = (urbs.countP fun u => u.type = UsbTransferType.BULK) % 18446744073709551616 := by
    rw [a5]; exact zero_add_u64Of _
  have c6 : (updateAll Statistics.zero urbs).interrupt_urbs.val
      = (urbs.countP fun u => u.type = UsbTransferType.INTERRUPT) % 18446744073709551616 := by
    rw [a6]; exact zero_add_u64Of _
  have c7 : (updateAll Statistics.zero urbs).iso_urbs.val
      = (urbs.countP fun u => u.type = UsbTransferType.ISOCHRONOUS) % 18446744073709551616 := by
    rw [a7]; exact zero_add_u64Of _
  refine ⟨rfl, c1, c4, c5, c6, c7, c3, c2, fun hN => ?_, fun hB => ?_,
    fun s u => (UpdateStatistics_fields s u).1⟩
  · have hle : ∀ p : UsbUrb → Bool, urbs.countP p < 18446744073709551616 := fun p =>
      lt_of_le_of_lt (List.countP_le_length p) hN
    refine ⟨?_, ?_, ?_, ?_, ?_, ?_⟩
    · rw [c1, Nat.mod_eq_of_lt hN]
    · rw [c4, Nat.mod_eq_of_lt (hle _)]
    · rw [c5, Nat.mod_eq_of_lt (hle _)]
    · rw [c6, Nat.mod_eq_of_lt (hle _)]
    · rw [c7, Nat.mod_eq_of_lt (hle _)]
    · rw [c3, Nat.mod_eq_of_lt (hle _)]
  · rw [c2, Nat.mod_eq_of_lt hB]

/-- C23, as stated, fails.  After 4,294,967,298 URBs that each report
`actual_length = 0xFFFFFFFF` the sum of the lengths is 18,446,744,078,004,518,910
and `bytes_transferred`, a `uint64_t`, reads 4,294,967,294. -/
theorem bytes_transferred_wraps :
    totalBytes (List.replicate 4294967298 fullLengthUrb) = 18446744078004518910 ∧
    (updateAll Statistics.zero (List.replicate 4294967298 fullLengthUrb)).bytes_transferred.val
      = 4294967294 := by
  have ht := totalBytes_replicate 4294967298 fullLengthUrb
  have hl : fullLengthUrb.actual_length.val = 4294967295 := rfl
  rw [hl] at ht
  refine ⟨by rw [ht], ?_⟩
  rw [(updateAll_fields _ Statistics.zero).2.1, ht]
  have hz : Statistics.zero.bytes_transferred = 0 := rfl
  rw [hz, zero_add_u64Of]

/-! ### Sending on the listening socket -/

theorem AcceptThread_is_connected (accepted : List Int) (s : TcpSocket) :
    (s.AcceptThread accepted).is_connected = s.is_connected := by
  induction accepted generalizing s with
  | nil => rfl
  | cons fd fds ih =>
    unfold TcpSocket.AcceptThread
    split_ifs
    · exact ih s
    · rw [ih]

theorem Listen_is_connected (s : TcpSocket) (bind_addr : String) (sys : ListenCalls) :
    (s.Listen bind_addr sys).2.is_connected = s.is_connected := by
  unfold TcpSocket.Listen
  dsimp only
  split_ifs <;> rfl

/-- A socket that was never connected with `Connect` has `is_connected_` false,
and `Send` on it writes nothing and returns false, whatever the operating
system would have answered. -/
theorem Send_on_server_socket (s : TcpSocket) (hs : ServerSocket s) (data : List Byte)
    (results : List SendResult) :
    s.is_connected = false ∧ s.Send data results = some (false, []) := by
  have hc : s.is_connected = false := by
    induction hs with
    | new => rfl
    | listen s bind_addr sys _ ih => rw [Listen_is_connected]; exact ih
    | accept s accepted _ ih => rw [AcceptThread_is_connected]; exact ih
  refine ⟨hc, ?_⟩
  unfold TcpSocket.Send
  simp [hc]

/-- C24, evaluated at a failing input.  The sender has listened successfully
on descriptor 3 and accepted a client on descriptor 4; handling a
DEVICE_LIST_REQUEST with one device to report, `Send` returns false and
writes no byte, although the operating system would have taken the whole
frame at once. -/
theorem device_list_response_is_not_sent :
    (TcpSocket.Listen TcpSocket.new "0.0.0.0" ⟨3, 0, 1, 0, 0⟩).1 = true ∧
    senderSocket.is_listening = true ∧ senderSocket.socket_fd = 3 ∧
    senderSocket.client_fds = [4] ∧ senderSocket.is_connected = false ∧
    (SerializeMessage .little (CreateDeviceListResponse .little [testDevice] 1).1).length = 344 ∧
    HandleDeviceListRequest .little senderSocket [testDevice] 1 [SendResult.sent 344]
      = (some (false, []), 2) := by
  have h1 : (TcpSocket.Listen TcpSocket.new "0.0.0.0" ⟨3, 0, 1, 0, 0⟩).1 = true := by decide
  have h2 : senderSocket.is_listening = true := by decide
  have h3 : senderSocket.socket_fd = 3 := by decide
  have h4 : senderSocket.client_fds = [4] := by decide
  have h5 : senderSocket.is_connected = false := by decide
  have h6 : (SerializeMessage .little
      (CreateDeviceListResponse .little [testDevice] 1).1).length = 344 := by
    rw [length_SerializeMessage]
    have : (CreateDeviceListResponse .little [testDevice] 1).1.payload
        = SerializeDeviceList .little [testDevice] := rfl
    rw [this, SerializeDeviceList_eq]
    simp only [List.map_cons, List.map_nil, List.flatten_cons, List.flatten_nil,
      List.length_append, length_be32, length_storeDeviceInfo, List.length_nil]
  have h7 : HandleDeviceListRequest .little senderSocket [testDevice] 1 [SendResult.sent 344]
      = (some (false, []), 2) := by
    unfold HandleDeviceListRequest TcpSocket.Send
    simp only [h5]
    rfl
  exact ⟨h1, h2, h3, h4, h5, h6, h7⟩

/-! ### The status wrapper check of the mass-storage driver -/

theorem load32_eq_iff (h : ByteOrder) (bs : List Byte) (x : U32) (hlen : 4 ≤ bs.length) :
    load32 h bs = x ↔ bs.take 4 = store32 h x := by
  obtain ⟨a, b, c, d, rest, rfl⟩ : ∃ a b c d rest, bs = a :: b :: c :: d :: rest := by
    rcases bs with _ | ⟨a, _ | ⟨b, _ | ⟨c, _ | ⟨d, rest⟩⟩⟩⟩
    · simp at hlen
    · simp at hlen
    · simp at hlen
    · simp at hlen
    · exact ⟨a, b, c, d, rest, rfl⟩
  cases h
  · show fromBE32 d c b a = x ↔ [a, b, c, d] = (be32 x).reverse
    constructor
    · intro hx
      rw [← hx, be32_fromBE32]
      rfl
    · intro hx
      have : be32 x = [d, c, b, a] := by
        have := congrArg List.reverse hx
        rw [List.reverse_reverse] at this
        exact this.symm
      simp only [be32, List.cons.injEq, and_true] at this
      obtain ⟨h1, h2, h3, h4⟩ := this
      rw [← fromBE32_be32 x, h1, h2, h3, h4]
  · show fromBE32 a b c d = x ↔ [a, b, c, d] = be32 x
    constructor
    · intro hx
      rw [← hx, be32_fromBE32]
    · intro hx
      have := hx.symm
      simp only [be32, List.cons.injEq, and_true] at this
      obtain ⟨h1, h2, h3, h4⟩ := this
      rw [← fromBE32_be32 x, h1, h2, h3, h4]

/-- C25, as amended.  `ReceiveCSW(csw, expected_tag)` returns true if and only
if the IN bulk transfer succeeded with exactly 13 bytes, the signature field
(bytes 0..3 in host byte order) is `0x53425355` and the tag field (bytes 4..7
in host byte order) equals `expected_tag`; on a little-endian host the
signature bytes are then `55 53 42 53`, "USBS".  The status byte is not
examined: changing byte 12 of the received bytes never changes the result. -/
theorem ReceiveCSW_success_iff (h : ByteOrder) (transfer : BulkTransferResult)
    (expected_tag : U32) :
    ((ReceiveCSW h transfer expected_tag).1 = true ↔
      transfer.ok = true ∧ transfer.actual_length = 13 ∧
      (ReceiveCSW h transfer expected_tag).2.dCSWSignature = 0x53425355 ∧
      (ReceiveCSW h transfer expected_tag).2.dCSWTag = expected_tag) ∧
    ((ReceiveCSW h transfer expected_tag).2.dCSWSignature = 0x53425355 ↔
      (resize transfer.buffer 13).take 4 = store32 h 0x53425355) ∧
    ((ReceiveCSW h transfer expected_tag).2.dCSWTag = expected_tag ↔
      ((resize transfer.buffer 13).drop 4).take 4 = store32 h expected_tag) ∧
    store32 .little 0x53425355 = [0x55, 0x53, 0x42, 0x53] ∧
    (∀ status : Byte,
      (ReceiveCSW h { transfer with buffer := (resize transfer.buffer 13).set 12 status }
          expected_tag).1
        = (ReceiveCSW h transfer expected_tag).1 ∧
      (ReceiveCSW h { transfer with buffer := (resize transfer.buffer 13).set 12 status }
          expected_tag).2.bCSWStatus = status) := by
  have hl : (resize transfer.buffer 13).length = 13 := length_resize _ _
  refine ⟨?_, ?_, ?_, by decide, ?_⟩
  · unfold ReceiveCSW
    dsimp only
    by_cases hok : transfer.ok = true
    · by_cases hal : transfer.actual_length = 13
      · simp [hok, hal, sizeofCommandStatusWrapper, CSW_SIGNATURE]
      · simp [hok, hal, sizeofCommandStatusWrapper]
    · simp [hok]
  · have : (ReceiveCSW h transfer expected_tag).2.dCSWSignature
        = load32 h (resize transfer.buffer 13) := by
      unfold ReceiveCSW
      dsimp only
      split_ifs <;> rfl
    rw [this]
    exact load32_eq_iff h _ _ (by rw [hl]; decide)
  · have : (ReceiveCSW h transfer expected_tag).2.dCSWTag
        = load32 h ((resize transfer.buffer 13).drop 4) := by
      unfold ReceiveCSW
      dsimp only
      split_ifs <;> rfl
    rw [this]
    exact load32_eq_iff h _ _ (by rw [List.length_drop, hl]; decide)
  · intro status
    obtain ⟨b0, b1, b2, b3, b4, b5, b6, b7, b8, b9, b10, b11, b12, hb⟩ :
        ∃ b0 b1 b2 b3 b4 b5 b6 b7 b8 b9 b10 b11 b12,
          resize transfer.buffer 13 = [b0, b1, b2, b3, b4, b5, b6, b7, b8, b9, b10, b11, b12] := by
      generalize resize transfer.buffer 13 = l at hl
      rcases l with _ | ⟨b0, _ | ⟨b1, _ | ⟨b2, _ | ⟨b3, _ | ⟨b4, _ | ⟨b5, _ | ⟨b6, _ | ⟨b7,
        _ | ⟨b8, _ | ⟨b9, _ | ⟨b10, _ | ⟨b11, _ | ⟨b12, _ | ⟨b13, rest⟩⟩⟩⟩⟩⟩⟩⟩⟩⟩⟩⟩⟩⟩ <;>
        simp at hl
      exact ⟨b0, b1, b2, b3, b4, b5, b6, b7, b8, b9, b10, b11, b12, rfl⟩
    unfold ReceiveCSW
    dsimp only
    rw [hb]
    have hr : resize ([b0, b1, b2, b3, b4, b5, b6, b7, b8, b9, b10, b11, b12].set 12 status)
        sizeofCommandStatusWrapper
        = [b0, b1, b2, b3, b4, b5, b6, b7, b8, b9, b10, b11, status] := rfl
    rw [hr]
    have hr2 : resize transfer.buffer sizeofCommandStatusWrapper
        = [b0, b1, b2, b3, b4, b5, b6, b7, b8, b9, b10, b11, b12] := hb
    rw [hr2]
    constructor
    · split_ifs <;> rfl
    · split_ifs <;> rfl

/-- C25, as stated, fails.  The transfer delivers 13 bytes with the signature
"USBS", the expected tag 1 and the status byte 7, which is none of 0, 1, 2,
and `ReceiveCSW` returns true. -/
theorem csw_with_status_7_is_accepted :
    (ReceiveCSW .little cswWithStatus7 1).1 = true ∧
    (ReceiveCSW .little cswWithStatus7 1).2.bCSWStatus = 7 ∧
    cswWithStatus7.buffer.getD 12 0 = 7 ∧
    cswWithStatus7.buffer.take 4 = [0x55, 0x53, 0x42, 0x53] := by
  decide

/-! ### The descriptor walk of `FindEndpoints` -/

theorem structAt_some (config_desc : List Byte) (offset size : Nat)
    (hin : offset + size ≤ config_desc.length) :
    structAt config_desc offset size = some ((config_desc.drop offset).take size) := by
  unfold structAt
  rw [if_pos hin]

/-- One iteration inside the descriptor: it never reads outside, and it either
leaves the loop or moves the offset forward by the length byte of the
descriptor, which is at least 1 and keeps the offset inside. -/
theorem iteration_cases (h : ByteOrder) (config_desc : List Byte) (offset : Nat)
    (dev : MassStorageDevice) (_hoff : offset < config_desc.length) :
    (∃ dev2, FindEndpoints.iteration h config_desc offset dev = .leave dev2) ∨
    (∃ (desc_length : Byte) (dev2 : MassStorageDevice),
      config_desc[offset]? = some desc_length ∧ 1 ≤ desc_length.val ∧
      offset + desc_length.val ≤ config_desc.length ∧
      FindEndpoints.iteration h config_desc offset dev = .next (offset + desc_length.val) dev2 ∧
      (dev2 ≠ dev → 7 ≤ desc_length.val)) := by
  unfold FindEndpoints.iteration
  by_cases h2 : offset + 2 > config_desc.length
  · left
    rw [if_pos h2]
    exact ⟨dev, rfl⟩
  · rw [if_neg h2]
    have hlt0 : offset < config_desc.length := by omega
    have hlt1 : offset + 1 < config_desc.length := by omega
    have e0 : config_desc[offset]? = some config_desc[offset] :=
      List.getElem?_eq_getElem hlt0
    have e1 : config_desc[offset + 1]? = some config_desc[offset + 1] :=
      List.getElem?_eq_getElem hlt1
    rw [e0, e1]
    dsimp only
    generalize config_desc[offset] = desc_length at e0
    generalize config_desc[offset + 1] = desc_type
    by_cases hstop : desc_length = 0 ∨ offset + desc_length.val > config_desc.length
    · left
      rw [if_pos hstop]
      exact ⟨dev, rfl⟩
    · right
      rw [if_neg hstop]
      have hne : desc_length ≠ 0 := fun hz => hstop (Or.inl hz)
      have hpos : 1 ≤ desc_length.val := by
        rcases Nat.eq_zero_or_pos desc_length.val with hz | hp
        · exact absurd (Fin.ext hz) hne
        · exact hp
      have hin : offset + desc_length.val ≤ config_desc.length := by
        by_contra hc
        exact hstop (Or.inr (by omega))
      by_cases hi : desc_type = DESCRIPTOR_INTERFACE
      · rw [if_pos hi]
        by_cases h9 : desc_length.val ≥ 9
        · rw [if_pos h9, structAt_some config_desc offset 9 (by omega)]
          dsimp only
          split_ifs
          · exact ⟨desc_length, _, rfl, hpos, hin, rfl, fun _ => by omega⟩
          · exact ⟨desc_length, _, rfl, hpos, hin, rfl, fun hd => absurd rfl hd⟩
        · rw [if_neg h9]
          exact ⟨desc_length, _, rfl, hpos, hin, rfl, fun hd => absurd rfl hd⟩
      · rw [if_neg hi]
        by_cases he : desc_type = DESCRIPTOR_ENDPOINT
        · rw [if_pos he]
          by_cases h7 : desc_length.val ≥ 7 ∧ dev.interface_number ≥ 0
          · rw [if_pos h7, structAt_some config_desc offset 7 (by omega)]
            dsimp only
            split_ifs
            · exact ⟨desc_length, _, rfl, hpos, hin, rfl, fun _ => h7.1⟩
            · exact ⟨desc_length, _, rfl, hpos, hin, rfl, fun _ => h7.1⟩
            · exact ⟨desc_length, _, rfl, hpos, hin, rfl, fun hd => absurd rfl hd⟩
          · rw [if_neg h7]
            exact ⟨desc_length, _, rfl, hpos, hin, rfl, fun hd => absurd rfl hd⟩
        · rw [if_neg he]
          exact ⟨desc_length, _, rfl, hpos, hin, rfl, fun hd => absurd rfl hd⟩

/-- The loop ends, without a read outside the descriptor, within as many
iterations as there are bytes left, plus one. -/
theorem loop_terminates (h : ByteOrder) (config_desc : List Byte) (fuel offset : Nat)
    (dev : MassStorageDevice) (hfuel : config_desc.length - offset < fuel) :
    ∃ dev2, FindEndpoints.loop h config_desc fuel offset dev = some dev2 := by
  induction fuel generalizing offset dev with
  | zero => omega
  | succ fuel ih =>
    unfold FindEndpoints.loop
    by_cases hoff : offset < config_desc.length
    · rw [if_pos hoff]
      rcases iteration_cases h config_desc offset dev hoff with
        ⟨dev2, hl⟩ | ⟨len, dev2, -, hpos, hin, hn, -⟩
      · rw [hl]
        exact ⟨dev2, rfl⟩
      · rw [hn]
        exact ih (offset + len.val) dev2 (by omega)
    · rw [if_neg hoff]
      exact ⟨dev, rfl⟩

/-- More iterations than needed do not change the result of the loop. -/
theorem loop_fuel (h : ByteOrder) (config_desc : List Byte) (fuel1 fuel2 offset : Nat)
    (dev : MassStorageDevice) (h1 : config_desc.length - offset < fuel1)
    (h2 : config_desc.length - offset < fuel2) :
    FindEndpoints.loop h config_desc fuel1 offset dev
      = FindEndpoints.loop h config_desc fuel2 offset dev := by
  induction fuel1 generalizing fuel2 offset dev with
  | zero => omega
  | succ fuel1 ih =>
    cases fuel2 with
    | zero => omega
    | succ fuel2 =>
      unfold FindEndpoints.loop
      by_cases hoff : offset < config_desc.length
      · rw [if_pos hoff, if_pos hoff]
        rcases iteration_cases h config_desc offset dev hoff with
          ⟨dev2, hl⟩ | ⟨len, dev2, -, hpos, hin, hn, -⟩
        · rw [hl]
        · rw [hn]
          exact ih fuel2 (offset + len.val) dev2 (by omega) (by omega)
      · rw [if_neg hoff, if_neg hoff]

/-- C29.  For every byte string given as configuration descriptor, every host
byte order and every state of the device: an iteration of the parsing loop of
`FindEndpoints` at an offset inside the string never reads outside the string
(a read outside is the outcome `fault`, and interface and endpoint fields are
read through a view of 9 and of 7 bytes that must lie inside); it either leaves
the loop or moves the offset forward by the length byte of the descriptor,
which is at least 1 and leaves the offset inside the string, and it changes
the device only for a descriptor of at least 7 bytes; the loop ends within
`size - offset + 1` iterations, whatever larger bound is given, and
`FindEndpoints` returns a result. -/
theorem FindEndpoints_terminates_in_bounds (h : ByteOrder) (config_desc : List Byte)
    (dev : MassStorageDevice) :
    (∀ offset, offset < config_desc.length →
      FindEndpoints.iteration h config_desc offset dev ≠ .fault ∧
      ∀ offset2 dev2, FindEndpoints.iteration h config_desc offset dev = .next offset2 dev2 →
        ∃ desc_length : Byte, config_desc[offset]? = some desc_length ∧
          1 ≤ desc_length.val ∧ offset2 = offset + desc_length.val ∧
          offset2 ≤ config_desc.length ∧ (dev2 ≠ dev → 7 ≤ desc_length.val)) ∧
    (∀ offset fuel, config_desc.length - offset < fuel →
      ∃ dev2, FindEndpoints.loop h config_desc fuel offset dev = some dev2 ∧
        FindEndpoints.loop h config_desc (config_desc.length - offset + 1) offset dev
          = some dev2) ∧
    (∃ r, FindEndpoints h config_desc dev = some r) := by
  refine ⟨fun offset hoff => ?_, fun offset fuel hfuel => ?_, ?_⟩
  · rcases iteration_cases h config_desc offset dev hoff with
      ⟨dev2, hl⟩ | ⟨len, dev2, e0, hpos, hin, hn, hch⟩
    · rw [hl]
      refine ⟨fun hc => Iteration.noConfusion hc, fun o d hc => Iteration.noConfusion hc⟩
    · rw [hn]
      refine ⟨fun hc => Iteration.noConfusion hc, fun o d hc => ?_⟩
      cases hc
      exact ⟨len, e0, hpos, rfl, hin, hch⟩
  · obtain ⟨dev2, hd⟩ := loop_terminates h config_desc fuel offset dev hfuel
    refine ⟨dev2, hd, ?_⟩
    rw [← hd]
    exact loop_fuel h config_desc _ _ offset dev (by omega) hfuel
  · unfold FindEndpoints
    split_ifs
    · exact ⟨_, rfl⟩
    · obtain ⟨dev2, hd⟩ :=
        loop_terminates h config_desc (config_desc.length + 1) 0 dev (by omega)
      rw [hd]
      exact ⟨_, rfl⟩

/-! ### What `FindEndpoints` selects -/

theorem shiftLeft_or_bytes (a b c d : Nat) (hb : b < 256) (hc : c < 256) (hd : d < 256) :
    a <<< 24 ||| b <<< 16 ||| c <<< 8 ||| d = a * 16777216 + b * 65536 + c * 256 + d := by
  have s1 := Nat.mul_add_lt_is_or (i := 24) (b := b * 65536) (by norm_num; omega) a
  have s2 := Nat.mul_add_lt_is_or (i := 16) (b := c * 256) (by norm_num; omega) (a * 256 + b)
  have s3 := Nat.mul_add_lt_is_or (i := 8) (b := d) (by norm_num; omega)
    (a * 65536 + b * 256 + c)
  simp only [Nat.reducePow] at s1 s2 s3
  simp only [Nat.shiftLeft_eq, Nat.reducePow]
  have e1 : a * 16777216 = 16777216 * a := Nat.mul_comm _ _
  have e2 : 16777216 * a + b * 65536 = 65536 * (a * 256 + b) := by omega
  have e3 : 65536 * (a * 256 + b) + c * 256 = 256 * (a * 65536 + b * 256 + c) := by omega
  rw [e1, ← s1, e2, ← s2, e3, ← s3]

theorem shiftOr32_eq (d : List Byte) (i : Nat) :
    shiftOr32 d i
      = fromBE32 (d.getD i 0) (d.getD (i + 1) 0) (d.getD (i + 2) 0) (d.getD (i + 3) 0) := by
  unfold shiftOr32 fromBE32
  rw [shiftLeft_or_bytes _ _ _ _ (d.getD (i + 1) 0).isLt (d.getD (i + 2) 0).isLt
    (d.getD (i + 3) 0).isLt]

theorem shiftOr64_step (tb : U64) (b : Byte) (hk : tb.val < 72057594037927936) :
    (shiftOrStep tb b).val = tb.val * 256 + b.val := by
  have hb := b.isLt
  have s := Nat.mul_add_lt_is_or (i := 8) (b := b.val) (by norm_num) tb.val
  simp only [Nat.reducePow] at s
  simp only [shiftOrStep, u64Of_val, Nat.shiftLeft_eq, Nat.reducePow]
  rw [Nat.mod_eq_of_lt (a := tb.val * 256) (by omega), Nat.mul_comm, ← s]
  exact Nat.mod_eq_of_lt (by omega)

theorem shiftOr64_eq (d : List Byte) :
    shiftOr64 d
      = fromBE64 (d.getD 0 0) (d.getD 1 0) (d.getD 2 0) (d.getD 3 0) (d.getD 4 0) (d.getD 5 0)
          (d.getD 6 0) (d.getD 7 0) := by
  have hr : List.range 8 = [0, 1, 2, 3, 4, 5, 6, 7] := by decide
  unfold shiftOr64
  rw [hr]
  simp only [List.foldl_cons, List.foldl_nil]
  generalize d.getD 0 0 = b0
  generalize d.getD 1 0 = b1
  generalize d.getD 2 0 = b2
  generalize d.getD 3 0 = b3
  generalize d.getD 4 0 = b4
  generalize d.getD 5 0 = b5
  generalize d.getD 6 0 = b6
  generalize d.getD 7 0 = b7
  have h0 := b0.isLt
  have h1 := b1.isLt
  have h2 := b2.isLt
  have h3 := b3.isLt
  have h4 := b4.isLt
  have h5 := b5.isLt
  have h6 := b6.isLt
  have h7 := b7.isLt
  have z : (0 : U64).val = 0 := rfl
  have v1 : (shiftOrStep 0 b0).val = b0.val := by
    rw [shiftOr64_step 0 b0 (by rw [z]; decide), z]; omega
  generalize shiftOrStep 0 b0 = t1 at v1 ⊢
  have v2 := shiftOr64_step t1 b1 (by omega)
  generalize shiftOrStep t1 b1 = t2 at v2 ⊢
  have v3 := shiftOr64_step t2 b2 (by omega)
  generalize shiftOrStep t2 b2 = t3 at v3 ⊢
  have v4 := shiftOr64_step t3 b3 (by omega)
  generalize shiftOrStep t3 b3 = t4 at v4 ⊢
  have v5 := shiftOr64_step t4 b4 (by omega)
  generalize shiftOrStep t4 b4 = t5 at v5 ⊢
  have v6 := shiftOr64_step t5 b5 (by omega)
  generalize shiftOrStep t5 b5 = t6 at v6 ⊢
  have v7 := shiftOr64_step t6 b6 (by omega)
  generalize shiftOrStep t6 b6 = t7 at v7 ⊢
  have v8 := shiftOr64_step t7 b7 (by omega)
  apply Fin.ext
  rw [v8]
  simp only [fromBE64, u64Of_val]
  omega

theorem resize_self (v : List Byte) (n : Nat) (hn : v.length = n) : resize v n = v := by
  unfold resize
  rw [← hn, List.take_length, Nat.sub_self]
  simp

theorem TransferData_ok (data : List Byte) (length : U32) (t : BulkTransferResult)
    (hne : length ≠ 0) (hok : t.ok = true) (hal : u32OfInt t.actual_length = length)
    (hlen : t.buffer.length = length.val) :
    TransferData data length t = (true, t.buffer) := by
  unfold TransferData
  rw [if_neg hne, resize_self _ _ hlen, hok, hal]
  simp

/-- The reference arguments after `GetCapacity`, when READ CAPACITY (16)
delivers its data. -/
theorem GetCapacity_16 (h : ByteOrder) (dev : MassStorageDevice) (total_blocks : U64)
    (block_size : U32) (io : CapacityTransfers)
    (hs : SendCBW io.cbw16 = true) (ht : TransferData [] 32 io.data16 = (true, io.data16.buffer))
    (hlen : io.data16.buffer.length = 32) :
    (GetCapacity h dev total_blocks block_size io).2.1 = shiftOr64 io.data16.buffer + 1 ∧
    (GetCapacity h dev total_blocks block_size io).2.2.1 = shiftOr32 io.data16.buffer 8 := by
  unfold GetCapacity
  simp only [hs, ht, hlen, Bool.not_true, Bool.false_eq_true, if_false, ge_iff_le, le_refl,
    if_true]
  constructor <;> split_ifs <;> rfl

/-- The reference arguments after `GetCapacity`, when READ CAPACITY (16) fails
and READ CAPACITY (10) delivers its data. -/
theorem GetCapacity_10 (h : ByteOrder) (dev : MassStorageDevice) (total_blocks : U64)
    (block_size : U32) (io : CapacityTransfers)
    (hs : SendCBW io.cbw16 = true) (hf : (TransferData [] 32 io.data16).1 = false)
    (hs2 : SendCBW io.cbw10 = true)
    (ht : TransferData (TransferData [] 32 io.data16).2 8 io.data10 = (true, io.data10.buffer))
    (hlen : io.data10.buffer.length = 8) :
    (GetCapacity h dev total_blocks block_size io).2.1
      = u64Of (shiftOr32 io.data10.buffer 0).val + 1 ∧
    (GetCapacity h dev total_blocks block_size io).2.2.1 = shiftOr32 io.data10.buffer 4 := by
  unfold GetCapacity
  simp only [hs, hf, hs2, ht, hlen, Bool.not_true, Bool.not_false, Bool.false_eq_true, if_false,
    ge_iff_le, le_refl, if_true]
  constructor <;> split_ifs <;> rfl

/-- C27, as amended.  In capacity discovery, when the READ CAPACITY (16)
command is sent and its 32-byte response `d` arrives, the driver sets
`total_blocks` to the big-endian value of bytes 0..7 plus 1, modulo 2^64, and
`block_size` to the big-endian value of bytes 8..11 of the response, not of its
trailing 4 bytes.  When READ CAPACITY (16) fails and the 8-byte response `d` of
READ CAPACITY (10) arrives, it sets `total_blocks` to the big-endian value of
bytes 0..3 plus 1 and `block_size` to the big-endian value of bytes 4..7. -/
theorem capacity_parsing (h : ByteOrder) (dev : MassStorageDevice) (total_blocks : U64)
    (block_size : U32) (io : CapacityTransfers) :
    (SendCBW io.cbw16 = true → io.data16.ok = true → io.data16.actual_length = 32 →
      io.data16.buffer.length = 32 →
      (GetCapacity h dev total_blocks block_size io).2.1
        = fromBE64 (io.data16.buffer.getD 0 0) (io.data16.buffer.getD 1 0)
            (io.data16.buffer.getD 2 0) (io.data16.buffer.getD 3 0)
            (io.data16.buffer.getD 4 0) (io.data16.buffer.getD 5 0)
            (io.data16.buffer.getD 6 0) (io.data16.buffer.getD 7 0) + 1 ∧
      (GetCapacity h dev total_blocks block_size io).2.2.1
        = fromBE32 (io.data16.buffer.getD 8 0) (io.data16.buffer.getD 9 0)
            (io.data16.buffer.getD 10 0) (io.data16.buffer.getD 11 0)) ∧
    (SendCBW io.cbw16 = true → (TransferData [] 32 io.data16).1 = false →
      SendCBW io.cbw10 = true → io.data10.ok = true → io.data10.actual_length = 8 →
      io.data10.buffer.length = 8 →
      (GetCapacity h dev total_blocks block_size io).2.1.val
        = (fromBE32 (io.data10.buffer.getD 0 0) (io.data10.buffer.getD 1 0)
            (io.data10.buffer.getD 2 0) (io.data10.buffer.getD 3 0)).val + 1 ∧
      (GetCapacity h dev total_blocks block_size io).2.2.1
        = fromBE32 (io.data10.buffer.getD 4 0) (io.data10.buffer.getD 5 0)
            (io.data10.buffer.getD 6 0) (io.data10.buffer.getD 7 0)) := by
  constructor
  · intro hs hok hal hlen
    have ht : TransferData [] 32 io.data16 = (true, io.data16.buffer) :=
      TransferData_ok [] 32 io.data16 (by decide) hok (by rw [hal]; rfl) hlen
    obtain ⟨a, b⟩ := GetCapacity_16 h dev total_blocks block_size io hs ht hlen
    rw [a, b, shiftOr64_eq, shiftOr32_eq]
    exact ⟨rfl, rfl⟩
  · intro hs hf hs2 hok hal hlen
    have ht : TransferData (TransferData [] 32 io.data16).2 8 io.data10
        = (true, io.data10.buffer) :=
      TransferData_ok _ 8 io.data10 (by decide) hok (by rw [hal]; rfl) hlen
    obtain ⟨a, b⟩ := GetCapacity_10 h dev total_blocks block_size io hs hf hs2 ht hlen
    rw [a, b, shiftOr32_eq, shiftOr32_eq]
    refine ⟨?_, rfl⟩
    simp only [Nat.zero_add]
    have hlt := (fromBE32 (io.data10.buffer.getD 0 0) (io.data10.buffer.getD 1 0)
      (io.data10.buffer.getD 2 0) (io.data10.buffer.getD 3 0)).isLt
    have h1 : (1 : U64).val = 1 := rfl
    rw [Fin.val_add, u64Of_val, h1]
    omega

/-- Witness for `capacity_parsing`: a READ CAPACITY (16) response with last
block `0x3FF` and block length 512, and a READ CAPACITY (10) response with
last block `0x3FF` and block length 512. -/
theorem capacity_parsing_witness :
    ((GetCapacity .little MassStorageDevice.new 0 512
        (readCapacity16Transfers capacity16Response)).2.1
        = fromBE64 0 0 0 0 0 0 0x03 0xFF + 1 ∧
      (GetCapacity .little MassStorageDevice.new 0 512
        (readCapacity16Transfers capacity16Response)).2.2.1 = fromBE32 0 0 0x02 0x00) ∧
    ((GetCapacity .little MassStorageDevice.new 0 0
        (readCapacity10Transfers [0, 0, 0x03, 0xFF, 0, 0, 0x02, 0])).2.1.val
        = (fromBE32 0 0 0x03 0xFF).val + 1 ∧
      (GetCapacity .little MassStorageDevice.new 0 0
        (readCapacity10Transfers [0, 0, 0x03, 0xFF, 0, 0, 0x02, 0])).2.2.1
        = fromBE32 0 0 0x02 0) :=
  ⟨(capacity_parsing .little MassStorageDevice.new 0 512
      (readCapacity16Transfers capacity16Response)).1 (by decide) (by decide) (by decide)
      (by decide),
   (capacity_parsing .little MassStorageDevice.new 0 0
      (readCapacity10Transfers [0, 0, 0x03, 0xFF, 0, 0, 0x02, 0])).2 (by decide) (by decide)
      (by decide) (by decide) (by decide) (by decide)⟩

/-- C27, as stated, fails.  For the 32-byte READ CAPACITY (16) response with
last block `0x3FF`, the bytes `00 00 02 00` at offsets 8..11 and zero in its
trailing 4 bytes, the driver sets `block_size` to 512, not to 0; and for a
response whose bytes 0..7 are all `FF` it sets `total_blocks` to 0, not to
2^64. -/
theorem block_size_is_read_at_offset_8 :
    capacity16Response.length = 32 ∧
    (capacity16Response.drop 28) = [0, 0, 0, 0] ∧
    (GetCapacity .little MassStorageDevice.new 0 0
      (readCapacity16Transfers capacity16Response)).1 = true ∧
    (GetCapacity .little MassStorageDevice.new 0 0
      (readCapacity16Transfers capacity16Response)).2.1 = 1024 ∧
    (GetCapacity .little MassStorageDevice.new 0 0
      (readCapacity16Transfers capacity16Response)).2.2.1 = 512 ∧
    (GetCapacity .little MassStorageDevice.new 0 0
      (readCapacity16Transfers capacity16FullResponse)).2.1 = 0 := by
  decide

/-! ### The receive buffer after `ProcessReceivedData` -/

/-- The loop of `ProcessReceivedData`, one iteration at a time. -/
theorem processLoop_iteration (h : ByteOrder) (fuel : Nat) (buf : List Byte) :
    processLoop h (fuel + 1) buf
      = match loopIteration h buf with
        | none => some ([], buf)
        | some (delivered, next) =>
          (processLoop h fuel next).map fun r => (delivered ++ r.1, r.2) := by
  rw [processLoop]
  unfold loopIteration
  dsimp only
  split_ifs with h1 h2 h3 h4
  · rfl
  · cases hs : search buf.tail (store32 h MESSAGE_MAGIC) with
    | some k =>
      dsimp only
      cases processLoop h fuel (buf.drop (k + 1)) with
      | none => rfl
      | some r => rfl
    | none =>
      dsimp only
      cases processLoop h fuel [] with
      | none => rfl
      | some r => rfl
  · dsimp only
    cases processLoop h fuel (buf.drop sizeofMessageHeader) with
    | none => rfl
    | some r => rfl
  · rfl
  · dsimp only
    cases processLoop h fuel (buf.drop (sizeofMessageHeader + (readHeader h buf).length.val)) with
    | none => rfl
    | some r => rfl
  · dsimp only
    cases processLoop h fuel (buf.drop (sizeofMessageHeader + (readHeader h buf).length.val)) with
    | none => rfl
    | some r => rfl

/-- An iteration that does not leave the loop removes at least one byte. -/
theorem loopIteration_shorter (h : ByteOrder) (buf : List Byte)
    (delivered : List NetworkMessage) (next : List Byte)
    (hi : loopIteration h buf = some (delivered, next)) : next.length < buf.length := by
  unfold loopIteration at hi
  dsimp only at hi
  split_ifs at hi with h1 h2 h3 h4
  · have h20 : 20 ≤ buf.length := by
      simp only [sizeofMessageHeader, not_lt] at h1
      exact h1
    cases hs : search buf.tail (store32 h MESSAGE_MAGIC) with
    | some k =>
      rw [hs] at hi
      cases hi
      rw [List.length_drop]
      omega
    | none =>
      rw [hs] at hi
      cases hi
      simp only [List.length_nil]
      omega
  · have h20 : 20 ≤ buf.length := by
      simp only [sizeofMessageHeader, not_lt] at h1
      exact h1
    cases hi
    rw [List.length_drop]
    simp only [sizeofMessageHeader]
    omega
  all_goals
    have h20 : 20 ≤ buf.length := by
      simp only [sizeofMessageHeader, not_lt] at h1
      exact h1
    cases hi
    rw [List.length_drop]
    simp only [sizeofMessageHeader]
    omega

/-- When an iteration leaves the loop, the buffer is shorter than a header or
is the start of an incomplete frame. -/
theorem loopIteration_none (h : ByteOrder) (buf : List Byte) (hi : loopIteration h buf = none) :
    Retained buf := by
  unfold loopIteration at hi
  dsimp only at hi
  split_ifs at hi with h1 h2 h3 h4
  · left
    exact h1
  · cases hs : search buf.tail (store32 h MESSAGE_MAGIC) with
    | some k => rw [hs] at hi; cases hi
    | none => rw [hs] at hi; cases hi
  · right
    have h20 : 20 ≤ buf.length := by
      simp only [sizeofMessageHeader, not_lt] at h1
      exact h1
    rw [readHeader_eq] at h2 h3 h4
    simp only [not_not, not_lt, sizeofMessageHeader, MAX_MESSAGE_SIZE] at h2 h3 h4
    refine ⟨?_, by omega, h4⟩
    have hm : load32 .big buf = MESSAGE_MAGIC := h2
    have := (load32_eq_iff .big buf MESSAGE_MAGIC (by omega)).mp hm
    rw [this]
    decide

/-- The loop returns, and what it retains is shorter than a header or the
start of an incomplete frame. -/
theorem processLoop_retained (h : ByteOrder) (fuel : Nat) (buf : List Byte)
    (hf : buf.length < fuel) :
    ∃ ms rest, processLoop h fuel buf = some (ms, rest) ∧ Retained rest ∧
      rest.length ≤ buf.length := by
  induction fuel generalizing buf with
  | zero => omega
  | succ fuel ih =>
    rw [processLoop_iteration]
    cases hi : loopIteration h buf with
    | none => exact ⟨[], buf, rfl, loopIteration_none h buf hi, le_refl _⟩
    | some r =>
      obtain ⟨delivered, next⟩ := r
      have hlt := loopIteration_shorter h buf delivered next hi
      obtain ⟨ms, rest, hp, hr, hle⟩ := ih next (by omega)
      dsimp only
      rw [hp]
      exact ⟨delivered ++ ms, rest, rfl, hr, by omega⟩

/-- C28.  For every host byte order, every receive-buffer content and every
input chunk: each iteration of the loop of `ProcessReceivedData` that does not
leave the loop hands a buffer to the next iteration that is at least one byte
shorter, the loop is its iterations one after the other, and
`ProcessReceivedData` returns; the buffer it retains is either shorter than 20
bytes, or starts with the magic `55 53 42 49`, has a length field `L` of at
most 1,048,576 and holds fewer than `20 + L` bytes; so the retained buffer is
always shorter than 20 + 1,048,576 bytes. -/
theorem receive_buffer_after_processing (h : ByteOrder) (receive_buffer data : List Byte) :
    (∀ (buf : List Byte) (delivered : List NetworkMessage) (next : List Byte),
      loopIteration h buf = some (delivered, next) → next.length + 1 ≤ buf.length) ∧
    (∀ (fuel : Nat) (buf : List Byte),
      processLoop h (fuel + 1) buf
        = match loopIteration h buf with
          | none => some ([], buf)
          | some (delivered, next) =>
            (processLoop h fuel next).map fun r => (delivered ++ r.1, r.2)) ∧
    ∃ ms rest, ProcessReceivedData h receive_buffer data = some (ms, rest) ∧
      (rest.length < 20 ∨
        (rest.take 4 = [0x55, 0x53, 0x42, 0x49] ∧ (readBE32 (rest.drop 8)).val ≤ 1048576 ∧
          rest.length < 20 + (readBE32 (rest.drop 8)).val)) ∧
      rest.length < 20 + 1048576 := by
  refine ⟨fun buf delivered next hi => loopIteration_shorter h buf delivered next hi,
    processLoop_iteration h, ?_⟩
  obtain ⟨ms, rest, hp, hr, -⟩ :=
    processLoop_retained h ((receive_buffer ++ data).length + 1) (receive_buffer ++ data)
      (Nat.lt_succ_self _)
  refine ⟨ms, rest, hp, hr, ?_⟩
  rcases hr with hr | ⟨-, h2, h3⟩
  · omega
  · omega

/-! ### Requests that are echoed -/

/-- C30, as amended.  On an attached virtual device with a response callback
set, a control URB whose `bmRequestType` has both type bits set, and on a
device of class mass storage an OUT bulk URB that carries fewer than 31 data
bytes, get exactly one response, whose payload is the data of the request
itself; its `actual_length` is the size of that data modulo 2^32, which is the
size itself whenever the data is shorter than 2^32 bytes, as it always is in
the bulk case. -/
theorem echoed_requests (h : ByteOrder) (d : VirtualUsbDevice) (u : UsbUrb)
    (ha : d.attached = true) (hc : d.callback_installed = true) :
    (u.type = UsbTransferType.CONTROL → u.setup.bmRequestType.val &&& 0x60 = 0x60 →
      ∃ r : UsbUrb, VirtualUsbDevice.ProcessUrb h d u = (d, [r]) ∧ r.data = u.data ∧
        r.actual_length.val = u.data.length % 4294967296 ∧
        (u.data.length < 4294967296 → r.actual_length.val = u.data.length)) ∧
    (u.type = UsbTransferType.BULK → d.device_info.bDeviceClass = MASS_STORAGE →
      u.direction = UsbDirection.OUT → u.data.length < 31 →
      ∃ r : UsbUrb, VirtualUsbDevice.ProcessUrb h d u = (d, [r]) ∧ r.data = u.data ∧
        r.actual_length.val = u.data.length) := by
  constructor
  · intro ht hb
    refine ⟨responseTo u u.data, ?_, rfl, rfl, fun hlt => Nat.mod_eq_of_lt hlt⟩
    rw [ProcessUrb_control h d u ha ht, HandleControlUrb_eq d u hc, hb,
      if_neg (by decide), if_neg (by decide), if_neg (by decide)]
  · intro ht hclass hout hlen
    refine ⟨responseTo u u.data, ?_, rfl, ?_⟩
    · rw [ProcessUrb_bulk h d u ha ht]
      unfold HandleBulkUrb
      rw [if_pos hclass, HandleMassStorageUrb_eq h d u hc, if_pos hout,
        if_neg (by omega)]
    · show u.data.length % 4294967296 = u.data.length
      exact Nat.mod_eq_of_lt (by omega)

/-- Witness for `echoed_requests`: on the imported test device, a control URB
with `bmRequestType = 0x60` and three data bytes, and a bulk OUT URB with five
data bytes. -/
theorem echoed_requests_witness :
    (∃ r : UsbUrb,
      VirtualUsbDevice.ProcessUrb .little (importedTestDevice .little)
          (reservedControlUrb [7, 8, 9]) = (importedTestDevice .little, [r]) ∧
      r.data = [7, 8, 9] ∧ r.actual_length.val = 3) ∧
    (∃ r : UsbUrb,
      VirtualUsbDevice.ProcessUrb .little (importedTestDevice .little) shortBulkOutUrb
        = (importedTestDevice .little, [r]) ∧
      r.data = [1, 2, 3, 4, 5] ∧ r.actual_length.val = 5) := by
  have hw1 := (echoed_requests .little (importedTestDevice .little) (reservedControlUrb [7, 8, 9])
    (by decide) (by decide)).1 (by decide) (by decide)
  have hw2 := (echoed_requests .little (importedTestDevice .little) shortBulkOutUrb
    (by decide) (by decide)).2 (by decide) (by decide) (by decide) (by decide)
  obtain ⟨r1, e1, d1, -, a1⟩ := hw1
  obtain ⟨r2, e2, d2, a2⟩ := hw2
  exact ⟨⟨r1, e1, d1, a1 (by decide)⟩, ⟨r2, e2, d2, a2⟩⟩

/-- C30, as stated, fails.  A control URB with `bmRequestType = 0x60` whose
data buffer holds 4,294,967,301 bytes is answered with a copy of that data and
with `actual_length` 5, not 4,294,967,301. -/
theorem echoed_actual_length_wraps :
    (VirtualUsbDevice.ProcessUrb .little (importedTestDevice .little)
        (reservedControlUrb (List.replicate 4294967301 0xAB))).2.map
        (fun r => (r.actual_length, r.data.length)) = [(5, 4294967301)] := by
  rw [reserved_control_echo .little (importedTestDevice .little) _ (by decide) (by decide)]
  simp only [List.map_cons, List.map_nil, responseTo, List.length_replicate]
  rfl

end UsbLib
